import Mathlib

/-!
Cache replacement state (LLCsim/replacement_state.cpp)

A shallow embedding of `CACHE_REPLACEMENT_STATE`: the per-line replacement
metadata, victim selection and metadata update for the LRU, Random and
DRRIP ("contestant") policies, followed by theorems about them.

Conventions of the embedding.

* The table `repl[set][way]` is a total map `Nat → Nat → LINE_REPLACEMENT_STATE`
  (memory); the loops of the source only visit `way < assoc`.
* Integer fields hold naturals.  An increment that the source guards
  (`x < y` before `x++`, `x > 0` before `x--`) is written without reduction;
  an unguarded `++` and the subtractions `RRIP_MAX - 1`, `RRIP_MAX - 2`,
  `EPSILON - 1` are written modulo `2 ^ 32`.
* Each call of `rand()` is an explicit argument `r` (the value drawn).
* `while (1)` is a recursion on a fuel argument; `none` means the fuel ran out.
-/

namespace LLCsim

/-! ## Constants and types declared in the header -/

/-- Modelled from the spec: `replacement_state.h` is not part of the source
tree.  Integer members are taken as `UINT32`, the type of every integer the
source file itself declares; `UINT32_MOD` is the modulus of that type. -/
def UINT32_MOD : Nat := 2 ^ 32

/-- Modelled from the spec: policy id `0 = LRU` (section 6), the value of the
header constant `CRC_REPL_LRU`. -/
def CRC_REPL_LRU : Nat := 0

/-- Modelled from the spec: policy id `1 = Random` (section 6), the value of
the header constant `CRC_REPL_RANDOM`. -/
def CRC_REPL_RANDOM : Nat := 1

/-- Modelled from the spec: policy id `2 = Contestant` (section 6), the value
of the header constant `CRC_REPL_CONTESTANT`. -/
def CRC_REPL_CONTESTANT : Nat := 2

/-- Unsigned 32-bit `a - b`. -/
def UINT32_sub (a b : Nat) : Nat := (a + UINT32_MOD - b) % UINT32_MOD

/-- Unsigned 32-bit `a++`. -/
def UINT32_inc (a : Nat) : Nat := (a + 1) % UINT32_MOD

/-- Per-line replacement metadata (`LINE_REPLACEMENT_STATE`). -/
structure LINE_REPLACEMENT_STATE where
  LRUstackposition : Nat
  RRPV : Nat
deriving DecidableEq

/-- One row `repl[setIndex]` of the table: way index to line metadata. -/
abbrev ReplSet := Nat → LINE_REPLACEMENT_STATE

/-- The members of `CACHE_REPLACEMENT_STATE`. -/
structure CACHE_REPLACEMENT_STATE where
  numsets : Nat
  assoc : Nat
  replPolicy : Nat
  mytimer : Nat
  repl : Nat → ReplSet
  hitpolicy : Nat
  RRIP_MAX : Nat
  LeaderSets : Nat
  BL : Nat
  SL : Nat
  BI : Nat
  SI : Nat
  EPSILON : Nat
  PS_MAX : Nat
  PS : Nat

/-- Assignment `replSet[way] = v`. -/
def setWay (replSet : ReplSet) (way : Nat) (v : LINE_REPLACEMENT_STATE) : ReplSet :=
  fun w => if w = way then v else replSet w

/-- Replace row `setIndex` of the table. -/
def setRow (repl : Nat → ReplSet) (setIndex : Nat) (row : ReplSet) : Nat → ReplSet :=
  fun i => if i = setIndex then row else repl i

/-! ## InitReplacementState and the constructor -/

/-- Inner loop of `InitReplacementState`: the row after the iterations
`way = 0 .. n-1`. -/
def InitReplacementState_ways (RRIP_MAX : Nat) (row : ReplSet) : Nat → ReplSet
  | 0 => row
  | n + 1 =>
    setWay (InitReplacementState_ways RRIP_MAX row n) n
      ⟨n, UINT32_sub RRIP_MAX 1⟩

/-- Outer loop of `InitReplacementState`: the table after the iterations
`setIndex = 0 .. n-1`.  The freshly allocated row starts from whatever the
memory holds. -/
def InitReplacementState_sets (assoc RRIP_MAX : Nat) (repl : Nat → ReplSet) :
    Nat → (Nat → ReplSet)
  | 0 => repl
  | n + 1 =>
    let t := InitReplacementState_sets assoc RRIP_MAX repl n
    setRow t n (InitReplacementState_ways RRIP_MAX (t n) assoc)

/-- Function `InitReplacementState`.  The argument is the object as the constructor
left it: members the function does not assign keep the value they had. -/
def InitReplacementState (s : CACHE_REPLACEMENT_STATE) : CACHE_REPLACEMENT_STATE :=
  let s1 : CACHE_REPLACEMENT_STATE :=
    if s.replPolicy = CRC_REPL_CONTESTANT then { s with hitpolicy := 0, RRIP_MAX := 4 } else s
  let s2 : CACHE_REPLACEMENT_STATE :=
    { s1 with LeaderSets := 32, BL := 0, SL := 0, BI := 0, SI := 0,
              EPSILON := 16, PS_MAX := 1024, PS := 1024 / 2 }
  { s2 with repl := InitReplacementState_sets s2.assoc s2.RRIP_MAX s2.repl s2.numsets }

/-- The constructor `CACHE_REPLACEMENT_STATE(_sets, _assoc, _pol)`; `mem` is
the uninitialised object. -/
def construct (mem : CACHE_REPLACEMENT_STATE) (_sets _assoc _pol : Nat) :
    CACHE_REPLACEMENT_STATE :=
  InitReplacementState
    { mem with numsets := _sets, assoc := _assoc, replPolicy := _pol, mytimer := 0 }

/-! ## LRU -/

/-- The scan of `Get_LRU_Victim` from `way` on, `n` iterations left;
`lruWay` is initialised to `0` and assigned at the first match.  The body
runs only when `assoc ≥ 1`, where `assoc - 1` does not wrap. -/
def Get_LRU_Victim_scan (replSet : ReplSet) (assoc : Nat) : Nat → Nat → Int
  | _, 0 => 0
  | way, n + 1 =>
    if (replSet way).LRUstackposition = assoc - 1 then (way : Int)
    else Get_LRU_Victim_scan replSet assoc (way + 1) n

/-- Function `Get_LRU_Victim(setIndex)`. -/
def Get_LRU_Victim (s : CACHE_REPLACEMENT_STATE) (setIndex : Nat) : Int :=
  Get_LRU_Victim_scan (s.repl setIndex) s.assoc 0 s.assoc

/-- The loop of `UpdateLRU`: the row after the iterations `way = 0 .. n-1`. -/
def UpdateLRU_loop (currLRUstackposition : Nat) (replSet : ReplSet) : Nat → ReplSet
  | 0 => replSet
  | n + 1 =>
    let r := UpdateLRU_loop currLRUstackposition replSet n
    if (r n).LRUstackposition < currLRUstackposition then
      setWay r n { r n with LRUstackposition := (r n).LRUstackposition + 1 }
    else r

/-- Function `UpdateLRU` on one row. -/
def UpdateLRU_row (assoc : Nat) (replSet : ReplSet) (updateWayID : Nat) : ReplSet :=
  let currLRUstackposition := (replSet updateWayID).LRUstackposition
  let r := UpdateLRU_loop currLRUstackposition replSet assoc
  setWay r updateWayID { r updateWayID with LRUstackposition := 0 }

/-- Function `UpdateLRU(setIndex, updateWayID)`. -/
def UpdateLRU (s : CACHE_REPLACEMENT_STATE) (setIndex updateWayID : Nat) :
    CACHE_REPLACEMENT_STATE :=
  { s with repl := setRow s.repl setIndex (UpdateLRU_row s.assoc (s.repl setIndex) updateWayID) }

/-! ## Random -/

/-- Function `Get_Random_Victim(setIndex)`, `r` being the value of `rand()`.
`rand() % assoc` is an integer division by the member `assoc`: when that is 0
the division traps and no way is returned (`none`). -/
def Get_Random_Victim (s : CACHE_REPLACEMENT_STATE) (r : Nat) (_setIndex : Nat) : Option Int :=
  if s.assoc = 0 then none else some ((r % s.assoc : Nat) : Int)

/-! ## RRIP -/

/-- The scan of `Get_DRRIP_Victim` from `way` on, `n` iterations left;
`result` stays `-1` when no way matches. -/
def Get_DRRIP_Victim_scan (replacementSet : ReplSet) (RRIP_MAX : Nat) : Nat → Nat → Int
  | _, 0 => -1
  | way, n + 1 =>
    if (replacementSet way).RRPV = UINT32_sub RRIP_MAX 1 then (way : Int)
    else Get_DRRIP_Victim_scan replacementSet RRIP_MAX (way + 1) n

/-- The aging loop of `Get_DRRIP_Victim`: the row after `RRPV++` on the ways
`0 .. n-1`. -/
def Get_DRRIP_Victim_age (replacementSet : ReplSet) : Nat → ReplSet
  | 0 => replacementSet
  | n + 1 =>
    let r := Get_DRRIP_Victim_age replacementSet n
    setWay r n { r n with RRPV := UINT32_inc (r n).RRPV }

/-- The `while (1)` loop of `Get_DRRIP_Victim` on one row.  Returns the
result, the row, and the number of aging passes made; `none` when the fuel
(the number of scans allowed) is used up. -/
def Get_DRRIP_Victim_loop (assoc RRIP_MAX : Nat) :
    Nat → ReplSet → Nat → Option (Int × ReplSet × Nat)
  | 0, _, _ => none
  | fuel + 1, replacementSet, passes =>
    let result := Get_DRRIP_Victim_scan replacementSet RRIP_MAX 0 assoc
    if result ≥ 0 then some (result, replacementSet, passes)
    else Get_DRRIP_Victim_loop assoc RRIP_MAX fuel
           (Get_DRRIP_Victim_age replacementSet assoc) (passes + 1)

/-- Function `Get_DRRIP_Victim(setIndex)`: the way returned and the state left. -/
def Get_DRRIP_Victim (fuel : Nat) (s : CACHE_REPLACEMENT_STATE) (setIndex : Nat) :
    Option (Int × CACHE_REPLACEMENT_STATE) :=
  match Get_DRRIP_Victim_loop s.assoc s.RRIP_MAX fuel (s.repl setIndex) 0 with
  | none => none
  | some (result, row, _) => some (result, { s with repl := setRow s.repl setIndex row })

/-- Number of aging passes `Get_DRRIP_Victim(setIndex)` makes. -/
def Get_DRRIP_Victim_passes (fuel : Nat) (s : CACHE_REPLACEMENT_STATE) (setIndex : Nat) :
    Option Nat :=
  (Get_DRRIP_Victim_loop s.assoc s.RRIP_MAX fuel (s.repl setIndex) 0).map (fun x => x.2.2)

/-- Function `UpdateSRRIP(setIndex, updateWayID, cacheHit)`. -/
def UpdateSRRIP (s : CACHE_REPLACEMENT_STATE) (setIndex updateWayID : Nat) (cacheHit : Bool) :
    CACHE_REPLACEMENT_STATE :=
  let replacementSet := s.repl setIndex
  let line := replacementSet updateWayID
  let row : ReplSet :=
    if cacheHit then
      if s.hitpolicy ≠ 0 then
        if line.RRPV > 0 then setWay replacementSet updateWayID { line with RRPV := line.RRPV - 1 }
        else replacementSet
      else setWay replacementSet updateWayID { line with RRPV := 0 }
    else setWay replacementSet updateWayID { line with RRPV := UINT32_sub s.RRIP_MAX 2 }
  { s with repl := setRow s.repl setIndex row }

/-- Function `UpdateBRRIP(setIndex, updateWayID, cacheHit)`; `r` is the value `rand()`
returns if it is called.  The divisor of `rand() % EPSILON` is the member
`EPSILON`, which `InitReplacementState` sets to 16 and nothing else writes, so
in a constructed object the division does not trap; the statements that
depend on its value assume `EPSILON = 16`. -/
def UpdateBRRIP (s : CACHE_REPLACEMENT_STATE) (r : Nat) (setIndex updateWayID : Nat)
    (cacheHit : Bool) : CACHE_REPLACEMENT_STATE :=
  let replacementSet := s.repl setIndex
  let line := replacementSet updateWayID
  let row : ReplSet :=
    if cacheHit then
      if s.hitpolicy ≠ 0 then
        if line.RRPV > 0 then setWay replacementSet updateWayID { line with RRPV := line.RRPV - 1 }
        else replacementSet
      else setWay replacementSet updateWayID { line with RRPV := 0 }
    else
      let randnum := (r % s.EPSILON) % UINT32_MOD
      if randnum = UINT32_sub s.EPSILON 1 then
        setWay replacementSet updateWayID { line with RRPV := UINT32_sub s.RRIP_MAX 2 }
      else setWay replacementSet updateWayID { line with RRPV := UINT32_sub s.RRIP_MAX 1 }
  { s with repl := setRow s.repl setIndex row }

/-- Function `UpdateDRRIP(setIndex, updateWayID, cacheHit)`. -/
def UpdateDRRIP (s : CACHE_REPLACEMENT_STATE) (r : Nat) (setIndex updateWayID : Nat)
    (cacheHit : Bool) : CACHE_REPLACEMENT_STATE :=
  if setIndex % 33 = 0 ∧ setIndex < (s.LeaderSets * 33) % UINT32_MOD then
    let s1 := UpdateSRRIP s setIndex updateWayID cacheHit
    if !cacheHit then
      let s2 := if s1.PS > 0 then { s1 with PS := s1.PS - 1 } else s1
      { s2 with BL := UINT32_inc s2.BL }
    else s1
  else if setIndex % 31 = 0 ∧ setIndex > 0 ∧ setIndex ≤ (31 * s.LeaderSets) % UINT32_MOD then
    let s1 := UpdateBRRIP s r setIndex updateWayID cacheHit
    if !cacheHit then
      let s2 := if s1.PS < s1.PS_MAX then { s1 with PS := s1.PS + 1 } else s1
      { s2 with SL := UINT32_inc s2.SL }
    else s1
  else if s.PS ≥ s.PS_MAX / 2 then
    let s1 := UpdateSRRIP s setIndex updateWayID cacheHit
    if !cacheHit then { s1 with SI := UINT32_inc s1.SI } else s1
  else if s.PS < s.PS_MAX / 2 then
    let s1 := UpdateBRRIP s r setIndex updateWayID cacheHit
    if !cacheHit then { s1 with BI := UINT32_inc s1.BI } else s1
  else s

/-! ## Dispatch -/

/-- What a call can come to: a normal return, a failed `assert`, a loop that
is still running when the fuel is used up, or the trap of an integer division
by zero. -/
inductive Outcome (α : Type) where
  | ret (a : α)
  | assertFailed
  | outOfFuel
  | divideByZero

/-- Function `GetVictimInSet(tid, setIndex, vicSet, assoc, PC, paddr, accessType)`: the
way returned and the state left.  Only `setIndex` is read; `r` is the value
of `rand()` if it is called. -/
def GetVictimInSet (fuel : Nat) (s : CACHE_REPLACEMENT_STATE) (r : Nat) (setIndex : Nat) :
    Outcome (Int × CACHE_REPLACEMENT_STATE) :=
  if s.replPolicy = CRC_REPL_LRU then .ret (Get_LRU_Victim s setIndex, s)
  else if s.replPolicy = CRC_REPL_RANDOM then
    match Get_Random_Victim s r setIndex with
    | some way => .ret (way, s)
    | none => .divideByZero
  else if s.replPolicy = CRC_REPL_CONTESTANT then
    match Get_DRRIP_Victim fuel s setIndex with
    | some x => .ret x
    | none => .outOfFuel
  else .assertFailed

/-- Function `UpdateReplacementState(setIndex, updateWayID, currLine, tid, PC,
accessType, cacheHit)`.  Only `setIndex`, `updateWayID` and `cacheHit` are
read. -/
def UpdateReplacementState (s : CACHE_REPLACEMENT_STATE) (r : Nat) (setIndex updateWayID : Nat)
    (cacheHit : Bool) : CACHE_REPLACEMENT_STATE :=
  if s.replPolicy = CRC_REPL_LRU then UpdateLRU s setIndex updateWayID
  else if s.replPolicy = CRC_REPL_RANDOM then s
  else if s.replPolicy = CRC_REPL_CONTESTANT then UpdateDRRIP s r setIndex updateWayID cacheHit
  else s

/-! ## Predicates and traces used in the statements -/

/-- The LRU stack positions of the ways `0 .. assoc-1` of a row, in way order. -/
def stackPositions (replSet : ReplSet) (assoc : Nat) : List Nat :=
  (List.range assoc).map (fun w => (replSet w).LRUstackposition)

/-- The stack positions of the row are a permutation of `0 .. assoc-1`. -/
def LRUperm (replSet : ReplSet) (assoc : Nat) : Prop :=
  List.Perm (stackPositions replSet assoc) (List.range assoc)

instance (replSet : ReplSet) (assoc : Nat) : Decidable (LRUperm replSet assoc) := by
  unfold LRUperm; infer_instance

/-- One call of `UpdateReplacementState`: its arguments and the value `rand()`
would return during it. -/
structure Access where
  setIndex : Nat
  way : Nat
  cacheHit : Bool
  r : Nat

/-- A sequence of `UpdateReplacementState` calls, first call first. -/
def runUpdates (s : CACHE_REPLACEMENT_STATE) (calls : List Access) : CACHE_REPLACEMENT_STATE :=
  calls.foldl (fun st c => UpdateReplacementState st c.r c.setIndex c.way c.cacheHit) s

/-- A sequence of `UpdateLRU` calls on one set, first call first. -/
def runUpdateLRU (s : CACHE_REPLACEMENT_STATE) (setIndex : Nat) (ways : List Nat) :
    CACHE_REPLACEMENT_STATE :=
  ways.foldl (fun st w => UpdateLRU st setIndex w) s

/-- A sequence of `UpdateLRU` calls seen on the row they address. -/
def runUpdateLRU_row (assoc : Nat) (replSet : ReplSet) (ways : List Nat) : ReplSet :=
  ways.foldl (fun r w => UpdateLRU_row assoc r w) replSet

/-- Number of distinct entries of `l` that stand before the first `w`. -/
def distinctBefore (w : Nat) (l : List Nat) : Nat :=
  ((l.takeWhile (fun x => x ≠ w)).dedup).length

/-- Number of distinct ways touched after the last touch of `w` in the trace
`ways` (first touch first): read from the end, the touches met before `w`. -/
def touchedAfterLast (w : Nat) (ways : List Nat) : Nat :=
  distinctBefore w ways.reverse

/-- Number of touches in the trace up to and including the last touch of `w`
(`0` when `w` is never touched): the time of the most recent touch of `w`. -/
def lastTouch (w : Nat) (ways : List Nat) : Nat :=
  ways.length - ways.reverse.indexOf w

/-- Every RRPV of the row, over the ways `0 .. assoc-1`, is at most `3`. -/
def RRPVrow_bounds (replSet : ReplSet) (assoc : Nat) : Prop :=
  ∀ w, w < assoc → (replSet w).RRPV ≤ 3

/-- Every RRPV of the table is in `[0, 3]`. -/
def RRPV_bounds (s : CACHE_REPLACEMENT_STATE) : Prop :=
  ∀ i, i < s.numsets → RRPVrow_bounds (s.repl i) s.assoc

/-- The state of a contestant cache the RRIP claims speak about: `RRIP_MAX`
is 4, there is at least one way, and every RRPV of the table is in `[0, 3]`. -/
def RRIPstate (s : CACHE_REPLACEMENT_STATE) : Prop :=
  s.RRIP_MAX = 4 ∧ 1 ≤ s.assoc ∧ RRPV_bounds s

instance (replSet : ReplSet) (assoc : Nat) : Decidable (RRPVrow_bounds replSet assoc) := by
  unfold RRPVrow_bounds; infer_instance

instance (s : CACHE_REPLACEMENT_STATE) : Decidable (RRPV_bounds s) := by
  unfold RRPV_bounds; infer_instance

instance (s : CACHE_REPLACEMENT_STATE) : Decidable (RRIPstate s) := by
  unfold RRIPstate; infer_instance

/-- The row differs from `replSet` at most in the RRPVs of ways `0 .. assoc-1`. -/
def sameButRRPV (assoc : Nat) (replSet row : ReplSet) : Prop :=
  ∀ w, (row w).LRUstackposition = (replSet w).LRUstackposition ∧
    (assoc ≤ w → row w = replSet w)

/-! ## Leader sets and call sequences -/

/-- The test of the first branch of `UpdateDRRIP`: the set is an SRRIP leader. -/
def isSRRIPleader (LeaderSets setIndex : Nat) : Prop :=
  setIndex % 33 = 0 ∧ setIndex < (LeaderSets * 33) % UINT32_MOD

/-- The test of the second branch of `UpdateDRRIP`: the set is a BRRIP leader. -/
def isBRRIPleader (LeaderSets setIndex : Nat) : Prop :=
  setIndex % 31 = 0 ∧ setIndex > 0 ∧ setIndex ≤ (31 * LeaderSets) % UINT32_MOD

instance (LeaderSets setIndex : Nat) : Decidable (isSRRIPleader LeaderSets setIndex) := by
  unfold isSRRIPleader; infer_instance

instance (LeaderSets setIndex : Nat) : Decidable (isBRRIPleader LeaderSets setIndex) := by
  unfold isBRRIPleader; infer_instance

/-- How `UpdateDRRIP` treats a set: the branch its if / else-if chain takes. -/
inductive SetRole where
  | srripLeader
  | brripLeader
  | follower
deriving DecidableEq

/-- The branch of `UpdateDRRIP` a set index falls in, tests in source order. -/
def setRole (LeaderSets setIndex : Nat) : SetRole :=
  if setIndex % 33 = 0 ∧ setIndex < (LeaderSets * 33) % UINT32_MOD then .srripLeader
  else if setIndex % 31 = 0 ∧ setIndex > 0 ∧ setIndex ≤ (31 * LeaderSets) % UINT32_MOD then
    .brripLeader
  else .follower

/-- The set indices below `numsets` that `UpdateDRRIP` treats in the given
way, in increasing order. -/
def setsWithRole (LeaderSets numsets : Nat) (role : SetRole) : List Nat :=
  (List.range numsets).filter (fun i => setRole LeaderSets i = role)

/-- For comparison with `UpdateDRRIP`: the same function with the BRRIP-leader
test made before the SRRIP-leader test. -/
def UpdateDRRIP_BRRIP_first (s : CACHE_REPLACEMENT_STATE) (r : Nat)
    (setIndex updateWayID : Nat) (cacheHit : Bool) : CACHE_REPLACEMENT_STATE :=
  if setIndex % 31 = 0 ∧ setIndex > 0 ∧ setIndex ≤ (31 * s.LeaderSets) % UINT32_MOD then
    let s1 := UpdateBRRIP s r setIndex updateWayID cacheHit
    if !cacheHit then
      let s2 := if s1.PS < s1.PS_MAX then { s1 with PS := s1.PS + 1 } else s1
      { s2 with SL := UINT32_inc s2.SL }
    else s1
  else if setIndex % 33 = 0 ∧ setIndex < (s.LeaderSets * 33) % UINT32_MOD then
    let s1 := UpdateSRRIP s setIndex updateWayID cacheHit
    if !cacheHit then
      let s2 := if s1.PS > 0 then { s1 with PS := s1.PS - 1 } else s1
      { s2 with BL := UINT32_inc s2.BL }
    else s1
  else if s.PS ≥ s.PS_MAX / 2 then
    let s1 := UpdateSRRIP s setIndex updateWayID cacheHit
    if !cacheHit then { s1 with SI := UINT32_inc s1.SI } else s1
  else if s.PS < s.PS_MAX / 2 then
    let s1 := UpdateBRRIP s r setIndex updateWayID cacheHit
    if !cacheHit then { s1 with BI := UINT32_inc s1.BI } else s1
  else s

/-- One call made by the cache: `GetVictimInSet` or `UpdateReplacementState`,
with the value `rand()` would return during it. -/
inductive Call where
  | victim (setIndex : Nat) (r : Nat)
  | update (setIndex way : Nat) (cacheHit : Bool) (r : Nat)

/-- One call: the ways returned so far, extended by the way a victim call
returns, and the state left. -/
def stepCall (fuel : Nat) (ways : List Int) (s : CACHE_REPLACEMENT_STATE) :
    Call → Outcome (List Int × CACHE_REPLACEMENT_STATE)
  | .victim setIndex r =>
    match GetVictimInSet fuel s r setIndex with
    | .ret x => .ret (ways ++ [x.1], x.2)
    | .assertFailed => .assertFailed
    | .outOfFuel => .outOfFuel
    | .divideByZero => .divideByZero
  | .update setIndex way cacheHit r =>
    .ret (ways, UpdateReplacementState s r setIndex way cacheHit)

/-- A sequence of calls, first call first: the ways the victim calls return,
in order, and the final state. -/
def runCalls (fuel : Nat) :
    List Int → CACHE_REPLACEMENT_STATE → List Call →
      Outcome (List Int × CACHE_REPLACEMENT_STATE)
  | ways, s, [] => .ret (ways, s)
  | ways, s, c :: rest =>
    match stepCall fuel ways s c with
    | .ret x => runCalls fuel x.1 x.2 rest
    | .assertFailed => .assertFailed
    | .outOfFuel => .outOfFuel
    | .divideByZero => .divideByZero

/-! ## Runs used in the scenarios -/

/-- A sequence of `UpdateDRRIP` calls, first call first. -/
def runUpdateDRRIP (s : CACHE_REPLACEMENT_STATE) (calls : List Access) : CACHE_REPLACEMENT_STATE :=
  calls.foldl (fun st c => UpdateDRRIP st c.r c.setIndex c.way c.cacheHit) s

/-- The constructor with the one check it makes, `assert(repl)` after the
allocation of the table; `allocated` says whether `new` gave a table. -/
def constructOutcome (allocated : Bool) (mem : CACHE_REPLACEMENT_STATE)
    (_sets _assoc _pol : Nat) : Outcome CACHE_REPLACEMENT_STATE :=
  if allocated then .ret (construct mem _sets _assoc _pol) else .assertFailed

/-- One miss cycle on a set of a contestant cache: `Get_DRRIP_Victim`, then
`UpdateDRRIP` with `cacheHit = false` on the way returned.  Gives the way, the
number of aging passes of the victim search, and the state left. -/
def missCycle (fuel : Nat) (s : CACHE_REPLACEMENT_STATE) (r setIndex : Nat) :
    Option (Int × Nat × CACHE_REPLACEMENT_STATE) :=
  match Get_DRRIP_Victim fuel s setIndex, Get_DRRIP_Victim_passes fuel s setIndex with
  | some (way, s1), some passes =>
    some (way, passes, UpdateDRRIP s1 r setIndex way.toNat false)
  | _, _ => none

/-- Consecutive miss cycles on one set, one per value of `rand()` in `draws`:
the ways returned with the aging passes made, in order, and the final state. -/
def missCycles (fuel setIndex : Nat) :
    List Nat → CACHE_REPLACEMENT_STATE → Option (List (Int × Nat) × CACHE_REPLACEMENT_STATE)
  | [], s => some ([], s)
  | r :: draws, s =>
    match missCycle fuel s r setIndex with
    | none => none
    | some (way, passes, s1) =>
      match missCycles fuel setIndex draws s1 with
      | none => none
      | some (ways, s2) => some ((way, passes) :: ways, s2)

/-- Set 0 of a contestant cache with `assoc` ways in which the ways below `j`
have been filled: they are at RRPV 2, the others at RRPV 3. -/
def filledUpTo (assoc j : Nat) (s : CACHE_REPLACEMENT_STATE) : Prop :=
  s.RRIP_MAX = 4 ∧ s.LeaderSets = 32 ∧ s.assoc = assoc ∧
    ∀ w, w < assoc → (s.repl 0 w).RRPV = if w < j then 2 else 3

/-! ## Counters, draws of rand() and LRU miss cycles -/

/-- Number of calls with `cacheHit = false` in a sequence of update calls. -/
def missCount (calls : List Access) : Nat :=
  (calls.filter (fun c => !c.cacheHit)).length

/-- The sum SL + BL + SI + BI of the four miss counters. -/
def counterSum (s : CACHE_REPLACEMENT_STATE) : Nat := s.SL + s.BL + s.SI + s.BI

/-- The largest RRPV among the ways `0 .. n-1` of a row (0 for `n = 0`). -/
def maxRRPV (replSet : ReplSet) : Nat → Nat
  | 0 => 0
  | n + 1 => max (maxRRPV replSet n) (replSet n).RRPV

/-- The generator behind `rand()`.  It belongs to the process, not to the
engine: every caller of `rand()` advances the same generator.  `draws k` is
the value the call number `k` of the process returns (counting from 0) and
`pos` the number of calls made so far. -/
structure RandState where
  draws : Nat → Nat
  pos : Nat

/-- Library function `rand()`: the value returned and the generator left. -/
def rand (g : RandState) : Nat × RandState :=
  (g.draws g.pos, { g with pos := g.pos + 1 })

/-- Function `Get_Random_Victim(setIndex)` with its call of `rand()` made on the
generator of the process; the call comes before the division. -/
def Get_Random_Victim_rand (s : CACHE_REPLACEMENT_STATE) (g : RandState) (setIndex : Nat) :
    Option Int × RandState :=
  let x := rand g
  (Get_Random_Victim s x.1 setIndex, x.2)

/-- Function `UpdateBRRIP(setIndex, updateWayID, cacheHit)` with its call of
`rand()`, in the `else` branch only, made on the generator of the process;
the divisor `EPSILON` is as in `UpdateBRRIP`. -/
def UpdateBRRIP_rand (s : CACHE_REPLACEMENT_STATE) (g : RandState) (setIndex updateWayID : Nat)
    (cacheHit : Bool) : CACHE_REPLACEMENT_STATE × RandState :=
  let replacementSet := s.repl setIndex
  let line := replacementSet updateWayID
  if cacheHit then
    let row : ReplSet :=
      if s.hitpolicy ≠ 0 then
        if line.RRPV > 0 then setWay replacementSet updateWayID { line with RRPV := line.RRPV - 1 }
        else replacementSet
      else setWay replacementSet updateWayID { line with RRPV := 0 }
    ({ s with repl := setRow s.repl setIndex row }, g)
  else
    let x := rand g
    let randnum := (x.1 % s.EPSILON) % UINT32_MOD
    let row : ReplSet :=
      if randnum = UINT32_sub s.EPSILON 1 then
        setWay replacementSet updateWayID { line with RRPV := UINT32_sub s.RRIP_MAX 2 }
      else setWay replacementSet updateWayID { line with RRPV := UINT32_sub s.RRIP_MAX 1 }
    ({ s with repl := setRow s.repl setIndex row }, x.2)

/-- Function `UpdateDRRIP(setIndex, updateWayID, cacheHit)` with the calls of
`rand()` made on the generator of the process. -/
def UpdateDRRIP_rand (s : CACHE_REPLACEMENT_STATE) (g : RandState) (setIndex updateWayID : Nat)
    (cacheHit : Bool) : CACHE_REPLACEMENT_STATE × RandState :=
  if setIndex % 33 = 0 ∧ setIndex < (s.LeaderSets * 33) % UINT32_MOD then
    let s1 := UpdateSRRIP s setIndex updateWayID cacheHit
    if !cacheHit then
      let s2 := if s1.PS > 0 then { s1 with PS := s1.PS - 1 } else s1
      ({ s2 with BL := UINT32_inc s2.BL }, g)
    else (s1, g)
  else if setIndex % 31 = 0 ∧ setIndex > 0 ∧ setIndex ≤ (31 * s.LeaderSets) % UINT32_MOD then
    let x := UpdateBRRIP_rand s g setIndex updateWayID cacheHit
    let s1 := x.1
    if !cacheHit then
      let s2 := if s1.PS < s1.PS_MAX then { s1 with PS := s1.PS + 1 } else s1
      ({ s2 with SL := UINT32_inc s2.SL }, x.2)
    else (s1, x.2)
  else if s.PS ≥ s.PS_MAX / 2 then
    let s1 := UpdateSRRIP s setIndex updateWayID cacheHit
    if !cacheHit then ({ s1 with SI := UINT32_inc s1.SI }, g) else (s1, g)
  else if s.PS < s.PS_MAX / 2 then
    let x := UpdateBRRIP_rand s g setIndex updateWayID cacheHit
    let s1 := x.1
    if !cacheHit then ({ s1 with BI := UINT32_inc s1.BI }, x.2) else (s1, x.2)
  else (s, g)

/-- Function `GetVictimInSet` with the calls of `rand()` made on the generator
of the process: the way returned, the state left and the generator left. -/
def GetVictimInSet_rand (fuel : Nat) (s : CACHE_REPLACEMENT_STATE) (g : RandState)
    (setIndex : Nat) : Outcome (Int × CACHE_REPLACEMENT_STATE × RandState) :=
  if s.replPolicy = CRC_REPL_LRU then .ret (Get_LRU_Victim s setIndex, s, g)
  else if s.replPolicy = CRC_REPL_RANDOM then
    match Get_Random_Victim_rand s g setIndex with
    | (some way, g1) => .ret (way, s, g1)
    | (none, _) => .divideByZero
  else if s.replPolicy = CRC_REPL_CONTESTANT then
    match Get_DRRIP_Victim fuel s setIndex with
    | some x => .ret (x.1, x.2, g)
    | none => .outOfFuel
  else .assertFailed

/-- Function `UpdateReplacementState` with the calls of `rand()` made on the
generator of the process: the state left and the generator left. -/
def UpdateReplacementState_rand (s : CACHE_REPLACEMENT_STATE) (g : RandState)
    (setIndex updateWayID : Nat) (cacheHit : Bool) : CACHE_REPLACEMENT_STATE × RandState :=
  if s.replPolicy = CRC_REPL_LRU then (UpdateLRU s setIndex updateWayID, g)
  else if s.replPolicy = CRC_REPL_RANDOM then (s, g)
  else if s.replPolicy = CRC_REPL_CONTESTANT then
    UpdateDRRIP_rand s g setIndex updateWayID cacheHit
  else (s, g)

/-- The update calls that insert by BRRIP: a miss under the contestant policy
on a set that the chain of `UpdateDRRIP` sends to `UpdateBRRIP`, that is, not
an SRRIP leader and either a BRRIP leader or with PSEL below `PS_MAX / 2`. -/
def insertsByBRRIP (s : CACHE_REPLACEMENT_STATE) (setIndex : Nat) (cacheHit : Bool) : Prop :=
  s.replPolicy = CRC_REPL_CONTESTANT ∧ cacheHit = false ∧
    ¬ isSRRIPleader s.LeaderSets setIndex ∧
    (isBRRIPleader s.LeaderSets setIndex ∨ s.PS < s.PS_MAX / 2)

instance (s : CACHE_REPLACEMENT_STATE) (setIndex : Nat) (cacheHit : Bool) :
    Decidable (insertsByBRRIP s setIndex cacheHit) := by
  unfold insertsByBRRIP; infer_instance

/-- One call made by the cache. -/
inductive Request where
  | victim (setIndex : Nat)
  | update (setIndex way : Nat) (cacheHit : Bool)
deriving DecidableEq

/-- One call made by the cache, as it happens in a process: code outside the
engine first calls `rand()` `foreign` times, then the cache makes the call. -/
structure Event where
  foreign : Nat
  request : Request

/-- A number of calls of `rand()` made by code outside the engine. -/
def foreignCalls (g : RandState) : Nat → RandState
  | 0 => g
  | n + 1 => (rand (foreignCalls g n)).2

/-- The values `rand()` returned while the generator went from `g` to `g1`. -/
def drawsBetween (g g1 : RandState) : List Nat :=
  (List.range (g1.pos - g.pos)).map (fun k => g.draws (g.pos + k))

/-- What a run has produced so far: the ways returned by the victim calls,
the RRPVs left in the line by the miss updates, the values `rand()` returned
to the engine, the state of the engine and the generator of the process. -/
structure RunState where
  ways : List Int
  inserted : List Nat
  received : List Nat
  state : CACHE_REPLACEMENT_STATE
  gen : RandState

/-- One event of a run. -/
def stepProcess (fuel : Nat) (x : RunState) (e : Event) : Outcome RunState :=
  let g0 := foreignCalls x.gen e.foreign
  match e.request with
  | .victim setIndex =>
    match GetVictimInSet_rand fuel x.state g0 setIndex with
    | .ret y =>
      .ret ⟨x.ways ++ [y.1], x.inserted, x.received ++ drawsBetween g0 y.2.2, y.2.1, y.2.2⟩
    | .assertFailed => .assertFailed
    | .outOfFuel => .outOfFuel
    | .divideByZero => .divideByZero
  | .update setIndex way cacheHit =>
    let y := UpdateReplacementState_rand x.state g0 setIndex way cacheHit
    .ret ⟨x.ways,
      if cacheHit then x.inserted else x.inserted ++ [(y.1.repl setIndex way).RRPV],
      x.received ++ drawsBetween g0 y.2, y.1, y.2⟩

/-- A run of a process: a sequence of events, first event first. -/
def runProcess (fuel : Nat) : RunState → List Event → Outcome RunState
  | x, [] => .ret x
  | x, e :: rest =>
    match stepProcess fuel x e with
    | .ret y => runProcess fuel y rest
    | .assertFailed => .assertFailed
    | .outOfFuel => .outOfFuel
    | .divideByZero => .divideByZero

/-- Two runs have produced the same so far, whatever their generators: the
same ways, inserted RRPVs, values received from `rand()` and engine state. -/
def sameEngine (x y : RunState) : Prop :=
  x.ways = y.ways ∧ x.inserted = y.inserted ∧ x.received = y.received ∧ x.state = y.state

/-- A state on which every call returns: an LRU cache, a Random cache with at
least one way, or a contestant cache in `RRIPstate`. -/
def servable (s : CACHE_REPLACEMENT_STATE) : Prop :=
  s.replPolicy = CRC_REPL_LRU ∨ (s.replPolicy = CRC_REPL_RANDOM ∧ 1 ≤ s.assoc) ∨
    (s.replPolicy = CRC_REPL_CONTESTANT ∧ RRIPstate s)

/-- The requests during which the engine calls `rand()`: a victim selection
under Random and an update that inserts by BRRIP. -/
def callsRand (s : CACHE_REPLACEMENT_STATE) : Request → Prop
  | .victim _ => s.replPolicy = CRC_REPL_RANDOM
  | .update setIndex _ cacheHit => insertsByBRRIP s setIndex cacheHit

instance (s : CACHE_REPLACEMENT_STATE) (q : Request) : Decidable (callsRand s q) := by
  cases q <;> (unfold callsRand; infer_instance)

/-- One request served with `r` for the value of `rand()`, should it be
called: the ways returned, the RRPVs inserted and the state after it. -/
def serve (fuel : Nat) (ways : List Int) (inserted : List Nat) (s : CACHE_REPLACEMENT_STATE)
    (r : Nat) : Request → Outcome (List Int × List Nat × CACHE_REPLACEMENT_STATE)
  | .victim setIndex =>
    match GetVictimInSet fuel s r setIndex with
    | .ret y => .ret (ways ++ [y.1], inserted, y.2)
    | .assertFailed => .assertFailed
    | .outOfFuel => .outOfFuel
    | .divideByZero => .divideByZero
  | .update setIndex way cacheHit =>
    let s1 := UpdateReplacementState s r setIndex way cacheHit
    .ret (ways, if cacheHit then inserted else inserted ++ [(s1.repl setIndex way).RRPV], s1)

/-- One LRU miss cycle on a set: `Get_LRU_Victim`, then `UpdateLRU` on the way
returned. -/
def lruMissCycle (s : CACHE_REPLACEMENT_STATE) (setIndex : Nat) :
    Int × CACHE_REPLACEMENT_STATE :=
  let way := Get_LRU_Victim s setIndex
  (way, UpdateLRU s setIndex way.toNat)

/-- Consecutive LRU miss cycles on one set: the ways evicted, in order, and
the final state. -/
def lruMissCycles (setIndex : Nat) :
    Nat → CACHE_REPLACEMENT_STATE → List Int × CACHE_REPLACEMENT_STATE
  | 0, s => ([], s)
  | n + 1, s =>
    let x := lruMissCycle s setIndex
    let y := lruMissCycles setIndex n x.2
    (x.1 :: y.1, y.2)

/-- An object whose members are all zero, used as the uninitialised memory
in the worked examples. -/
def zeroObject : CACHE_REPLACEMENT_STATE where
  numsets := 0
  assoc := 0
  replPolicy := 0
  mytimer := 0
  repl := fun _ _ => ⟨0, 0⟩
  hitpolicy := 0
  RRIP_MAX := 0
  LeaderSets := 0
  BL := 0
  SL := 0
  BI := 0
  SI := 0
  EPSILON := 0
  PS_MAX := 0
  PS := 0

/-- A freshly constructed LRU cache with 2 sets of 4 ways. -/
def lruExample : CACHE_REPLACEMENT_STATE := construct zeroObject 2 4 CRC_REPL_LRU

/-- A freshly constructed contestant (DRRIP) cache with 64 sets of 4 ways. -/
def drripExample : CACHE_REPLACEMENT_STATE := construct zeroObject 64 4 CRC_REPL_CONTESTANT

/-- The contestant example after a hit on every way of set 5: all four RRPVs
of that set are 0. -/
def hitExample : CACHE_REPLACEMENT_STATE :=
  runUpdates drripExample
    [⟨5, 0, true, 0⟩, ⟨5, 1, true, 0⟩, ⟨5, 2, true, 0⟩, ⟨5, 3, true, 0⟩]

/-- A freshly constructed Random cache with 2 sets of 4 ways. -/
def randomExample : CACHE_REPLACEMENT_STATE := construct zeroObject 2 4 CRC_REPL_RANDOM

/-- The contestant example after one miss on the SRRIP-leader set 0: PSEL is
511, below `PS_MAX / 2`. -/
def lowPSExample : CACHE_REPLACEMENT_STATE := UpdateDRRIP drripExample 0 0 0 false

/-- The contestant example after one miss on the BRRIP-leader set 31: PSEL is
513, above `PS_MAX / 2`. -/
def highPSExample : CACHE_REPLACEMENT_STATE := UpdateDRRIP drripExample 0 31 0 false

/-- An uninitialised object that happens to hold 1 in `hitpolicy` and 7 in
`RRIP_MAX`. -/
def garbageObject : CACHE_REPLACEMENT_STATE := { zeroObject with hitpolicy := 1, RRIP_MAX := 7 }

/-- A cache constructed with the policy id 3, which is none of LRU, Random,
Contestant. -/
def unknownPolicyExample : CACHE_REPLACEMENT_STATE := construct zeroObject 2 4 3

/-- The 4-way LRU example after filling ways 0, 1, 2, 3 of set 0 in order. -/
def filledExample : CACHE_REPLACEMENT_STATE := runUpdateLRU lruExample 0 [0, 1, 2, 3]

/-- A 4-way LRU set whose ways 0, 1, 2, 3 are at stack positions 3, 0, 2, 1. -/
def shuffledExample : CACHE_REPLACEMENT_STATE := runUpdateLRU lruExample 0 [0, 2, 3, 1]

/-- A freshly constructed Random cache with 2 sets of no ways. -/
def zeroWayExample : CACHE_REPLACEMENT_STATE := construct zeroObject 2 0 CRC_REPL_RANDOM

/-- A generator that has made no call yet and returns 7, 8, 9, ... -/
def genFrom7 : RandState := ⟨fun k => k + 7, 0⟩

/-- A generator that has made 5 calls and returns 7 at call 6, 8 at call 9 and
100 at every other call. -/
def genSparse : RandState := ⟨fun k => if k = 6 then 7 else if k = 9 then 8 else 100, 5⟩

/-! ## Basic facts about rows and tables -/

theorem setWay_same (replSet : ReplSet) (way : Nat) (v : LINE_REPLACEMENT_STATE) :
    setWay replSet way v way = v := by
  simp [setWay]

theorem setWay_other (replSet : ReplSet) (way : Nat) (v : LINE_REPLACEMENT_STATE) (w : Nat)
    (h : w ≠ way) : setWay replSet way v w = replSet w := by
  simp [setWay, h]

theorem setRow_same (repl : Nat → ReplSet) (setIndex : Nat) (row : ReplSet) :
    setRow repl setIndex row setIndex = row := by
  simp [setRow]

theorem setRow_other (repl : Nat → ReplSet) (setIndex : Nat) (row : ReplSet) (i : Nat)
    (h : i ≠ setIndex) : setRow repl setIndex row i = repl i := by
  simp [setRow, h]

theorem setRow_self (repl : Nat → ReplSet) (setIndex : Nat) :
    setRow repl setIndex (repl setIndex) = repl := by
  funext i
  by_cases h : i = setIndex
  · subst h; simp [setRow]
  · simp [setRow, h]

theorem UINT32_sub_4_1 : UINT32_sub 4 1 = 3 := by decide

theorem UINT32_sub_4_2 : UINT32_sub 4 2 = 2 := by decide

theorem UINT32_sub_16_1 : UINT32_sub 16 1 = 15 := by decide

theorem UINT32_inc_small (a : Nat) (h : a + 1 < UINT32_MOD) : UINT32_inc a = a + 1 := by
  unfold UINT32_inc
  exact Nat.mod_eq_of_lt h

/-! ## LRU: the update loop -/

theorem UpdateLRU_loop_apply (c : Nat) (replSet : ReplSet) (n w : Nat) :
    UpdateLRU_loop c replSet n w =
      if w < n ∧ (replSet w).LRUstackposition < c then
        { replSet w with LRUstackposition := (replSet w).LRUstackposition + 1 }
      else replSet w := by
  induction n generalizing w with
  | zero => simp [UpdateLRU_loop]
  | succ n ih =>
    have hn : UpdateLRU_loop c replSet n n = replSet n := by
      rw [ih n]; simp
    simp only [UpdateLRU_loop]
    rw [hn]
    by_cases hc : (replSet n).LRUstackposition < c
    · rw [if_pos hc]
      by_cases hw : w = n
      · subst hw
        rw [setWay_same]
        simp [hc]
      · rw [setWay_other _ _ _ _ hw, ih w]
        have : (w < n + 1) ↔ (w < n) := by omega
        simp only [this]
    · rw [if_neg hc, ih w]
      by_cases hw : w = n
      · subst hw; simp [hc]
      · have : (w < n + 1) ↔ (w < n) := by omega
        simp only [this]

theorem UpdateLRU_row_pos (assoc : Nat) (replSet : ReplSet) (u w : Nat) :
    (UpdateLRU_row assoc replSet u w).LRUstackposition =
      if w = u then 0
      else if w < assoc ∧ (replSet w).LRUstackposition < (replSet u).LRUstackposition then
        (replSet w).LRUstackposition + 1
      else (replSet w).LRUstackposition := by
  unfold UpdateLRU_row
  by_cases hw : w = u
  · subst hw; simp [setWay_same]
  · simp only [setWay_other _ _ _ _ hw, if_neg hw, UpdateLRU_loop_apply]
    split <;> rfl

theorem UpdateLRU_row_RRPV (assoc : Nat) (replSet : ReplSet) (u w : Nat) :
    (UpdateLRU_row assoc replSet u w).RRPV = (replSet w).RRPV := by
  unfold UpdateLRU_row
  by_cases hw : w = u
  · subst hw
    simp only [setWay_same, UpdateLRU_loop_apply]
    split <;> rfl
  · simp only [setWay_other _ _ _ _ hw, UpdateLRU_loop_apply]
    split <;> rfl

theorem UpdateLRU_row_outside (assoc : Nat) (replSet : ReplSet) (u w : Nat)
    (hu : u < assoc) (hw : assoc ≤ w) : UpdateLRU_row assoc replSet u w = replSet w := by
  unfold UpdateLRU_row
  have hwu : w ≠ u := by omega
  rw [setWay_other _ _ _ _ hwu, UpdateLRU_loop_apply]
  have : ¬ (w < assoc ∧ (replSet w).LRUstackposition < (replSet u).LRUstackposition) := by omega
  rw [if_neg this]

/-! ## LRU: permutations -/

theorem LRUperm_iff (replSet : ReplSet) (assoc : Nat) :
    LRUperm replSet assoc ↔
      (∀ w, w < assoc → (replSet w).LRUstackposition < assoc) ∧
      (∀ w v, w < assoc → v < assoc →
        (replSet w).LRUstackposition = (replSet v).LRUstackposition → w = v) := by
  unfold LRUperm stackPositions
  constructor
  · intro h
    have hnd : ((List.range assoc).map (fun w => (replSet w).LRUstackposition)).Nodup :=
      h.nodup_iff.mpr (List.nodup_range assoc)
    constructor
    · intro w hw
      have hm : (replSet w).LRUstackposition ∈
          (List.range assoc).map (fun w => (replSet w).LRUstackposition) :=
        List.mem_map.mpr ⟨w, List.mem_range.mpr hw, rfl⟩
      exact List.mem_range.mp (h.subset hm)
    · intro w v hw hv hwv
      exact List.inj_on_of_nodup_map hnd (List.mem_range.mpr hw) (List.mem_range.mpr hv) hwv
  · rintro ⟨hb, hinj⟩
    have hnd : ((List.range assoc).map (fun w => (replSet w).LRUstackposition)).Nodup := by
      apply List.Nodup.map_on _ (List.nodup_range assoc)
      intro x hx y hy hxy
      exact hinj x y (List.mem_range.mp hx) (List.mem_range.mp hy) hxy
    have hsub : (List.range assoc).map (fun w => (replSet w).LRUstackposition) ⊆
        List.range assoc := by
      intro p hp
      obtain ⟨w, hw, rfl⟩ := List.mem_map.mp hp
      exact List.mem_range.mpr (hb w (List.mem_range.mp hw))
    have hsp : List.Subperm ((List.range assoc).map (fun w => (replSet w).LRUstackposition))
        (List.range assoc) := hnd.subperm hsub
    exact hsp.perm_of_length_le (by simp)

theorem UpdateLRU_row_perm (assoc : Nat) (replSet : ReplSet) (u : Nat) (hu : u < assoc)
    (h : LRUperm replSet assoc) : LRUperm (UpdateLRU_row assoc replSet u) assoc := by
  rw [LRUperm_iff] at h ⊢
  obtain ⟨hb, hinj⟩ := h
  have hbu := hb u hu
  constructor
  · intro w hw
    rw [UpdateLRU_row_pos]
    have := hb w hw
    split
    · omega
    · split <;> omega
  · intro w v hw hv
    rw [UpdateLRU_row_pos, UpdateLRU_row_pos]
    have h1 := hinj w v hw hv
    have h2 := hinj w u hw hu
    have h3 := hinj v u hv hu
    by_cases hwu : w = u <;> by_cases hvu : v = u
    · intro _; rw [hwu, hvu]
    · rw [if_pos hwu, if_neg hvu]
      split <;> intro he
      · omega
      · exfalso; apply hvu; apply h3; omega
    · rw [if_neg hwu, if_pos hvu]
      split <;> intro he
      · omega
      · exfalso; apply hwu; apply h2; omega
    · rw [if_neg hwu, if_neg hvu]
      split <;> split <;> intro he
      · apply h1; omega
      · exfalso; apply hvu; apply h3; omega
      · exfalso; apply hwu; apply h2; omega
      · exact h1 he

/-! ## Initial state -/

theorem InitReplacementState_ways_apply (R : Nat) (row : ReplSet) (n w : Nat) :
    InitReplacementState_ways R row n w =
      if w < n then ⟨w, UINT32_sub R 1⟩ else row w := by
  induction n with
  | zero => simp [InitReplacementState_ways]
  | succ n ih =>
    simp only [InitReplacementState_ways]
    by_cases hw : w = n
    · subst hw; simp [setWay_same]
    · rw [setWay_other _ _ _ _ hw, ih]
      have : (w < n + 1) ↔ (w < n) := by omega
      simp only [this]

theorem InitReplacementState_sets_apply (assoc R : Nat) (repl : Nat → ReplSet) (n i : Nat) :
    InitReplacementState_sets assoc R repl n i =
      if i < n then InitReplacementState_ways R (repl i) assoc else repl i := by
  induction n generalizing i with
  | zero => simp [InitReplacementState_sets]
  | succ n ih =>
    simp only [InitReplacementState_sets]
    by_cases hi : i = n
    · subst hi
      rw [setRow_same, ih i]
      simp
    · rw [setRow_other _ _ _ _ hi, ih i]
      have : (i < n + 1) ↔ (i < n) := by omega
      simp only [this]

theorem construct_assoc (mem : CACHE_REPLACEMENT_STATE) (sets assoc pol : Nat) :
    (construct mem sets assoc pol).assoc = assoc := by
  unfold construct InitReplacementState
  dsimp only
  split <;> rfl

theorem construct_numsets (mem : CACHE_REPLACEMENT_STATE) (sets assoc pol : Nat) :
    (construct mem sets assoc pol).numsets = sets := by
  unfold construct InitReplacementState
  dsimp only
  split <;> rfl

theorem construct_replPolicy (mem : CACHE_REPLACEMENT_STATE) (sets assoc pol : Nat) :
    (construct mem sets assoc pol).replPolicy = pol := by
  unfold construct InitReplacementState
  dsimp only
  split <;> rfl

theorem construct_repl (mem : CACHE_REPLACEMENT_STATE) (sets assoc pol : Nat) (i w : Nat)
    (hi : i < sets) (hw : w < assoc) :
    (construct mem sets assoc pol).repl i w =
      ⟨w, UINT32_sub (construct mem sets assoc pol).RRIP_MAX 1⟩ := by
  unfold construct InitReplacementState
  dsimp only
  split <;>
    simp only [InitReplacementState_sets_apply, InitReplacementState_ways_apply, if_pos hi,
      if_pos hw]

theorem construct_LRUperm (mem : CACHE_REPLACEMENT_STATE) (sets assoc pol : Nat) (i : Nat)
    (hi : i < sets) : LRUperm ((construct mem sets assoc pol).repl i) assoc := by
  rw [LRUperm_iff]
  constructor
  · intro w hw
    rw [construct_repl mem sets assoc pol i w hi hw]
    exact hw
  · intro w v hw hv
    rw [construct_repl mem sets assoc pol i w hi hw, construct_repl mem sets assoc pol i v hi hv]
    exact fun h => h

/-! ## LRU: state level -/

theorem UpdateLRU_repl_same (s : CACHE_REPLACEMENT_STATE) (setIndex w : Nat) :
    (UpdateLRU s setIndex w).repl setIndex = UpdateLRU_row s.assoc (s.repl setIndex) w := by
  simp [UpdateLRU, setRow_same]

theorem UpdateLRU_repl_other (s : CACHE_REPLACEMENT_STATE) (setIndex w i : Nat)
    (h : i ≠ setIndex) : (UpdateLRU s setIndex w).repl i = s.repl i := by
  simp [UpdateLRU, setRow_other _ _ _ _ h]

theorem UpdateLRU_perm_all (s : CACHE_REPLACEMENT_STATE) (setIndex w i : Nat)
    (hw : w < s.assoc) (h : LRUperm (s.repl i) s.assoc) :
    LRUperm ((UpdateLRU s setIndex w).repl i) s.assoc := by
  by_cases hi : i = setIndex
  · subst hi
    rw [UpdateLRU_repl_same]
    exact UpdateLRU_row_perm _ _ _ hw h
  · rw [UpdateLRU_repl_other _ _ _ _ hi]
    exact h

theorem runUpdates_LRU_perm (calls : List Access) (s : CACHE_REPLACEMENT_STATE)
    (hpol : s.replPolicy = CRC_REPL_LRU) (hways : ∀ c ∈ calls, c.way < s.assoc)
    (i : Nat) (h : LRUperm (s.repl i) s.assoc) :
    LRUperm ((runUpdates s calls).repl i) s.assoc := by
  induction calls generalizing s with
  | nil => exact h
  | cons c rest ih =>
    have hc : c.way < s.assoc := hways c (List.mem_cons_self _ _)
    have hstep : UpdateReplacementState s c.r c.setIndex c.way c.cacheHit =
        UpdateLRU s c.setIndex c.way := by
      simp [UpdateReplacementState, hpol]
    simp only [runUpdates, List.foldl_cons]
    rw [hstep]
    have := ih (UpdateLRU s c.setIndex c.way) hpol
      (fun d hd => hways d (List.mem_cons_of_mem _ hd))
      (UpdateLRU_perm_all s c.setIndex c.way i hc h)
    exact this

theorem Get_LRU_Victim_scan_first (replSet : ReplSet) (assoc : Nat) (n start k : Nat)
    (hk1 : start ≤ k) (hk2 : k < start + n)
    (hk : (replSet k).LRUstackposition = assoc - 1)
    (hfirst : ∀ j, start ≤ j → j < k → (replSet j).LRUstackposition ≠ assoc - 1) :
    Get_LRU_Victim_scan replSet assoc start n = (k : Int) := by
  induction n generalizing start with
  | zero => omega
  | succ n ih =>
    simp only [Get_LRU_Victim_scan]
    by_cases hs : start = k
    · subst hs; rw [if_pos hk]
    · have hlt : start < k := by omega
      rw [if_neg (hfirst start (le_refl _) hlt)]
      exact ih (start + 1) (by omega) (by omega) (fun j hj1 hj2 => hfirst j (by omega) hj2)

theorem Get_LRU_Victim_scan_range (replSet : ReplSet) (assoc : Nat) (n start : Nat) :
    Get_LRU_Victim_scan replSet assoc start n = 0 ∨
      ∃ k, start ≤ k ∧ k < start + n ∧ Get_LRU_Victim_scan replSet assoc start n = (k : Int) := by
  induction n generalizing start with
  | zero => left; rfl
  | succ n ih =>
    simp only [Get_LRU_Victim_scan]
    split
    · right; exact ⟨start, le_refl _, by omega, rfl⟩
    · rcases ih (start + 1) with h | ⟨k, h1, h2, h3⟩
      · left; exact h
      · right; exact ⟨k, by omega, by omega, h3⟩

theorem Get_LRU_Victim_is_bottom_aux (s : CACHE_REPLACEMENT_STATE) (setIndex : Nat)
    (hassoc : 1 ≤ s.assoc) (hperm : LRUperm (s.repl setIndex) s.assoc) :
    ∃ w, w < s.assoc ∧ Get_LRU_Victim s setIndex = (w : Int) ∧
      (s.repl setIndex w).LRUstackposition = s.assoc - 1 ∧
      ∀ v, v < s.assoc → (s.repl setIndex v).LRUstackposition = s.assoc - 1 → v = w := by
  have hmem : s.assoc - 1 ∈ stackPositions (s.repl setIndex) s.assoc :=
    hperm.symm.subset (List.mem_range.mpr (by omega))
  obtain ⟨w, hw, hpos⟩ := List.mem_map.mp hmem
  have hw := List.mem_range.mp hw
  obtain ⟨_, hinj⟩ := (LRUperm_iff _ _).mp hperm
  have huniq : ∀ v, v < s.assoc → (s.repl setIndex v).LRUstackposition = s.assoc - 1 → v = w :=
    fun v hv hv2 => hinj v w hv hw (by rw [hv2, hpos])
  refine ⟨w, hw, ?_, hpos, huniq⟩
  unfold Get_LRU_Victim
  apply Get_LRU_Victim_scan_first _ _ _ _ _ (Nat.zero_le _) (by omega) hpos
  intro j _ hj hj2
  have := huniq j (by omega) hj2
  omega

/-! ## Claims C1 to C3 -/

/-- C1 (LRU-permutation invariant).  `UpdateLRU(set, w)` with `w < assoc` maps a
set whose stack positions are a permutation of `0 .. assoc-1` to one whose
positions are again such a permutation; the constructor establishes the
permutation in every set; hence every set of a freshly constructed LRU cache
has permuted positions after any finite sequence of `UpdateReplacementState`
calls with in-range ways. -/
theorem LRU_permutation_invariant :
    (∀ (s : CACHE_REPLACEMENT_STATE) (setIndex w : Nat), 1 ≤ s.assoc → w < s.assoc →
      LRUperm (s.repl setIndex) s.assoc →
      LRUperm ((UpdateLRU s setIndex w).repl setIndex) s.assoc) ∧
    (∀ (mem : CACHE_REPLACEMENT_STATE) (sets assoc pol i : Nat), i < sets →
      LRUperm ((construct mem sets assoc pol).repl i) assoc) ∧
    (∀ (mem : CACHE_REPLACEMENT_STATE) (sets assoc : Nat) (calls : List Access),
      (∀ c ∈ calls, c.way < assoc) → ∀ i, i < sets →
      LRUperm ((runUpdates (construct mem sets assoc CRC_REPL_LRU) calls).repl i) assoc) := by
  refine ⟨?_, ?_, ?_⟩
  · intro s setIndex w _ hw h
    exact UpdateLRU_perm_all s setIndex w setIndex hw h
  · intro mem sets assoc pol i hi
    exact construct_LRUperm mem sets assoc pol i hi
  · intro mem sets assoc calls hways i hi
    have h := runUpdates_LRU_perm calls (construct mem sets assoc CRC_REPL_LRU)
      (construct_replPolicy _ _ _ _)
      (by rw [construct_assoc]; exact hways) i
      (by rw [construct_assoc]; exact construct_LRUperm mem sets assoc _ i hi)
    rw [construct_assoc] at h
    exact h

/-- Worked example for C1: a 2-set, 4-way LRU cache after three updates. -/
theorem LRU_permutation_invariant_witness :
    LRUperm ((runUpdates (construct zeroObject 2 4 CRC_REPL_LRU)
      [⟨0, 2, false, 0⟩, ⟨1, 3, true, 0⟩, ⟨0, 1, true, 0⟩]).repl 0) 4 :=
  LRU_permutation_invariant.2.2 zeroObject 2 4
    [⟨0, 2, false, 0⟩, ⟨1, 3, true, 0⟩, ⟨0, 1, true, 0⟩] (by decide) 0 (by decide)

/-- C2 (LRU update rule).  With `p` the stack position of `w` before
`UpdateLRU(set, w)`: afterwards `w` is at position `0`, every other way of the
set whose position was `< p` has moved down by one, every other line (in
particular every way whose position was `> p`) is unchanged, no RRPV changes,
and `UpdateReplacementState` under LRU is this update for a hit and for a
miss alike. -/
theorem UpdateLRU_rule (s : CACHE_REPLACEMENT_STATE) (setIndex w : Nat) (_hw : w < s.assoc) :
    ((UpdateLRU s setIndex w).repl setIndex w).LRUstackposition = 0 ∧
    (∀ v, v < s.assoc → v ≠ w →
      (s.repl setIndex v).LRUstackposition < (s.repl setIndex w).LRUstackposition →
      ((UpdateLRU s setIndex w).repl setIndex v).LRUstackposition =
        (s.repl setIndex v).LRUstackposition + 1) ∧
    (∀ v, v < s.assoc → v ≠ w →
      (s.repl setIndex w).LRUstackposition < (s.repl setIndex v).LRUstackposition →
      ((UpdateLRU s setIndex w).repl setIndex v).LRUstackposition =
        (s.repl setIndex v).LRUstackposition) ∧
    (∀ v, v ≠ w →
      ¬ (s.repl setIndex v).LRUstackposition < (s.repl setIndex w).LRUstackposition →
      ((UpdateLRU s setIndex w).repl setIndex v).LRUstackposition =
        (s.repl setIndex v).LRUstackposition) ∧
    (∀ v, ((UpdateLRU s setIndex w).repl setIndex v).RRPV = (s.repl setIndex v).RRPV) ∧
    (∀ (cacheHit : Bool) (r : Nat), s.replPolicy = CRC_REPL_LRU →
      UpdateReplacementState s r setIndex w cacheHit = UpdateLRU s setIndex w) := by
  rw [UpdateLRU_repl_same]
  refine ⟨?_, ?_, ?_, ?_, ?_, ?_⟩
  · rw [UpdateLRU_row_pos]; simp
  · intro v hv hvw hlt
    rw [UpdateLRU_row_pos, if_neg hvw, if_pos ⟨hv, hlt⟩]
  · intro v _ hvw hlt
    rw [UpdateLRU_row_pos, if_neg hvw, if_neg (by omega)]
  · intro v hvw hlt
    rw [UpdateLRU_row_pos, if_neg hvw, if_neg (fun h => hlt h.2)]
  · intro v
    exact UpdateLRU_row_RRPV _ _ _ _
  · intro cacheHit r hpol
    simp [UpdateReplacementState, hpol]

/-- Worked example for C2: way 2 of set 0 of a fresh 4-way LRU cache. -/
theorem UpdateLRU_rule_witness :
    (2 < lruExample.assoc) ∧
    ((UpdateLRU lruExample 0 2).repl 0 2).LRUstackposition = 0 ∧
    ((UpdateLRU lruExample 0 2).repl 0 1).LRUstackposition = 2 ∧
    ((UpdateLRU lruExample 0 2).repl 0 3).LRUstackposition = 3 :=
  have h := UpdateLRU_rule lruExample 0 2 (by decide)
  ⟨by decide, h.1, h.2.1 1 (by decide) (by decide) (by decide),
    h.2.2.1 3 (by decide) (by decide) (by decide)⟩

/-- C3 (LRU-victim-is-bottom).  For `assoc ≥ 1` and a set whose stack positions
are a permutation of `0 .. assoc-1`, `Get_LRU_Victim` returns a way `w < assoc`
whose stack position is `assoc-1`, and no other way of the set has that
position. -/
theorem Get_LRU_Victim_is_bottom (s : CACHE_REPLACEMENT_STATE) (setIndex : Nat)
    (hassoc : 1 ≤ s.assoc) (hperm : LRUperm (s.repl setIndex) s.assoc) :
    ∃ w, w < s.assoc ∧ Get_LRU_Victim s setIndex = (w : Int) ∧
      (s.repl setIndex w).LRUstackposition = s.assoc - 1 ∧
      ∀ v, v < s.assoc → (s.repl setIndex v).LRUstackposition = s.assoc - 1 → v = w :=
  Get_LRU_Victim_is_bottom_aux s setIndex hassoc hperm

/-- Worked example for C3: in a fresh 4-way LRU cache the victim of set 1 is
way 3. -/
theorem Get_LRU_Victim_is_bottom_witness :
    1 ≤ lruExample.assoc ∧ LRUperm (lruExample.repl 1) lruExample.assoc ∧
    ∃ w, w < lruExample.assoc ∧ Get_LRU_Victim lruExample 1 = (w : Int) ∧
      (lruExample.repl 1 w).LRUstackposition = lruExample.assoc - 1 ∧
      ∀ v, v < lruExample.assoc →
        (lruExample.repl 1 v).LRUstackposition = lruExample.assoc - 1 → v = w :=
  ⟨by decide, by decide, Get_LRU_Victim_is_bottom lruExample 1 (by decide) (by decide)⟩

/-! ## LRU: recency of a trace -/

theorem takeWhile_ne_cons_self (w : Nat) (l : List Nat) :
    (w :: l).takeWhile (fun x => x ≠ w) = [] := by
  simp [List.takeWhile_cons]

theorem takeWhile_ne_cons_ne (w a : Nat) (l : List Nat) (h : a ≠ w) :
    (a :: l).takeWhile (fun x => x ≠ w) = a :: l.takeWhile (fun x => x ≠ w) := by
  simp [List.takeWhile_cons, h]

theorem not_mem_takeWhile_ne (w : Nat) (l : List Nat) :
    w ∉ l.takeWhile (fun x => x ≠ w) := by
  intro h
  have := List.mem_takeWhile_imp h
  simp at this

theorem mem_of_mem_takeWhile_ne (w x : Nat) (l : List Nat)
    (h : x ∈ l.takeWhile (fun y => y ≠ w)) : x ∈ l :=
  (List.takeWhile_sublist _).subset h

theorem distinctBefore_lt (w : Nat) (l : List Nat) (h : w ∈ l) :
    distinctBefore w l < l.dedup.length := by
  unfold distinctBefore
  rw [← List.card_toFinset, ← List.card_toFinset]
  apply Finset.card_lt_card
  rw [Finset.ssubset_iff_of_subset]
  · exact ⟨w, List.mem_toFinset.mpr h, fun hw =>
      not_mem_takeWhile_ne w l (List.mem_toFinset.mp hw)⟩
  · intro x hx
    exact List.mem_toFinset.mpr (mem_of_mem_takeWhile_ne w x l (List.mem_toFinset.mp hx))

theorem takeWhile_ne_takeWhile_ne (w x : Nat) (l : List Nat)
    (h : x ∈ l.takeWhile (fun y => y ≠ w)) :
    (l.takeWhile (fun y => y ≠ w)).takeWhile (fun y => y ≠ x) =
      l.takeWhile (fun y => y ≠ x) := by
  induction l with
  | nil => simp at h
  | cons a l ih =>
    by_cases haw : a = w
    · subst haw
      rw [takeWhile_ne_cons_self] at h
      simp at h
    · rw [takeWhile_ne_cons_ne w a l haw] at h ⊢
      by_cases hax : a = x
      · subst hax
        rw [takeWhile_ne_cons_self, takeWhile_ne_cons_self]
      · rw [takeWhile_ne_cons_ne x a _ hax, takeWhile_ne_cons_ne x a _ hax]
        have hx : x ∈ l.takeWhile (fun y => y ≠ w) := by
          rcases List.mem_cons.mp h with h1 | h1
          · exact absurd h1.symm hax
          · exact h1
        rw [ih hx]

theorem distinctBefore_lt_of_mem (w x : Nat) (l : List Nat)
    (h : x ∈ l.takeWhile (fun y => y ≠ w)) : distinctBefore x l < distinctBefore w l := by
  have h1 := distinctBefore_lt x (l.takeWhile (fun y => y ≠ w)) h
  unfold distinctBefore at h1 ⊢
  rw [takeWhile_ne_takeWhile_ne w x l h] at h1
  exact h1

theorem mem_takeWhile_ne_of_not_mem (w x : Nat) (l : List Nat) (hwx : w ≠ x) (hw : w ∈ l)
    (h : x ∉ l.takeWhile (fun y => y ≠ w)) : w ∈ l.takeWhile (fun y => y ≠ x) := by
  induction l with
  | nil => simp at hw
  | cons a l ih =>
    by_cases haw : a = w
    · subst haw
      rw [takeWhile_ne_cons_ne x a l hwx]
      exact List.mem_cons_self _ _
    · rw [takeWhile_ne_cons_ne w a l haw] at h
      have hax : a ≠ x := fun e => h (by rw [e]; exact List.mem_cons_self _ _)
      have hx : x ∉ l.takeWhile (fun y => y ≠ w) := fun e => h (List.mem_cons_of_mem _ e)
      have hwl : w ∈ l := by
        rcases List.mem_cons.mp hw with h1 | h1
        · exact absurd h1.symm haw
        · exact h1
      rw [takeWhile_ne_cons_ne x a l hax]
      exact List.mem_cons_of_mem _ (ih hwl hx)

theorem indexOf_lt_of_mem_takeWhile_ne (w v : Nat) (l : List Nat)
    (h : w ∈ l.takeWhile (fun y => y ≠ v)) : l.indexOf w < l.indexOf v := by
  induction l with
  | nil => simp at h
  | cons a l ih =>
    by_cases hav : a = v
    · subst hav
      rw [takeWhile_ne_cons_self] at h
      simp at h
    · rw [takeWhile_ne_cons_ne v a l hav] at h
      rw [List.indexOf_cons_ne _ hav]
      by_cases haw : a = w
      · subst haw
        rw [List.indexOf_cons_self]
        omega
      · rw [List.indexOf_cons_ne _ haw]
        have hw : w ∈ l.takeWhile (fun y => y ≠ v) := by
          rcases List.mem_cons.mp h with h1 | h1
          · exact absurd h1.symm haw
          · exact h1
        have := ih hw
        omega

theorem distinctBefore_cons_self (w : Nat) (l : List Nat) : distinctBefore w (w :: l) = 0 := by
  unfold distinctBefore
  rw [takeWhile_ne_cons_self]
  rfl

theorem distinctBefore_cons_ne (w x : Nat) (l : List Nat) (h : x ≠ w) :
    distinctBefore w (x :: l) =
      if x ∈ l.takeWhile (fun y => y ≠ w) then distinctBefore w l
      else distinctBefore w l + 1 := by
  unfold distinctBefore
  rw [takeWhile_ne_cons_ne w x l h]
  split
  · rename_i hx
    rw [List.dedup_cons_of_mem hx]
  · rename_i hx
    rw [List.dedup_cons_of_not_mem hx]
    rfl

/-! ## LRU: stack position equals recency -/

theorem runUpdateLRU_assoc (ways : List Nat) (s : CACHE_REPLACEMENT_STATE) (setIndex : Nat) :
    (runUpdateLRU s setIndex ways).assoc = s.assoc := by
  induction ways generalizing s with
  | nil => rfl
  | cons w rest ih =>
    simp only [runUpdateLRU, List.foldl_cons]
    exact ih (UpdateLRU s setIndex w)

theorem runUpdateLRU_repl (ways : List Nat) (s : CACHE_REPLACEMENT_STATE) (setIndex : Nat) :
    (runUpdateLRU s setIndex ways).repl setIndex =
      runUpdateLRU_row s.assoc (s.repl setIndex) ways := by
  induction ways generalizing s with
  | nil => rfl
  | cons w rest ih =>
    simp only [runUpdateLRU, runUpdateLRU_row, List.foldl_cons]
    have := ih (UpdateLRU s setIndex w)
    simp only [runUpdateLRU, runUpdateLRU_row] at this
    rw [this, UpdateLRU_repl_same]
    rfl

theorem runUpdateLRU_row_snoc (assoc : Nat) (replSet : ReplSet) (x : Nat) (l : List Nat) :
    runUpdateLRU_row assoc replSet (x :: l).reverse =
      UpdateLRU_row assoc (runUpdateLRU_row assoc replSet l.reverse) x := by
  simp [runUpdateLRU_row, List.foldl_append]

theorem recency_invariant (assoc : Nat) (replSet : ReplSet) (hperm : LRUperm replSet assoc)
    (l : List Nat) (hrange : ∀ w ∈ l, w < assoc) :
    LRUperm (runUpdateLRU_row assoc replSet l.reverse) assoc ∧
    (∀ w ∈ l, (runUpdateLRU_row assoc replSet l.reverse w).LRUstackposition =
      distinctBefore w l) ∧
    (∀ v, v < assoc → v ∉ l →
      l.dedup.length ≤ (runUpdateLRU_row assoc replSet l.reverse v).LRUstackposition) := by
  induction l with
  | nil =>
    refine ⟨hperm, ?_, ?_⟩
    · intro w hw; simp at hw
    · intro v _ _; simp
  | cons x rest ih =>
    have hx : x < assoc := hrange x (List.mem_cons_self _ _)
    obtain ⟨ihp, ihb, ihc⟩ := ih (fun w hw => hrange w (List.mem_cons_of_mem _ hw))
    have hinj := ((LRUperm_iff _ _).mp ihp).2
    rw [runUpdateLRU_row_snoc]
    refine ⟨UpdateLRU_row_perm _ _ _ hx ihp, ?_, ?_⟩
    · intro w hw
      rw [UpdateLRU_row_pos]
      by_cases hwx : w = x
      · subst hwx
        rw [if_pos rfl, distinctBefore_cons_self]
      · have hwr : w ∈ rest := by
          rcases List.mem_cons.mp hw with h1 | h1
          · exact absurd h1 hwx
          · exact h1
        have hwa : w < assoc := hrange w hw
        rw [if_neg hwx, distinctBefore_cons_ne w x rest (fun e => hwx e.symm), ihb w hwr]
        by_cases hxT : x ∈ rest.takeWhile (fun y => y ≠ w)
        · have hxr : x ∈ rest := mem_of_mem_takeWhile_ne w x rest hxT
          have hlt := distinctBefore_lt_of_mem w x rest hxT
          rw [if_pos hxT, ihb x hxr, if_neg (by omega)]
        · rw [if_neg hxT]
          by_cases hxr : x ∈ rest
          · have hwT := mem_takeWhile_ne_of_not_mem w x rest hwx hwr hxT
            have hlt := distinctBefore_lt_of_mem x w rest hwT
            rw [ihb x hxr, if_pos ⟨hwa, hlt⟩]
          · have h1 := ihc x hx hxr
            have h2 := distinctBefore_lt w rest hwr
            rw [if_pos ⟨hwa, by omega⟩]
    · intro v hv hvl
      have hvx : v ≠ x := fun e => hvl (by rw [e]; exact List.mem_cons_self _ _)
      have hvr : v ∉ rest := fun e => hvl (List.mem_cons_of_mem _ e)
      have h1 := ihc v hv hvr
      rw [UpdateLRU_row_pos, if_neg hvx]
      by_cases hxr : x ∈ rest
      · rw [List.dedup_cons_of_mem hxr]
        split <;> omega
      · rw [List.dedup_cons_of_not_mem hxr]
        have h2 := ihc x hx hxr
        have h3 := hinj v x hv hx
        simp only [List.length_cons]
        split
        · omega
        · rename_i hn
          have : (runUpdateLRU_row assoc replSet rest.reverse v).LRUstackposition ≠
              (runUpdateLRU_row assoc replSet rest.reverse x).LRUstackposition :=
            fun e => hvx (h3 e)
          have hge : ¬ (runUpdateLRU_row assoc replSet rest.reverse v).LRUstackposition <
              (runUpdateLRU_row assoc replSet rest.reverse x).LRUstackposition :=
            fun e => hn ⟨hv, e⟩
          omega

/-- C4 (true-LRU semantics).  From a set whose stack positions are a
permutation, after any sequence of `UpdateLRU` calls on that set with in-range
ways that touches every way at least once, the stack position of every way `w`
is the number of distinct ways touched after the last touch of `w`; and the
way `Get_LRU_Victim` then returns is the one whose last touch is the earliest
of all. -/
theorem true_LRU_semantics (s : CACHE_REPLACEMENT_STATE) (setIndex : Nat) (ways : List Nat)
    (hassoc : 1 ≤ s.assoc) (hperm : LRUperm (s.repl setIndex) s.assoc)
    (hrange : ∀ w ∈ ways, w < s.assoc) (hall : ∀ w, w < s.assoc → w ∈ ways) :
    (∀ w, w < s.assoc →
      ((runUpdateLRU s setIndex ways).repl setIndex w).LRUstackposition =
        touchedAfterLast w ways) ∧
    ∃ v, v < s.assoc ∧ Get_LRU_Victim (runUpdateLRU s setIndex ways) setIndex = (v : Int) ∧
      ∀ w, w < s.assoc → w ≠ v → lastTouch v ways < lastTouch w ways := by
  have hinv := recency_invariant s.assoc (s.repl setIndex) hperm ways.reverse
    (fun w hw => hrange w (List.mem_reverse.mp hw))
  rw [List.reverse_reverse, ← runUpdateLRU_repl] at hinv
  obtain ⟨hp, hb, _⟩ := hinv
  have hpos : ∀ w, w < s.assoc →
      ((runUpdateLRU s setIndex ways).repl setIndex w).LRUstackposition =
        touchedAfterLast w ways :=
    fun w hw => hb w (List.mem_reverse.mpr (hall w hw))
  refine ⟨hpos, ?_⟩
  have hp2 : LRUperm ((runUpdateLRU s setIndex ways).repl setIndex)
      (runUpdateLRU s setIndex ways).assoc := by
    rw [runUpdateLRU_assoc]; exact hp
  obtain ⟨v, hv, hvict, hvpos, _⟩ := Get_LRU_Victim_is_bottom_aux
    (runUpdateLRU s setIndex ways) setIndex (by rw [runUpdateLRU_assoc]; exact hassoc) hp2
  rw [runUpdateLRU_assoc] at hv hvpos
  refine ⟨v, hv, hvict, ?_⟩
  intro w hw hwv
  obtain ⟨hbound, hinj⟩ := (LRUperm_iff _ _).mp hp
  have h1 := hbound w hw
  have h2 : ((runUpdateLRU s setIndex ways).repl setIndex w).LRUstackposition ≠
      ((runUpdateLRU s setIndex ways).repl setIndex v).LRUstackposition :=
    fun e => hwv (hinj w v hw hv e)
  have hlt : touchedAfterLast w ways < touchedAfterLast v ways := by
    rw [← hpos w hw, ← hpos v hv]; omega
  have hvn : v ∉ ways.reverse.takeWhile (fun y => y ≠ w) := by
    intro e
    have := distinctBefore_lt_of_mem w v ways.reverse e
    unfold touchedAfterLast at hlt
    omega
  have hwT := mem_takeWhile_ne_of_not_mem w v ways.reverse hwv
    (List.mem_reverse.mpr (hall w hw)) hvn
  have hidx := indexOf_lt_of_mem_takeWhile_ne w v ways.reverse hwT
  have hvl : ways.reverse.indexOf v < ways.reverse.length :=
    List.indexOf_lt_length.mpr (List.mem_reverse.mpr (hall v hv))
  unfold lastTouch
  rw [List.length_reverse] at hvl
  omega

/-- Worked example for C4: set 0 of a fresh 4-way LRU cache after touching
ways 2, 0, 1, 3, 0. -/
theorem true_LRU_semantics_witness :
    (1 ≤ lruExample.assoc ∧ LRUperm (lruExample.repl 0) lruExample.assoc ∧
      (∀ w ∈ [2, 0, 1, 3, 0], w < lruExample.assoc) ∧
      (∀ w, w < lruExample.assoc → w ∈ [2, 0, 1, 3, 0])) ∧
    ((∀ w, w < lruExample.assoc →
      ((runUpdateLRU lruExample 0 [2, 0, 1, 3, 0]).repl 0 w).LRUstackposition =
        touchedAfterLast w [2, 0, 1, 3, 0]) ∧
    ∃ v, v < lruExample.assoc ∧
      Get_LRU_Victim (runUpdateLRU lruExample 0 [2, 0, 1, 3, 0]) 0 = (v : Int) ∧
      ∀ w, w < lruExample.assoc → w ≠ v →
        lastTouch v [2, 0, 1, 3, 0] < lastTouch w [2, 0, 1, 3, 0]) :=
  ⟨⟨by decide, by decide, by decide, by decide⟩,
    true_LRU_semantics lruExample 0 [2, 0, 1, 3, 0] (by decide) (by decide) (by decide)
      (by decide)⟩

/-! ## RRIP: scan, aging and the victim loop -/

theorem Get_DRRIP_Victim_age_apply (replSet : ReplSet) (n w : Nat) :
    Get_DRRIP_Victim_age replSet n w =
      if w < n then { replSet w with RRPV := UINT32_inc (replSet w).RRPV } else replSet w := by
  induction n generalizing w with
  | zero => simp [Get_DRRIP_Victim_age]
  | succ n ih =>
    simp only [Get_DRRIP_Victim_age]
    by_cases hw : w = n
    · subst hw
      rw [setWay_same, ih w]
      simp
    · rw [setWay_other _ _ _ _ hw, ih w]
      have : (w < n + 1) ↔ (w < n) := by omega
      simp only [this]

theorem Get_DRRIP_Victim_scan_none (replSet : ReplSet) (R : Nat) (n start : Nat)
    (h : ∀ j, start ≤ j → j < start + n → (replSet j).RRPV ≠ UINT32_sub R 1) :
    Get_DRRIP_Victim_scan replSet R start n = -1 := by
  induction n generalizing start with
  | zero => rfl
  | succ n ih =>
    simp only [Get_DRRIP_Victim_scan]
    rw [if_neg (h start (le_refl _) (by omega))]
    exact ih (start + 1) (fun j h1 h2 => h j (by omega) (by omega))

theorem Get_DRRIP_Victim_scan_first (replSet : ReplSet) (R : Nat) (n start k : Nat)
    (hk1 : start ≤ k) (hk2 : k < start + n) (hk : (replSet k).RRPV = UINT32_sub R 1)
    (hfirst : ∀ j, start ≤ j → j < k → (replSet j).RRPV ≠ UINT32_sub R 1) :
    Get_DRRIP_Victim_scan replSet R start n = (k : Int) := by
  induction n generalizing start with
  | zero => omega
  | succ n ih =>
    simp only [Get_DRRIP_Victim_scan]
    by_cases hs : start = k
    · subst hs; rw [if_pos hk]
    · have hlt : start < k := by omega
      rw [if_neg (hfirst start (le_refl _) hlt)]
      exact ih (start + 1) (by omega) (by omega) (fun j hj1 hj2 => hfirst j (by omega) hj2)

theorem exists_first (p : Nat → Prop) (n : Nat) (h : ∃ w, w < n ∧ p w) :
    ∃ k, k < n ∧ p k ∧ ∀ j, j < k → ¬ p j := by
  classical
  obtain ⟨w, hw, hp⟩ := h
  have hex : ∃ k, p k := ⟨w, hp⟩
  refine ⟨Nat.find hex, ?_, Nat.find_spec hex, fun j hj => Nat.find_min hex hj⟩
  exact lt_of_le_of_lt (Nat.find_min' hex hp) hw

theorem Get_DRRIP_Victim_loop_spec (assoc : Nat) (d : Nat) :
    ∀ (fuel : Nat) (replSet : ReplSet) (passes : Nat), d < fuel →
      (∀ w, w < assoc → (replSet w).RRPV + d ≤ 3) →
      (∃ w, w < assoc ∧ (replSet w).RRPV + d = 3) →
      ∃ (k : Nat) (row : ReplSet), Get_DRRIP_Victim_loop assoc 4 fuel replSet passes =
          some ((k : Int), row, passes + d) ∧
        k < assoc ∧ (replSet k).RRPV + d = 3 ∧
        (∀ j, j < k → (replSet j).RRPV + d ≠ 3) ∧
        (∀ w, row w =
          if w < assoc then { replSet w with RRPV := (replSet w).RRPV + d } else replSet w) := by
  induction d with
  | zero =>
    intro fuel replSet passes hfuel _ hex
    obtain ⟨k, hk, hk3, hfirst⟩ := exists_first (fun w => (replSet w).RRPV + 0 = 3) assoc hex
    obtain ⟨f, rfl⟩ : ∃ f, fuel = f + 1 := ⟨fuel - 1, by omega⟩
    refine ⟨k, replSet, ?_, hk, hk3, hfirst, ?_⟩
    · have hscan : Get_DRRIP_Victim_scan replSet 4 0 assoc = (k : Int) := by
        apply Get_DRRIP_Victim_scan_first _ _ _ _ _ (Nat.zero_le _) (by omega)
        · rw [UINT32_sub_4_1]; simpa using hk3
        · intro j _ hj
          rw [UINT32_sub_4_1]
          simpa using hfirst j hj
      simp only [Get_DRRIP_Victim_loop, hscan]
      rw [if_pos (Int.natCast_nonneg k)]
      rfl
    · intro w
      split <;> rfl
  | succ d ih =>
    intro fuel replSet passes hfuel hb hex
    obtain ⟨f, rfl⟩ : ∃ f, fuel = f + 1 := ⟨fuel - 1, by omega⟩
    have hscan : Get_DRRIP_Victim_scan replSet 4 0 assoc = -1 := by
      apply Get_DRRIP_Victim_scan_none
      intro j _ hj
      rw [UINT32_sub_4_1]
      have := hb j (by omega)
      omega
    have hage : ∀ w, w < assoc →
        (Get_DRRIP_Victim_age replSet assoc w).RRPV = (replSet w).RRPV + 1 := by
      intro w hw
      rw [Get_DRRIP_Victim_age_apply, if_pos hw]
      have := hb w hw
      exact UINT32_inc_small _ (by unfold UINT32_MOD; omega)
    obtain ⟨k, row, hloop, hk, hk3, hfirst, hrow⟩ :=
      ih f (Get_DRRIP_Victim_age replSet assoc) (passes + 1) (by omega)
        (fun w hw => by rw [hage w hw]; have := hb w hw; omega)
        (by obtain ⟨w, hw, hw3⟩ := hex; exact ⟨w, hw, by rw [hage w hw]; omega⟩)
    refine ⟨k, row, ?_, hk, ?_, ?_, ?_⟩
    · simp only [Get_DRRIP_Victim_loop, hscan]
      rw [if_neg (by decide), hloop]
      have : passes + 1 + d = passes + (d + 1) := by omega
      rw [this]
    · rw [hage k hk] at hk3; omega
    · intro j hj
      have := hfirst j hj
      rw [hage j (by omega)] at this
      omega
    · intro w
      rw [hrow w]
      by_cases hw : w < assoc
      · rw [if_pos hw, if_pos hw, hage w hw, Get_DRRIP_Victim_age_apply, if_pos hw]
        have : (replSet w).RRPV + 1 + d = (replSet w).RRPV + (d + 1) := by omega
        rw [this]
      · rw [if_neg hw, if_neg hw, Get_DRRIP_Victim_age_apply, if_neg hw]

theorem exists_aging_distance (assoc : Nat) (replSet : ReplSet) (hassoc : 1 ≤ assoc)
    (hb : RRPVrow_bounds replSet assoc) :
    ∃ d, d ≤ 3 ∧ (∀ w, w < assoc → (replSet w).RRPV + d ≤ 3) ∧
      (∃ w, w < assoc ∧ (replSet w).RRPV + d = 3) := by
  by_cases h3 : ∃ w, w < assoc ∧ (replSet w).RRPV = 3
  · obtain ⟨w, hw, hw3⟩ := h3
    exact ⟨0, by omega, fun v hv => by have := hb v hv; omega, w, hw, by omega⟩
  · by_cases h2 : ∃ w, w < assoc ∧ (replSet w).RRPV = 2
    · obtain ⟨w, hw, hw2⟩ := h2
      refine ⟨1, by omega, fun v hv => ?_, w, hw, by omega⟩
      have := hb v hv
      have : (replSet v).RRPV ≠ 3 := fun e => h3 ⟨v, hv, e⟩
      omega
    · by_cases h1 : ∃ w, w < assoc ∧ (replSet w).RRPV = 1
      · obtain ⟨w, hw, hw1⟩ := h1
        refine ⟨2, by omega, fun v hv => ?_, w, hw, by omega⟩
        have := hb v hv
        have : (replSet v).RRPV ≠ 3 := fun e => h3 ⟨v, hv, e⟩
        have : (replSet v).RRPV ≠ 2 := fun e => h2 ⟨v, hv, e⟩
        omega
      · have hall : ∀ v, v < assoc → (replSet v).RRPV = 0 := by
          intro v hv
          have := hb v hv
          have : (replSet v).RRPV ≠ 3 := fun e => h3 ⟨v, hv, e⟩
          have : (replSet v).RRPV ≠ 2 := fun e => h2 ⟨v, hv, e⟩
          have : (replSet v).RRPV ≠ 1 := fun e => h1 ⟨v, hv, e⟩
          omega
        exact ⟨3, by omega, fun v hv => by rw [hall v hv], 0, by omega,
          by rw [hall 0 (by omega)]⟩

/-- What `Get_DRRIP_Victim` does on a bounded row: `d` aging passes, `d ≤ 3`,
then the first way at RRPV 3. -/
theorem Get_DRRIP_Victim_loop_total (assoc : Nat) (replSet : ReplSet) (hassoc : 1 ≤ assoc)
    (hb : RRPVrow_bounds replSet assoc) (fuel : Nat) (hfuel : 4 ≤ fuel) :
    ∃ (d k : Nat) (row : ReplSet), d ≤ 3 ∧
      Get_DRRIP_Victim_loop assoc 4 fuel replSet 0 = some ((k : Int), row, d) ∧
      k < assoc ∧ (replSet k).RRPV + d = 3 ∧
      (∀ j, j < k → (replSet j).RRPV + d ≠ 3) ∧
      (∀ w, w < assoc → (replSet w).RRPV + d ≤ 3) ∧
      (∀ w, row w =
        if w < assoc then { replSet w with RRPV := (replSet w).RRPV + d } else replSet w) := by
  obtain ⟨d, hd, hle, hex⟩ := exists_aging_distance assoc replSet hassoc hb
  obtain ⟨k, row, hloop, hk, hk3, hfirst, hrow⟩ :=
    Get_DRRIP_Victim_loop_spec assoc d fuel replSet 0 (by omega) hle hex
  rw [Nat.zero_add] at hloop
  exact ⟨d, k, row, hd, hloop, hk, hk3, hfirst, hle, hrow⟩

theorem Get_DRRIP_Victim_loop_frame (assoc R : Nat) :
    ∀ (fuel : Nat) (replSet : ReplSet) (passes : Nat) (res : Int) (row : ReplSet) (n : Nat),
      Get_DRRIP_Victim_loop assoc R fuel replSet passes = some (res, row, n) →
      sameButRRPV assoc replSet row := by
  intro fuel
  induction fuel with
  | zero =>
    intro replSet passes res row n h
    simp [Get_DRRIP_Victim_loop] at h
  | succ f ih =>
    intro replSet passes res row n h
    simp only [Get_DRRIP_Victim_loop] at h
    split at h
    · simp only [Option.some.injEq, Prod.mk.injEq] at h
      obtain ⟨_, hrow, _⟩ := h
      subst hrow
      intro w
      exact ⟨rfl, fun _ => rfl⟩
    · have hframe := ih _ _ _ _ _ h
      intro w
      obtain ⟨h1, h2⟩ := hframe w
      refine ⟨?_, ?_⟩
      · rw [h1, Get_DRRIP_Victim_age_apply]
        split <;> rfl
      · intro hw
        rw [h2 hw, Get_DRRIP_Victim_age_apply, if_neg (by omega)]

/-! ## RRIP: the updates -/

theorem UpdateSRRIP_repl (s : CACHE_REPLACEMENT_STATE) (setIndex way : Nat) (cacheHit : Bool)
    (i w : Nat) :
    (UpdateSRRIP s setIndex way cacheHit).repl i w =
      if i = setIndex ∧ w = way then
        { s.repl setIndex way with
          RRPV := if cacheHit then
                    (if s.hitpolicy ≠ 0 then (s.repl setIndex way).RRPV - 1 else 0)
                  else UINT32_sub s.RRIP_MAX 2 }
      else s.repl i w := by
  unfold UpdateSRRIP
  by_cases hi : i = setIndex
  · subst hi
    by_cases hw : w = way
    · subst hw
      simp only [setRow_same, and_self, if_true]
      cases hline : s.repl i w with
      | mk pos rrpv =>
        cases cacheHit <;> by_cases hp : s.hitpolicy = 0 <;> by_cases hr : rrpv = 0 <;>
          simp [setWay, hp, hr, hline, Nat.pos_iff_ne_zero]
    · simp only [setRow_same, hw, and_false, if_false]
      cases cacheHit <;> by_cases hp : s.hitpolicy = 0 <;>
        by_cases hr : (s.repl i way).RRPV = 0 <;>
        simp [setWay, hp, hr, hw, Nat.pos_iff_ne_zero]
  · simp only [setRow_other _ _ _ _ hi, hi, false_and, if_false]

theorem UpdateBRRIP_repl (s : CACHE_REPLACEMENT_STATE) (r setIndex way : Nat) (cacheHit : Bool)
    (i w : Nat) :
    (UpdateBRRIP s r setIndex way cacheHit).repl i w =
      if i = setIndex ∧ w = way then
        { s.repl setIndex way with
          RRPV := if cacheHit then
                    (if s.hitpolicy ≠ 0 then (s.repl setIndex way).RRPV - 1 else 0)
                  else if (r % s.EPSILON) % UINT32_MOD = UINT32_sub s.EPSILON 1 then
                    UINT32_sub s.RRIP_MAX 2
                  else UINT32_sub s.RRIP_MAX 1 }
      else s.repl i w := by
  unfold UpdateBRRIP
  by_cases hi : i = setIndex
  · subst hi
    by_cases hw : w = way
    · subst hw
      simp only [setRow_same, and_self, if_true]
      cases hline : s.repl i w with
      | mk pos rrpv =>
        cases cacheHit <;> by_cases hp : s.hitpolicy = 0 <;> by_cases hr : rrpv = 0 <;>
          by_cases he : (r % s.EPSILON) % UINT32_MOD = UINT32_sub s.EPSILON 1 <;>
          simp [setWay, hp, hr, he, hline, Nat.pos_iff_ne_zero]
    · simp only [setRow_same, hw, and_false, if_false]
      cases cacheHit <;> by_cases hp : s.hitpolicy = 0 <;>
        by_cases hr : (s.repl i way).RRPV = 0 <;>
        by_cases he : (r % s.EPSILON) % UINT32_MOD = UINT32_sub s.EPSILON 1 <;>
        simp [setWay, hp, hr, he, hw, Nat.pos_iff_ne_zero]
  · simp only [setRow_other _ _ _ _ hi, hi, false_and, if_false]

theorem UpdateDRRIP_repl_cases (s : CACHE_REPLACEMENT_STATE) (r setIndex way : Nat)
    (cacheHit : Bool) :
    (UpdateDRRIP s r setIndex way cacheHit).repl = (UpdateSRRIP s setIndex way cacheHit).repl ∨
    (UpdateDRRIP s r setIndex way cacheHit).repl =
      (UpdateBRRIP s r setIndex way cacheHit).repl := by
  unfold UpdateDRRIP
  split
  · left; cases cacheHit
    · simp only [Bool.not_false, if_true]; split <;> rfl
    · rfl
  · split
    · right; cases cacheHit
      · simp only [Bool.not_false, if_true]; split <;> rfl
      · rfl
    · split
      · left; cases cacheHit <;> rfl
      · split
        · right; cases cacheHit <;> rfl
        · omega

theorem UpdateDRRIP_geometry (s : CACHE_REPLACEMENT_STATE) (r setIndex way : Nat)
    (cacheHit : Bool) :
    (UpdateDRRIP s r setIndex way cacheHit).numsets = s.numsets ∧
    (UpdateDRRIP s r setIndex way cacheHit).assoc = s.assoc ∧
    (UpdateDRRIP s r setIndex way cacheHit).replPolicy = s.replPolicy ∧
    (UpdateDRRIP s r setIndex way cacheHit).hitpolicy = s.hitpolicy ∧
    (UpdateDRRIP s r setIndex way cacheHit).RRIP_MAX = s.RRIP_MAX ∧
    (UpdateDRRIP s r setIndex way cacheHit).LeaderSets = s.LeaderSets ∧
    (UpdateDRRIP s r setIndex way cacheHit).EPSILON = s.EPSILON ∧
    (UpdateDRRIP s r setIndex way cacheHit).PS_MAX = s.PS_MAX := by
  unfold UpdateDRRIP
  split
  · cases cacheHit
    · simp only [Bool.not_false, if_true]
      split <;> exact ⟨rfl, rfl, rfl, rfl, rfl, rfl, rfl, rfl⟩
    · exact ⟨rfl, rfl, rfl, rfl, rfl, rfl, rfl, rfl⟩
  · split
    · cases cacheHit
      · simp only [Bool.not_false, if_true]
        split <;> exact ⟨rfl, rfl, rfl, rfl, rfl, rfl, rfl, rfl⟩
      · exact ⟨rfl, rfl, rfl, rfl, rfl, rfl, rfl, rfl⟩
    · split
      · cases cacheHit <;> exact ⟨rfl, rfl, rfl, rfl, rfl, rfl, rfl, rfl⟩
      · split
        · cases cacheHit <;> exact ⟨rfl, rfl, rfl, rfl, rfl, rfl, rfl, rfl⟩
        · exact ⟨rfl, rfl, rfl, rfl, rfl, rfl, rfl, rfl⟩

theorem UpdateDRRIP_RRPV_le (s : CACHE_REPLACEMENT_STATE) (r setIndex way : Nat)
    (cacheHit : Bool) (hR : s.RRIP_MAX = 4) (i w : Nat) (h : (s.repl i w).RRPV ≤ 3) :
    ((UpdateDRRIP s r setIndex way cacheHit).repl i w).RRPV ≤ 3 := by
  rcases UpdateDRRIP_repl_cases s r setIndex way cacheHit with hc | hc
  · rw [hc, UpdateSRRIP_repl, hR, UINT32_sub_4_2]
    split
    · rename_i hiw
      obtain ⟨rfl, rfl⟩ := hiw
      dsimp only
      split
      · split <;> omega
      · omega
    · exact h
  · rw [hc, UpdateBRRIP_repl, hR, UINT32_sub_4_2, UINT32_sub_4_1]
    split
    · rename_i hiw
      obtain ⟨rfl, rfl⟩ := hiw
      dsimp only
      split
      · split <;> omega
      · split <;> omega
    · exact h

theorem construct_contestant_RRIP_MAX (mem : CACHE_REPLACEMENT_STATE) (sets assoc : Nat) :
    (construct mem sets assoc CRC_REPL_CONTESTANT).RRIP_MAX = 4 := by
  simp [construct, InitReplacementState]

theorem construct_RRIPstate (mem : CACHE_REPLACEMENT_STATE) (sets assoc : Nat)
    (hassoc : 1 ≤ assoc) : RRIPstate (construct mem sets assoc CRC_REPL_CONTESTANT) := by
  refine ⟨construct_contestant_RRIP_MAX mem sets assoc, ?_, ?_⟩
  · rw [construct_assoc]; exact hassoc
  · intro i hi w hw
    rw [construct_numsets] at hi
    rw [construct_assoc] at hw
    rw [construct_repl mem sets assoc _ i w hi hw, construct_contestant_RRIP_MAX,
      UINT32_sub_4_1]

theorem Get_DRRIP_Victim_total (s : CACHE_REPLACEMENT_STATE) (setIndex : Nat)
    (hR : s.RRIP_MAX = 4) (hassoc : 1 ≤ s.assoc)
    (hb : RRPVrow_bounds (s.repl setIndex) s.assoc) (fuel : Nat) (hfuel : 4 ≤ fuel) :
    ∃ (d k : Nat) (row : ReplSet), d ≤ 3 ∧
      Get_DRRIP_Victim fuel s setIndex =
        some ((k : Int), { s with repl := setRow s.repl setIndex row }) ∧
      Get_DRRIP_Victim_passes fuel s setIndex = some d ∧
      k < s.assoc ∧ (s.repl setIndex k).RRPV + d = 3 ∧
      (∀ j, j < k → (s.repl setIndex j).RRPV + d ≠ 3) ∧
      (∀ w, w < s.assoc → (s.repl setIndex w).RRPV + d ≤ 3) ∧
      (∀ w, row w =
        if w < s.assoc then
          { s.repl setIndex w with RRPV := (s.repl setIndex w).RRPV + d }
        else s.repl setIndex w) := by
  obtain ⟨d, k, row, hd, hloop, hk, hk3, hfirst, hle, hrow⟩ :=
    Get_DRRIP_Victim_loop_total s.assoc (s.repl setIndex) hassoc hb fuel hfuel
  refine ⟨d, k, row, hd, ?_, ?_, hk, hk3, hfirst, hle, hrow⟩
  · unfold Get_DRRIP_Victim
    rw [hR, hloop]
  · unfold Get_DRRIP_Victim_passes
    rw [hR, hloop]
    rfl

/-! ## Claims C5 to C7 -/

/-- C5 (RRPV-bounds invariant).  In a contestant cache with `RRIP_MAX = 4`, at
least one way and every RRPV in `[0, 3]`: `Get_DRRIP_Victim` on any set of the
cache returns and leaves such a state; `UpdateDRRIP` on any set and way, hit or
miss, whatever PSEL, `hitpolicy` and the value of `rand()`, leaves such a
state; neither changes the geometry; and the constructor builds such a state. -/
theorem RRPV_bounds_invariant (s : CACHE_REPLACEMENT_STATE) (h : RRIPstate s) :
    (∀ setIndex fuel, setIndex < s.numsets → 4 ≤ fuel →
      ∃ way s1, Get_DRRIP_Victim fuel s setIndex = some (way, s1) ∧ RRIPstate s1 ∧
        s1.numsets = s.numsets ∧ s1.assoc = s.assoc) ∧
    (∀ r setIndex way cacheHit, RRIPstate (UpdateDRRIP s r setIndex way cacheHit) ∧
      (UpdateDRRIP s r setIndex way cacheHit).numsets = s.numsets ∧
      (UpdateDRRIP s r setIndex way cacheHit).assoc = s.assoc) ∧
    (∀ (mem : CACHE_REPLACEMENT_STATE) (sets assoc : Nat), 1 ≤ assoc →
      RRIPstate (construct mem sets assoc CRC_REPL_CONTESTANT)) := by
  obtain ⟨hR, hassoc, hb⟩ := h
  refine ⟨?_, ?_, ?_⟩
  · intro setIndex fuel hset hfuel
    obtain ⟨d, k, row, _, hget, _, _, _, _, hle, hrow⟩ :=
      Get_DRRIP_Victim_total s setIndex hR hassoc (hb setIndex hset) fuel hfuel
    refine ⟨(k : Int), _, hget, ⟨hR, hassoc, ?_⟩, rfl, rfl⟩
    intro i hi w hw
    show (setRow s.repl setIndex row i w).RRPV ≤ 3
    by_cases hiset : i = setIndex
    · subst hiset
      rw [setRow_same, hrow w, if_pos hw]
      exact hle w hw
    · rw [setRow_other _ _ _ _ hiset]
      exact hb i hi w hw
  · intro r setIndex way cacheHit
    obtain ⟨hn, ha, _, _, hR2, _⟩ := UpdateDRRIP_geometry s r setIndex way cacheHit
    refine ⟨⟨by rw [hR2]; exact hR, by rw [ha]; exact hassoc, ?_⟩, hn, ha⟩
    intro i hi w hw
    rw [hn] at hi
    rw [ha] at hw
    exact UpdateDRRIP_RRPV_le s r setIndex way cacheHit hR i w (hb i hi w hw)
  · intro mem sets assoc ha
    exact construct_RRIPstate mem sets assoc ha

/-- Worked example for C5: a fresh 64-set, 4-way contestant cache. -/
theorem RRPV_bounds_invariant_witness :
    RRIPstate drripExample ∧ RRIPstate (UpdateDRRIP drripExample 15 31 2 false) :=
  ⟨by decide, ((RRPV_bounds_invariant drripExample (by decide)).2.1 15 31 2 false).1⟩

/-- C6 (RRIP termination).  With `RRIP_MAX = 4`, at least one way and all RRPVs
of the set in `[0, 3]`, the loop of `Get_DRRIP_Victim` returns a way of the
set as soon as it may run 4 scans, after `passes ≤ 3` aging passes, each of
which has added one to the RRPV of every way of the set. -/
theorem Get_DRRIP_Victim_terminates (s : CACHE_REPLACEMENT_STATE) (setIndex : Nat)
    (hR : s.RRIP_MAX = 4) (hassoc : 1 ≤ s.assoc)
    (hb : RRPVrow_bounds (s.repl setIndex) s.assoc) (fuel : Nat) (hfuel : 4 ≤ fuel) :
    ∃ (way passes : Nat) (s1 : CACHE_REPLACEMENT_STATE),
      Get_DRRIP_Victim fuel s setIndex = some ((way : Int), s1) ∧ way < s.assoc ∧
      Get_DRRIP_Victim_passes fuel s setIndex = some passes ∧ passes ≤ 3 ∧
      ∀ w, w < s.assoc → (s1.repl setIndex w).RRPV = (s.repl setIndex w).RRPV + passes := by
  obtain ⟨d, k, row, hd, hget, hpass, hk, _, _, _, hrow⟩ :=
    Get_DRRIP_Victim_total s setIndex hR hassoc hb fuel hfuel
  refine ⟨k, d, _, hget, hk, hpass, hd, ?_⟩
  intro w hw
  show (setRow s.repl setIndex row setIndex w).RRPV = _
  rw [setRow_same, hrow w, if_pos hw]

/-- Worked example for C6: a set whose four RRPVs are 0 needs three aging
passes, after which way 0 is returned. -/
theorem Get_DRRIP_Victim_terminates_witness :
    (hitExample.RRIP_MAX = 4 ∧ 1 ≤ hitExample.assoc ∧
      RRPVrow_bounds (hitExample.repl 5) hitExample.assoc ∧ 4 ≤ 4) ∧
    ∃ (way passes : Nat) (s1 : CACHE_REPLACEMENT_STATE),
      Get_DRRIP_Victim 4 hitExample 5 = some ((way : Int), s1) ∧ way < hitExample.assoc ∧
      Get_DRRIP_Victim_passes 4 hitExample 5 = some passes ∧ passes ≤ 3 ∧
      ∀ w, w < hitExample.assoc →
        (s1.repl 5 w).RRPV = (hitExample.repl 5 w).RRPV + passes :=
  ⟨⟨by decide, by decide, by decide, by decide⟩,
    Get_DRRIP_Victim_terminates hitExample 5 (by decide) (by decide) (by decide) 4
      (by decide)⟩

/-- C7 (RRIP victim choice).  Under the same conditions the way returned by
`Get_DRRIP_Victim` has RRPV 3 in the state left and is the lowest-indexed way
of the set with that value; and if some way of the set has RRPV 3 before the
call, no aging pass is made, the state is left as it was, and the way
returned is the lowest-indexed way that had RRPV 3. -/
theorem Get_DRRIP_Victim_choice (s : CACHE_REPLACEMENT_STATE) (setIndex : Nat)
    (hR : s.RRIP_MAX = 4) (hassoc : 1 ≤ s.assoc)
    (hb : RRPVrow_bounds (s.repl setIndex) s.assoc) (fuel : Nat) (hfuel : 4 ≤ fuel) :
    ∃ (way : Nat) (s1 : CACHE_REPLACEMENT_STATE),
      Get_DRRIP_Victim fuel s setIndex = some ((way : Int), s1) ∧ way < s.assoc ∧
      (s1.repl setIndex way).RRPV = 3 ∧
      (∀ j, j < way → (s1.repl setIndex j).RRPV ≠ 3) ∧
      ((∃ w, w < s.assoc ∧ (s.repl setIndex w).RRPV = 3) →
        s1 = s ∧ Get_DRRIP_Victim_passes fuel s setIndex = some 0 ∧
        (s.repl setIndex way).RRPV = 3 ∧
        ∀ j, j < way → (s.repl setIndex j).RRPV ≠ 3) := by
  obtain ⟨d, k, row, hd, hget, hpass, hk, hk3, hfirst, hle, hrow⟩ :=
    Get_DRRIP_Victim_total s setIndex hR hassoc hb fuel hfuel
  refine ⟨k, _, hget, hk, ?_, ?_, ?_⟩
  · show (setRow s.repl setIndex row setIndex k).RRPV = 3
    rw [setRow_same, hrow k, if_pos hk]
    exact hk3
  · intro j hj
    show (setRow s.repl setIndex row setIndex j).RRPV ≠ 3
    rw [setRow_same, hrow j, if_pos (by omega)]
    exact hfirst j hj
  · rintro ⟨w, hw, hw3⟩
    have hd0 : d = 0 := by
      have := hle w hw
      omega
    subst hd0
    have hrow0 : row = s.repl setIndex := by
      funext w
      rw [hrow w]
      split <;> rfl
    refine ⟨?_, hpass, by simpa using hk3, fun j hj => by simpa using hfirst j hj⟩
    rw [hrow0, setRow_self]

/-- Worked example for C7: in a fresh contestant cache every RRPV is 3, so the
victim of set 7 is way 0 and nothing is aged. -/
theorem Get_DRRIP_Victim_choice_witness :
    (drripExample.RRIP_MAX = 4 ∧ 1 ≤ drripExample.assoc ∧
      RRPVrow_bounds (drripExample.repl 7) drripExample.assoc ∧ 4 ≤ 6) ∧
    ∃ (way : Nat) (s1 : CACHE_REPLACEMENT_STATE),
      Get_DRRIP_Victim 6 drripExample 7 = some ((way : Int), s1) ∧ way < drripExample.assoc ∧
      (s1.repl 7 way).RRPV = 3 ∧
      (∀ j, j < way → (s1.repl 7 j).RRPV ≠ 3) ∧
      ((∃ w, w < drripExample.assoc ∧ (drripExample.repl 7 w).RRPV = 3) →
        s1 = drripExample ∧ Get_DRRIP_Victim_passes 6 drripExample 7 = some 0 ∧
        (drripExample.repl 7 way).RRPV = 3 ∧
        ∀ j, j < way → (drripExample.repl 7 j).RRPV ≠ 3) :=
  ⟨⟨by decide, by decide, by decide, by decide⟩,
    Get_DRRIP_Victim_choice drripExample 7 (by decide) (by decide) (by decide) 6 (by decide)⟩

/-! ## Claims C8 to C10 -/

theorem Get_LRU_Victim_range (s : CACHE_REPLACEMENT_STATE) (setIndex : Nat)
    (hassoc : 1 ≤ s.assoc) :
    ∃ way : Nat, Get_LRU_Victim s setIndex = (way : Int) ∧ way < s.assoc := by
  unfold Get_LRU_Victim
  rcases Get_LRU_Victim_scan_range (s.repl setIndex) s.assoc s.assoc 0 with h | ⟨k, _, hk, h⟩
  · exact ⟨0, by rw [h]; rfl, by omega⟩
  · exact ⟨k, h, by omega⟩

theorem GetVictimInSet_random (fuel : Nat) (s : CACHE_REPLACEMENT_STATE) (r setIndex : Nat)
    (hpol : s.replPolicy = CRC_REPL_RANDOM) :
    GetVictimInSet fuel s r setIndex =
      if s.assoc = 0 then .divideByZero else .ret (((r % s.assoc : Nat) : Int), s) := by
  unfold GetVictimInSet Get_Random_Victim
  rw [if_neg (by rw [hpol]; decide), if_pos hpol]
  by_cases h : s.assoc = 0
  · rw [if_pos h, if_pos h]
  · rw [if_neg h, if_neg h]

/-- C8 (victim validity).  With at least one way, `GetVictimInSet` returns a
way index in `[0, assoc-1]`, hence not BYPASS `-1`: under LRU for any contents
of the set; under Random, where the way is `r mod assoc` for the value `r` of
`rand()`; and under the contestant policy when `RRIP_MAX = 4` and the RRPVs of
the set are in `[0, 3]`. -/
theorem GetVictimInSet_valid (s : CACHE_REPLACEMENT_STATE) (r setIndex fuel : Nat)
    (hassoc : 1 ≤ s.assoc) (hfuel : 4 ≤ fuel) :
    (s.replPolicy = CRC_REPL_LRU →
      ∃ way : Nat, GetVictimInSet fuel s r setIndex = .ret ((way : Int), s) ∧
        way < s.assoc ∧ (way : Int) ≠ -1) ∧
    (s.replPolicy = CRC_REPL_RANDOM →
      GetVictimInSet fuel s r setIndex = .ret (((r % s.assoc : Nat) : Int), s) ∧
        r % s.assoc < s.assoc ∧ ((r % s.assoc : Nat) : Int) ≠ -1) ∧
    (s.replPolicy = CRC_REPL_CONTESTANT → s.RRIP_MAX = 4 →
      RRPVrow_bounds (s.repl setIndex) s.assoc →
      ∃ (way : Nat) (s1 : CACHE_REPLACEMENT_STATE),
        GetVictimInSet fuel s r setIndex = .ret ((way : Int), s1) ∧
        way < s.assoc ∧ (way : Int) ≠ -1) := by
  refine ⟨?_, ?_, ?_⟩
  · intro hpol
    obtain ⟨way, hway, hlt⟩ := Get_LRU_Victim_range s setIndex hassoc
    refine ⟨way, ?_, hlt, by omega⟩
    unfold GetVictimInSet
    rw [if_pos hpol, hway]
  · intro hpol
    refine ⟨?_, Nat.mod_lt _ (by omega), by omega⟩
    rw [GetVictimInSet_random fuel s r setIndex hpol, if_neg (by omega)]
  · intro hpol hR hb
    obtain ⟨d, k, row, _, hget, _, hk, _⟩ :=
      Get_DRRIP_Victim_total s setIndex hR hassoc hb fuel hfuel
    refine ⟨k, { s with repl := setRow s.repl setIndex row }, ?_, hk, by omega⟩
    unfold GetVictimInSet
    rw [if_neg (by rw [hpol]; decide), if_neg (by rw [hpol]; decide), if_pos hpol, hget]

/-- Worked example for C8: with `rand()` returning 10 a 4-way Random cache
selects way 2. -/
theorem GetVictimInSet_valid_witness :
    (1 ≤ randomExample.assoc ∧ 4 ≤ 4 ∧ randomExample.replPolicy = CRC_REPL_RANDOM) ∧
    (GetVictimInSet 4 randomExample 10 1 =
        .ret (((10 % randomExample.assoc : Nat) : Int), randomExample) ∧
      10 % randomExample.assoc < randomExample.assoc ∧
      ((10 % randomExample.assoc : Nat) : Int) ≠ -1) :=
  ⟨⟨by decide, by decide, by decide⟩,
    (GetVictimInSet_valid randomExample 10 1 4 (by decide) (by decide)).2.1 (by decide)⟩

/-- C9 (purity of victim selection).  Under LRU `GetVictimInSet` returns with
the state it was given.  Under Random it returns the way `r mod assoc` with
the state it was given when there is a way; with `assoc = 0` the division
traps and no state is left; so whenever it returns, the state is the one
given.  Under the contestant policy, whenever it returns, the state left
differs from the one given in the table only, and there only in RRPVs of ways `0 .. assoc-1` of the addressed
set: every stack position, every line of every other set, and PSEL,
`hitpolicy`, SL, BL, SI, BI are as before; and it does return when
`RRIP_MAX = 4`, there is a way and the RRPVs of the set are in `[0, 3]`. -/
theorem GetVictimInSet_frame (s : CACHE_REPLACEMENT_STATE) (r setIndex fuel : Nat) :
    (s.replPolicy = CRC_REPL_LRU →
      GetVictimInSet fuel s r setIndex = .ret (Get_LRU_Victim s setIndex, s)) ∧
    (s.replPolicy = CRC_REPL_RANDOM →
      (1 ≤ s.assoc →
        GetVictimInSet fuel s r setIndex = .ret (((r % s.assoc : Nat) : Int), s)) ∧
      (s.assoc = 0 → GetVictimInSet fuel s r setIndex = .divideByZero) ∧
      (∀ (way : Int) (s1 : CACHE_REPLACEMENT_STATE),
        GetVictimInSet fuel s r setIndex = .ret (way, s1) → s1 = s)) ∧
    (s.replPolicy = CRC_REPL_CONTESTANT →
      ∀ (way : Int) (s1 : CACHE_REPLACEMENT_STATE),
        GetVictimInSet fuel s r setIndex = .ret (way, s1) →
        s1 = { s with repl := s1.repl } ∧
        (∀ i w, (s1.repl i w).LRUstackposition = (s.repl i w).LRUstackposition) ∧
        (∀ i, i ≠ setIndex → s1.repl i = s.repl i) ∧
        (∀ w, s.assoc ≤ w → s1.repl setIndex w = s.repl setIndex w) ∧
        s1.PS = s.PS ∧ s1.hitpolicy = s.hitpolicy ∧ s1.SL = s.SL ∧ s1.BL = s.BL ∧
        s1.SI = s.SI ∧ s1.BI = s.BI) ∧
    (s.replPolicy = CRC_REPL_CONTESTANT → s.RRIP_MAX = 4 → 1 ≤ s.assoc → 4 ≤ fuel →
      RRPVrow_bounds (s.repl setIndex) s.assoc →
      ∃ (way : Int) (s1 : CACHE_REPLACEMENT_STATE),
        GetVictimInSet fuel s r setIndex = .ret (way, s1)) := by
  refine ⟨?_, ?_, ?_, ?_⟩
  · intro hpol
    unfold GetVictimInSet
    rw [if_pos hpol]
  · intro hpol
    rw [GetVictimInSet_random fuel s r setIndex hpol]
    refine ⟨fun h => by rw [if_neg (by omega)], fun h => by rw [if_pos h], ?_⟩
    intro way s1 hret
    by_cases h : s.assoc = 0
    · rw [if_pos h] at hret
      simp at hret
    · rw [if_neg h] at hret
      simp only [Outcome.ret.injEq, Prod.mk.injEq] at hret
      exact hret.2.symm
  · intro hpol way s1 hret
    unfold GetVictimInSet at hret
    rw [if_neg (by rw [hpol]; decide), if_neg (by rw [hpol]; decide), if_pos hpol] at hret
    unfold Get_DRRIP_Victim at hret
    cases hloop : Get_DRRIP_Victim_loop s.assoc s.RRIP_MAX fuel (s.repl setIndex) 0 with
    | none => rw [hloop] at hret; simp at hret
    | some x =>
      obtain ⟨res, row, n⟩ := x
      rw [hloop] at hret
      simp only [Outcome.ret.injEq, Prod.mk.injEq] at hret
      obtain ⟨_, hs1⟩ := hret
      subst hs1
      have hframe := Get_DRRIP_Victim_loop_frame _ _ _ _ _ _ _ _ hloop
      refine ⟨rfl, ?_, ?_, ?_, rfl, rfl, rfl, rfl, rfl, rfl⟩
      · intro i w
        show (setRow s.repl setIndex row i w).LRUstackposition = _
        by_cases hi : i = setIndex
        · subst hi
          rw [setRow_same]
          exact (hframe w).1
        · rw [setRow_other _ _ _ _ hi]
      · intro i hi
        show setRow s.repl setIndex row i = _
        rw [setRow_other _ _ _ _ hi]
      · intro w hw
        show setRow s.repl setIndex row setIndex w = _
        rw [setRow_same]
        exact (hframe w).2 hw
  · intro hpol hR hassoc hfuel hb
    obtain ⟨d, k, row, _, hget, _⟩ := Get_DRRIP_Victim_total s setIndex hR hassoc hb fuel hfuel
    refine ⟨(k : Int), { s with repl := setRow s.repl setIndex row }, ?_⟩
    unfold GetVictimInSet
    rw [if_neg (by rw [hpol]; decide), if_neg (by rw [hpol]; decide), if_pos hpol, hget]

/-- Worked example for C9: victim selection on the set whose RRPVs are all 0
ages that set and leaves PSEL and the stack positions alone; on the Random
cache of 4 ways it returns way `10 mod 4` and the state given, and on the
Random cache without ways the division traps. -/
theorem GetVictimInSet_frame_witness :
    (hitExample.replPolicy = CRC_REPL_CONTESTANT ∧
      ∃ (way : Int) (s1 : CACHE_REPLACEMENT_STATE),
        GetVictimInSet 4 hitExample 0 5 = .ret (way, s1) ∧
        s1 = { hitExample with repl := s1.repl } ∧
        (∀ i w, (s1.repl i w).LRUstackposition = (hitExample.repl i w).LRUstackposition) ∧
        (∀ i, i ≠ 5 → s1.repl i = hitExample.repl i) ∧ s1.PS = hitExample.PS) ∧
    ((randomExample.replPolicy = CRC_REPL_RANDOM ∧ 1 ≤ randomExample.assoc) ∧
      GetVictimInSet 4 randomExample 10 1 =
        .ret (((10 % randomExample.assoc : Nat) : Int), randomExample)) ∧
    ((zeroWayExample.replPolicy = CRC_REPL_RANDOM ∧ zeroWayExample.assoc = 0) ∧
      GetVictimInSet 4 zeroWayExample 10 1 = .divideByZero) := by
  have h := GetVictimInSet_frame hitExample 0 5 4
  obtain ⟨way, s1, hret⟩ :=
    h.2.2.2 (by decide) (by decide) (by decide) (by decide) (by decide)
  obtain ⟨h1, h2, h3, _, h5, _⟩ := h.2.2.1 (by decide) way s1 hret
  exact ⟨⟨by decide, way, s1, hret, h1, h2, h3, h5⟩,
    ⟨⟨by decide, by decide⟩,
      ((GetVictimInSet_frame randomExample 10 1 4).2.1 (by decide)).1 (by decide)⟩,
    ⟨⟨by decide, by decide⟩,
      ((GetVictimInSet_frame zeroWayExample 10 1 4).2.1 (by decide)).2.1 (by decide)⟩⟩

/-- C10 (SRRIP-leader miss).  With `LeaderSets = 32` and `RRIP_MAX = 4`, for a
set index `s` with `s % 33 = 0` and `s < 33 * 32 = 1056`, `UpdateDRRIP` on a miss
is the SRRIP insertion on the table (the RRPV of the way becomes 2, nothing
else changes there), PSEL becomes PSEL - 1 when PSEL > 0 and stays 0
otherwise, BL is incremented by one (as the 32-bit counter it is), and SL, SI,
BI are unchanged. -/
theorem UpdateDRRIP_SRRIP_leader_miss (s : CACHE_REPLACEMENT_STATE) (r setIndex way : Nat)
    (hL : s.LeaderSets = 32) (hR : s.RRIP_MAX = 4)
    (h33 : setIndex % 33 = 0) (hlt : setIndex < 33 * 32) :
    (UpdateDRRIP s r setIndex way false).repl = (UpdateSRRIP s setIndex way false).repl ∧
    ((UpdateDRRIP s r setIndex way false).repl setIndex way).RRPV = 2 ∧
    ((UpdateDRRIP s r setIndex way false).repl setIndex way).LRUstackposition =
      (s.repl setIndex way).LRUstackposition ∧
    (∀ i w, ¬ (i = setIndex ∧ w = way) →
      (UpdateDRRIP s r setIndex way false).repl i w = s.repl i w) ∧
    (UpdateDRRIP s r setIndex way false).PS = (if s.PS > 0 then s.PS - 1 else 0) ∧
    (UpdateDRRIP s r setIndex way false).BL = (s.BL + 1) % 2 ^ 32 ∧
    (s.BL + 1 < 2 ^ 32 → (UpdateDRRIP s r setIndex way false).BL = s.BL + 1) ∧
    (UpdateDRRIP s r setIndex way false).SL = s.SL ∧
    (UpdateDRRIP s r setIndex way false).SI = s.SI ∧
    (UpdateDRRIP s r setIndex way false).BI = s.BI := by
  have hcond : setIndex % 33 = 0 ∧ setIndex < (s.LeaderSets * 33) % UINT32_MOD := by
    refine ⟨h33, ?_⟩
    rw [hL]
    have : (32 * 33) % UINT32_MOD = 1056 := by decide
    omega
  have hrepl : (UpdateDRRIP s r setIndex way false).repl =
      (UpdateSRRIP s setIndex way false).repl := by
    unfold UpdateDRRIP
    rw [if_pos hcond]
    simp only [Bool.not_false, if_true]
    split <;> rfl
  have hPS : (UpdateDRRIP s r setIndex way false).PS = (if s.PS > 0 then s.PS - 1 else 0) := by
    unfold UpdateDRRIP
    rw [if_pos hcond]
    simp only [Bool.not_false, if_true]
    have hps : (UpdateSRRIP s setIndex way false).PS = s.PS := rfl
    rw [hps]
    by_cases hp : s.PS > 0
    · rw [if_pos hp, if_pos hp]
    · rw [if_neg hp, if_neg hp]
      show s.PS = 0
      omega
  have hBL : (UpdateDRRIP s r setIndex way false).BL = (s.BL + 1) % 2 ^ 32 := by
    unfold UpdateDRRIP
    rw [if_pos hcond]
    simp only [Bool.not_false, if_true]
    split <;> rfl
  refine ⟨hrepl, ?_, ?_, ?_, hPS, hBL, ?_, ?_, ?_, ?_⟩
  · rw [hrepl, UpdateSRRIP_repl, if_pos ⟨rfl, rfl⟩, hR]
    rfl
  · rw [hrepl, UpdateSRRIP_repl, if_pos ⟨rfl, rfl⟩]
  · intro i w hiw
    rw [hrepl, UpdateSRRIP_repl, if_neg hiw]
  · intro hsmall
    rw [hBL]
    exact Nat.mod_eq_of_lt hsmall
  · unfold UpdateDRRIP
    rw [if_pos hcond]
    simp only [Bool.not_false, if_true]
    split <;> rfl
  · unfold UpdateDRRIP
    rw [if_pos hcond]
    simp only [Bool.not_false, if_true]
    split <;> rfl
  · unfold UpdateDRRIP
    rw [if_pos hcond]
    simp only [Bool.not_false, if_true]
    split <;> rfl

/-- Worked example for C10: a miss on way 1 of set 33 of the fresh contestant
cache takes PSEL from 512 to 511 and BL from 0 to 1. -/
theorem UpdateDRRIP_SRRIP_leader_miss_witness :
    (drripExample.LeaderSets = 32 ∧ drripExample.RRIP_MAX = 4 ∧ 33 % 33 = 0 ∧ 33 < 33 * 32) ∧
    ((UpdateDRRIP drripExample 9 33 1 false).repl 33 1).RRPV = 2 ∧
    (UpdateDRRIP drripExample 9 33 1 false).PS = (if drripExample.PS > 0 then
      drripExample.PS - 1 else 0) ∧
    (UpdateDRRIP drripExample 9 33 1 false).BL = (drripExample.BL + 1) % 2 ^ 32 :=
  have h := UpdateDRRIP_SRRIP_leader_miss drripExample 9 33 1 (by decide) (by decide)
    (by decide) (by decide)
  ⟨⟨by decide, by decide, by decide, by decide⟩, h.2.1, h.2.2.2.2.1, h.2.2.2.2.2.1⟩

/-! ## The branches of UpdateDRRIP -/

theorem leader_bounds_32 :
    (32 * 33) % UINT32_MOD = 1056 ∧ (31 * 32) % UINT32_MOD = 992 := by
  constructor <;> decide

theorem UpdateDRRIP_SRRIP_leader_branch (s : CACHE_REPLACEMENT_STATE) (r setIndex way : Nat)
    (cacheHit : Bool)
    (hS : setIndex % 33 = 0 ∧ setIndex < (s.LeaderSets * 33) % UINT32_MOD) :
    UpdateDRRIP s r setIndex way cacheHit =
      if cacheHit then UpdateSRRIP s setIndex way cacheHit
      else { UpdateSRRIP s setIndex way cacheHit with
             PS := s.PS - 1, BL := UINT32_inc s.BL } := by
  unfold UpdateDRRIP
  rw [if_pos hS]
  cases cacheHit
  · simp only [Bool.not_false, if_true, Bool.false_eq_true, if_false]
    have hps : (UpdateSRRIP s setIndex way false).PS = s.PS := rfl
    by_cases hp : s.PS > 0
    · rw [hps, if_pos hp]
      rfl
    · rw [hps, if_neg hp]
      have h0 : s.PS - 1 = s.PS := by omega
      rw [h0]
      rfl
  · rfl

theorem UpdateDRRIP_BRRIP_leader_branch (s : CACHE_REPLACEMENT_STATE) (r setIndex way : Nat)
    (cacheHit : Bool)
    (hS : ¬ (setIndex % 33 = 0 ∧ setIndex < (s.LeaderSets * 33) % UINT32_MOD))
    (hB : setIndex % 31 = 0 ∧ setIndex > 0 ∧ setIndex ≤ (31 * s.LeaderSets) % UINT32_MOD) :
    UpdateDRRIP s r setIndex way cacheHit =
      if cacheHit then UpdateBRRIP s r setIndex way cacheHit
      else { UpdateBRRIP s r setIndex way cacheHit with
             PS := if s.PS < s.PS_MAX then s.PS + 1 else s.PS, SL := UINT32_inc s.SL } := by
  unfold UpdateDRRIP
  rw [if_neg hS, if_pos hB]
  cases cacheHit
  · simp only [Bool.not_false, if_true, Bool.false_eq_true, if_false]
    have hps : (UpdateBRRIP s r setIndex way false).PS = s.PS := rfl
    have hpm : (UpdateBRRIP s r setIndex way false).PS_MAX = s.PS_MAX := rfl
    by_cases hp : s.PS < s.PS_MAX
    · rw [hps, hpm, if_pos hp, if_pos hp]
      rfl
    · rw [hps, hpm, if_neg hp, if_neg hp]
      rfl
  · rfl

theorem UpdateDRRIP_follower_SRRIP_branch (s : CACHE_REPLACEMENT_STATE)
    (r setIndex way : Nat) (cacheHit : Bool)
    (hS : ¬ (setIndex % 33 = 0 ∧ setIndex < (s.LeaderSets * 33) % UINT32_MOD))
    (hB : ¬ (setIndex % 31 = 0 ∧ setIndex > 0 ∧ setIndex ≤ (31 * s.LeaderSets) % UINT32_MOD))
    (hPS : s.PS ≥ s.PS_MAX / 2) :
    UpdateDRRIP s r setIndex way cacheHit =
      if cacheHit then UpdateSRRIP s setIndex way cacheHit
      else { UpdateSRRIP s setIndex way cacheHit with SI := UINT32_inc s.SI } := by
  unfold UpdateDRRIP
  rw [if_neg hS, if_neg hB, if_pos hPS]
  cases cacheHit <;> rfl

theorem UpdateDRRIP_follower_BRRIP_branch (s : CACHE_REPLACEMENT_STATE)
    (r setIndex way : Nat) (cacheHit : Bool)
    (hS : ¬ (setIndex % 33 = 0 ∧ setIndex < (s.LeaderSets * 33) % UINT32_MOD))
    (hB : ¬ (setIndex % 31 = 0 ∧ setIndex > 0 ∧ setIndex ≤ (31 * s.LeaderSets) % UINT32_MOD))
    (hPS : s.PS < s.PS_MAX / 2) :
    UpdateDRRIP s r setIndex way cacheHit =
      if cacheHit then UpdateBRRIP s r setIndex way cacheHit
      else { UpdateBRRIP s r setIndex way cacheHit with BI := UINT32_inc s.BI } := by
  unfold UpdateDRRIP
  rw [if_neg hS, if_neg hB, if_neg (by omega), if_pos hPS]
  cases cacheHit <;> rfl

theorem UpdateBRRIP_miss_RRPV (s : CACHE_REPLACEMENT_STATE) (r setIndex way : Nat)
    (hE : s.EPSILON = 16) (hR : s.RRIP_MAX = 4) :
    ((UpdateBRRIP s r setIndex way false).repl setIndex way).RRPV =
      if r % 16 = 15 then 2 else 3 := by
  rw [UpdateBRRIP_repl, if_pos ⟨rfl, rfl⟩, hE, hR, UINT32_sub_16_1, UINT32_sub_4_2,
    UINT32_sub_4_1]
  have hmod : (r % 16) % UINT32_MOD = r % 16 :=
    Nat.mod_eq_of_lt (by unfold UINT32_MOD; omega)
  rw [hmod]
  rfl

/-! ## Claims C11, C13, C14, C15 -/

/-- C11 (BRRIP-leader miss).  With `LeaderSets = 32`, `PS_MAX = 1024`,
`RRIP_MAX = 4` and `EPSILON = 16`, for a set index `s` with `s % 31 = 0`, `s > 0`
and `s ≤ 31 * 32 = 992` (such an index is never an SRRIP leader), `UpdateDRRIP`
on a miss is the BRRIP insertion on the table (the RRPV of the way becomes 2
when `r % 16 = 15` and 3 otherwise, nothing else changes there), PSEL becomes
PSEL + 1 when PSEL < 1024 and is left as it is otherwise, SL is incremented
by one (as the 32-bit counter it is), and BL, SI, BI are unchanged. -/
theorem UpdateDRRIP_BRRIP_leader_miss (s : CACHE_REPLACEMENT_STATE) (r setIndex way : Nat)
    (hL : s.LeaderSets = 32) (hM : s.PS_MAX = 1024) (hR : s.RRIP_MAX = 4)
    (hE : s.EPSILON = 16)
    (h31 : setIndex % 31 = 0) (hpos : 0 < setIndex) (hle : setIndex ≤ 31 * 32) :
    ¬ isSRRIPleader s.LeaderSets setIndex ∧
    (UpdateDRRIP s r setIndex way false).repl = (UpdateBRRIP s r setIndex way false).repl ∧
    ((UpdateDRRIP s r setIndex way false).repl setIndex way).RRPV =
      (if r % 16 = 15 then 2 else 3) ∧
    ((UpdateDRRIP s r setIndex way false).repl setIndex way).LRUstackposition =
      (s.repl setIndex way).LRUstackposition ∧
    (∀ i w, ¬ (i = setIndex ∧ w = way) →
      (UpdateDRRIP s r setIndex way false).repl i w = s.repl i w) ∧
    (UpdateDRRIP s r setIndex way false).PS = (if s.PS < 1024 then s.PS + 1 else s.PS) ∧
    (s.PS = 1024 → (UpdateDRRIP s r setIndex way false).PS = 1024) ∧
    (UpdateDRRIP s r setIndex way false).SL = (s.SL + 1) % 2 ^ 32 ∧
    (s.SL + 1 < 2 ^ 32 → (UpdateDRRIP s r setIndex way false).SL = s.SL + 1) ∧
    (UpdateDRRIP s r setIndex way false).BL = s.BL ∧
    (UpdateDRRIP s r setIndex way false).SI = s.SI ∧
    (UpdateDRRIP s r setIndex way false).BI = s.BI := by
  obtain ⟨e1, e2⟩ := leader_bounds_32
  have hS : ¬ (setIndex % 33 = 0 ∧ setIndex < (s.LeaderSets * 33) % UINT32_MOD) := by
    rw [hL, e1]; omega
  have hB : setIndex % 31 = 0 ∧ setIndex > 0 ∧ setIndex ≤ (31 * s.LeaderSets) % UINT32_MOD := by
    rw [hL, e2]; omega
  have hbranch := UpdateDRRIP_BRRIP_leader_branch s r setIndex way false hS hB
  simp only [Bool.false_eq_true, if_false] at hbranch
  have hrepl : (UpdateDRRIP s r setIndex way false).repl =
      (UpdateBRRIP s r setIndex way false).repl := by rw [hbranch]
  have hPS : (UpdateDRRIP s r setIndex way false).PS =
      (if s.PS < 1024 then s.PS + 1 else s.PS) := by rw [hbranch, ← hM]
  have hSL : (UpdateDRRIP s r setIndex way false).SL = (s.SL + 1) % 2 ^ 32 := by
    rw [hbranch]; rfl
  refine ⟨hS, hrepl, ?_, ?_, ?_, hPS, ?_, hSL, ?_, ?_, ?_, ?_⟩
  · rw [hrepl]; exact UpdateBRRIP_miss_RRPV s r setIndex way hE hR
  · rw [hrepl, UpdateBRRIP_repl, if_pos ⟨rfl, rfl⟩]
  · intro i w hiw
    rw [hrepl, UpdateBRRIP_repl, if_neg hiw]
  · intro h
    rw [hPS, h]
    rfl
  · intro hsmall
    rw [hSL]
    exact Nat.mod_eq_of_lt hsmall
  · rw [hbranch]
    rfl
  · rw [hbranch]
    rfl
  · rw [hbranch]
    rfl

/-- Worked example for C11: a miss on way 2 of set 31 of the fresh contestant
cache, with `rand()` returning 15, inserts at RRPV 2, takes PSEL from 512 to
513 and SL from 0 to 1. -/
theorem UpdateDRRIP_BRRIP_leader_miss_witness :
    (drripExample.LeaderSets = 32 ∧ drripExample.PS_MAX = 1024 ∧ drripExample.RRIP_MAX = 4 ∧
      drripExample.EPSILON = 16 ∧ 31 % 31 = 0 ∧ 0 < 31 ∧ 31 ≤ 31 * 32) ∧
    ((UpdateDRRIP drripExample 15 31 2 false).repl 31 2).RRPV = (if 15 % 16 = 15 then 2 else 3) ∧
    (UpdateDRRIP drripExample 15 31 2 false).PS =
      (if drripExample.PS < 1024 then drripExample.PS + 1 else drripExample.PS) ∧
    (UpdateDRRIP drripExample 15 31 2 false).SL = (drripExample.SL + 1) % 2 ^ 32 :=
  have h := UpdateDRRIP_BRRIP_leader_miss drripExample 15 31 2 (by decide) (by decide)
    (by decide) (by decide) (by decide) (by decide) (by decide)
  ⟨⟨by decide, by decide, by decide, by decide, by decide, by decide, by decide⟩,
    h.2.2.1, h.2.2.2.2.2.1, h.2.2.2.2.2.2.2.1⟩

/-- C13 (follower steering).  With `LeaderSets = 32` and `PS_MAX = 1024`, on a
set that is neither an SRRIP leader nor a BRRIP leader: when PSEL ≥ 512
(equality included) `UpdateDRRIP` is `UpdateSRRIP`, followed on a miss by the
increment of SI and nothing else; when PSEL < 512 it is `UpdateBRRIP`,
followed on a miss by the increment of BI and nothing else; PSEL is unchanged
in both cases. -/
theorem UpdateDRRIP_follower_steering (s : CACHE_REPLACEMENT_STATE) (r setIndex way : Nat)
    (cacheHit : Bool) (hL : s.LeaderSets = 32) (hM : s.PS_MAX = 1024)
    (hS : ¬ isSRRIPleader 32 setIndex) (hB : ¬ isBRRIPleader 32 setIndex) :
    (512 ≤ s.PS →
      UpdateDRRIP s r setIndex way cacheHit =
        if cacheHit then UpdateSRRIP s setIndex way cacheHit
        else { UpdateSRRIP s setIndex way cacheHit with SI := (s.SI + 1) % 2 ^ 32 }) ∧
    (s.PS < 512 →
      UpdateDRRIP s r setIndex way cacheHit =
        if cacheHit then UpdateBRRIP s r setIndex way cacheHit
        else { UpdateBRRIP s r setIndex way cacheHit with BI := (s.BI + 1) % 2 ^ 32 }) ∧
    (UpdateDRRIP s r setIndex way cacheHit).PS = s.PS := by
  have hS2 : ¬ (setIndex % 33 = 0 ∧ setIndex < (s.LeaderSets * 33) % UINT32_MOD) := by
    rw [hL]; exact hS
  have hB2 : ¬ (setIndex % 31 = 0 ∧ setIndex > 0 ∧
      setIndex ≤ (31 * s.LeaderSets) % UINT32_MOD) := by
    rw [hL]; exact hB
  have hhalf : s.PS_MAX / 2 = 512 := by rw [hM]
  have h1 : 512 ≤ s.PS →
      UpdateDRRIP s r setIndex way cacheHit =
        if cacheHit then UpdateSRRIP s setIndex way cacheHit
        else { UpdateSRRIP s setIndex way cacheHit with SI := (s.SI + 1) % 2 ^ 32 } :=
    fun hp => UpdateDRRIP_follower_SRRIP_branch s r setIndex way cacheHit hS2 hB2
      (by rw [hhalf]; exact hp)
  have h2 : s.PS < 512 →
      UpdateDRRIP s r setIndex way cacheHit =
        if cacheHit then UpdateBRRIP s r setIndex way cacheHit
        else { UpdateBRRIP s r setIndex way cacheHit with BI := (s.BI + 1) % 2 ^ 32 } :=
    fun hp => UpdateDRRIP_follower_BRRIP_branch s r setIndex way cacheHit hS2 hB2
      (by rw [hhalf]; exact hp)
  refine ⟨h1, h2, ?_⟩
  by_cases hp : 512 ≤ s.PS
  · rw [h1 hp]
    cases cacheHit <;> rfl
  · rw [h2 (by omega)]
    cases cacheHit <;> rfl

/-- Worked example for C13: set 1 of the fresh contestant cache is a follower
and PSEL is 512, so a miss is the SRRIP update followed by SI++. -/
theorem UpdateDRRIP_follower_steering_witness :
    (drripExample.LeaderSets = 32 ∧ drripExample.PS_MAX = 1024 ∧ ¬ isSRRIPleader 32 1 ∧
      ¬ isBRRIPleader 32 1 ∧ 512 ≤ drripExample.PS) ∧
    UpdateDRRIP drripExample 3 1 2 false =
      (if false then UpdateSRRIP drripExample 1 2 false
       else { UpdateSRRIP drripExample 1 2 false with SI := (drripExample.SI + 1) % 2 ^ 32 }) :=
  ⟨⟨by decide, by decide, by decide, by decide, by decide⟩,
    (UpdateDRRIP_follower_steering drripExample 3 1 2 false (by decide) (by decide) (by decide)
      (by decide)).1 (by decide)⟩

/-- C14, as stated, fails.  Set 1 is a follower.  With PSEL = 511, lower than
`PS_MAX / 2`, a miss with `rand()` returning 0 inserts at RRPV 3, where the SRRIP
update inserts at 2; with PSEL = 513, higher than `PS_MAX / 2`, the same miss
inserts at RRPV 2, where the BRRIP update inserts at 3. -/
theorem follower_direction_counterexample :
    (¬ isSRRIPleader lowPSExample.LeaderSets 1 ∧ ¬ isBRRIPleader lowPSExample.LeaderSets 1 ∧
      lowPSExample.PS < lowPSExample.PS_MAX / 2 ∧
      ((UpdateDRRIP lowPSExample 0 1 0 false).repl 1 0).RRPV = 3 ∧
      ((UpdateSRRIP lowPSExample 1 0 false).repl 1 0).RRPV = 2) ∧
    (¬ isSRRIPleader highPSExample.LeaderSets 1 ∧ ¬ isBRRIPleader highPSExample.LeaderSets 1 ∧
      highPSExample.PS > highPSExample.PS_MAX / 2 ∧
      ((UpdateDRRIP highPSExample 0 1 0 false).repl 1 0).RRPV = 2 ∧
      ((UpdateBRRIP highPSExample 0 1 0 false).repl 1 0).RRPV = 3) := by
  decide

/-- C14, amended.  With `LeaderSets = 32` and `PS_MAX = 1024`, on a follower
set: when PSEL is lower than `PS_MAX / 2` the update `UpdateDRRIP` applies to the
table is the BRRIP update, and when PSEL is higher than `PS_MAX / 2` it is the
SRRIP update (with `RRIP_MAX = 4` a miss inserts at RRPV 2). -/
theorem follower_direction (s : CACHE_REPLACEMENT_STATE) (r setIndex way : Nat)
    (cacheHit : Bool) (hL : s.LeaderSets = 32) (hM : s.PS_MAX = 1024)
    (hS : ¬ isSRRIPleader 32 setIndex) (hB : ¬ isBRRIPleader 32 setIndex) :
    (s.PS < s.PS_MAX / 2 →
      (UpdateDRRIP s r setIndex way cacheHit).repl =
        (UpdateBRRIP s r setIndex way cacheHit).repl) ∧
    (s.PS > s.PS_MAX / 2 →
      (UpdateDRRIP s r setIndex way cacheHit).repl =
        (UpdateSRRIP s setIndex way cacheHit).repl ∧
      (s.RRIP_MAX = 4 → ((UpdateDRRIP s r setIndex way false).repl setIndex way).RRPV = 2)) := by
  have hS2 : ¬ (setIndex % 33 = 0 ∧ setIndex < (s.LeaderSets * 33) % UINT32_MOD) := by
    rw [hL]; exact hS
  have hB2 : ¬ (setIndex % 31 = 0 ∧ setIndex > 0 ∧
      setIndex ≤ (31 * s.LeaderSets) % UINT32_MOD) := by
    rw [hL]; exact hB
  constructor
  · intro hp
    rw [UpdateDRRIP_follower_BRRIP_branch s r setIndex way cacheHit hS2 hB2 hp]
    cases cacheHit <;> rfl
  · intro hp
    have hge : s.PS ≥ s.PS_MAX / 2 := by omega
    constructor
    · rw [UpdateDRRIP_follower_SRRIP_branch s r setIndex way cacheHit hS2 hB2 hge]
      cases cacheHit <;> rfl
    · intro hR
      rw [UpdateDRRIP_follower_SRRIP_branch s r setIndex way false hS2 hB2 hge]
      show ((UpdateSRRIP s setIndex way false).repl setIndex way).RRPV = 2
      rw [UpdateSRRIP_repl, if_pos ⟨rfl, rfl⟩, hR]
      rfl

/-- Worked example for the amended C14: follower set 1 with PSEL = 511 takes
the BRRIP update. -/
theorem follower_direction_witness :
    (lowPSExample.LeaderSets = 32 ∧ lowPSExample.PS_MAX = 1024 ∧ ¬ isSRRIPleader 32 1 ∧
      ¬ isBRRIPleader 32 1 ∧ lowPSExample.PS < lowPSExample.PS_MAX / 2) ∧
    (UpdateDRRIP lowPSExample 0 1 0 false).repl = (UpdateBRRIP lowPSExample 0 1 0 false).repl :=
  ⟨⟨by decide, by decide, by decide, by decide, by decide⟩,
    (follower_direction lowPSExample 0 1 0 false (by decide) (by decide) (by decide)
      (by decide)).1 (by decide)⟩

/-- C15 (hits do not move PSEL).  For every state, set index, way and value of
`rand()`, `UpdateDRRIP` with `cacheHit = true` leaves PSEL and the counters SL,
BL, SI, BI as they were. -/
theorem UpdateDRRIP_hit_keeps_PSEL (s : CACHE_REPLACEMENT_STATE) (r setIndex way : Nat) :
    (UpdateDRRIP s r setIndex way true).PS = s.PS ∧
    (UpdateDRRIP s r setIndex way true).SL = s.SL ∧
    (UpdateDRRIP s r setIndex way true).BL = s.BL ∧
    (UpdateDRRIP s r setIndex way true).SI = s.SI ∧
    (UpdateDRRIP s r setIndex way true).BI = s.BI := by
  unfold UpdateDRRIP
  split
  · exact ⟨rfl, rfl, rfl, rfl, rfl⟩
  · split
    · exact ⟨rfl, rfl, rfl, rfl, rfl⟩
    · split
      · exact ⟨rfl, rfl, rfl, rfl, rfl⟩
      · split <;> exact ⟨rfl, rfl, rfl, rfl, rfl⟩

/-! ## PSEL along call sequences -/

theorem UpdateDRRIP_PS_cases (s : CACHE_REPLACEMENT_STATE) (r setIndex way : Nat)
    (cacheHit : Bool) :
    (UpdateDRRIP s r setIndex way cacheHit).PS = s.PS ∨
    ((UpdateDRRIP s r setIndex way cacheHit).PS = s.PS - 1) ∨
    ((UpdateDRRIP s r setIndex way cacheHit).PS = s.PS + 1 ∧ s.PS < s.PS_MAX) := by
  by_cases hS : setIndex % 33 = 0 ∧ setIndex < (s.LeaderSets * 33) % UINT32_MOD
  · rw [UpdateDRRIP_SRRIP_leader_branch s r setIndex way cacheHit hS]
    cases cacheHit
    · right; left; rfl
    · left; rfl
  · by_cases hB : setIndex % 31 = 0 ∧ setIndex > 0 ∧
        setIndex ≤ (31 * s.LeaderSets) % UINT32_MOD
    · rw [UpdateDRRIP_BRRIP_leader_branch s r setIndex way cacheHit hS hB]
      cases cacheHit
      · by_cases hp : s.PS < s.PS_MAX
        · right; right
          refine ⟨?_, hp⟩
          show (if s.PS < s.PS_MAX then s.PS + 1 else s.PS) = s.PS + 1
          rw [if_pos hp]
        · left
          show (if s.PS < s.PS_MAX then s.PS + 1 else s.PS) = s.PS
          rw [if_neg hp]
      · left; rfl
    · by_cases hp : s.PS ≥ s.PS_MAX / 2
      · rw [UpdateDRRIP_follower_SRRIP_branch s r setIndex way cacheHit hS hB hp]
        left
        cases cacheHit <;> rfl
      · rw [UpdateDRRIP_follower_BRRIP_branch s r setIndex way cacheHit hS hB (by omega)]
        left
        cases cacheHit <;> rfl

theorem UpdateDRRIP_PS_le (s : CACHE_REPLACEMENT_STATE) (r setIndex way : Nat)
    (cacheHit : Bool) (hM : s.PS_MAX = 1024) (h : s.PS ≤ 1024) :
    (UpdateDRRIP s r setIndex way cacheHit).PS ≤ 1024 := by
  rcases UpdateDRRIP_PS_cases s r setIndex way cacheHit with h1 | h1 | ⟨h1, h2⟩ <;> omega

theorem Get_DRRIP_Victim_fields (fuel : Nat) (s : CACHE_REPLACEMENT_STATE) (setIndex : Nat)
    (way : Int) (s1 : CACHE_REPLACEMENT_STATE)
    (h : Get_DRRIP_Victim fuel s setIndex = some (way, s1)) :
    s1 = { s with repl := s1.repl } := by
  unfold Get_DRRIP_Victim at h
  cases hloop : Get_DRRIP_Victim_loop s.assoc s.RRIP_MAX fuel (s.repl setIndex) 0 with
  | none => rw [hloop] at h; simp at h
  | some x =>
    obtain ⟨res, row, n⟩ := x
    rw [hloop] at h
    simp only [Option.some.injEq, Prod.mk.injEq] at h
    obtain ⟨_, hs1⟩ := h
    subst hs1
    rfl

theorem GetVictimInSet_fields (fuel : Nat) (s : CACHE_REPLACEMENT_STATE) (r setIndex : Nat)
    (way : Int) (s1 : CACHE_REPLACEMENT_STATE)
    (h : GetVictimInSet fuel s r setIndex = .ret (way, s1)) :
    s1 = { s with repl := s1.repl } := by
  by_cases h0 : s.replPolicy = CRC_REPL_LRU
  · unfold GetVictimInSet at h
    rw [if_pos h0] at h
    simp only [Outcome.ret.injEq, Prod.mk.injEq] at h
    obtain ⟨_, hs1⟩ := h
    subst hs1
    rfl
  · by_cases h1 : s.replPolicy = CRC_REPL_RANDOM
    · rw [GetVictimInSet_random fuel s r setIndex h1] at h
      by_cases ha : s.assoc = 0
      · rw [if_pos ha] at h
        simp at h
      · rw [if_neg ha] at h
        simp only [Outcome.ret.injEq, Prod.mk.injEq] at h
        obtain ⟨_, hs1⟩ := h
        subst hs1
        rfl
    · unfold GetVictimInSet at h
      rw [if_neg h0, if_neg h1] at h
      split at h
      · cases hget : Get_DRRIP_Victim fuel s setIndex with
        | none => rw [hget] at h; simp at h
        | some x =>
          rw [hget] at h
          simp only [Outcome.ret.injEq] at h
          subst h
          exact Get_DRRIP_Victim_fields fuel s setIndex way s1 hget
      · simp at h

theorem UpdateReplacementState_PS_le (s : CACHE_REPLACEMENT_STATE) (r setIndex way : Nat)
    (cacheHit : Bool) (h : s.PS_MAX = 1024 ∧ s.PS ≤ 1024) :
    (UpdateReplacementState s r setIndex way cacheHit).PS_MAX = 1024 ∧
    (UpdateReplacementState s r setIndex way cacheHit).PS ≤ 1024 := by
  unfold UpdateReplacementState
  split
  · exact h
  · split
    · exact h
    · split
      · refine ⟨?_, UpdateDRRIP_PS_le s r setIndex way cacheHit h.1 h.2⟩
        rw [(UpdateDRRIP_geometry s r setIndex way cacheHit).2.2.2.2.2.2.2]
        exact h.1
      · exact h

theorem stepCall_PS_le (fuel : Nat) (ways : List Int) (s : CACHE_REPLACEMENT_STATE) (c : Call)
    (x : List Int × CACHE_REPLACEMENT_STATE) (h : s.PS_MAX = 1024 ∧ s.PS ≤ 1024)
    (hstep : stepCall fuel ways s c = .ret x) : x.2.PS_MAX = 1024 ∧ x.2.PS ≤ 1024 := by
  cases c with
  | victim setIndex r =>
    simp only [stepCall] at hstep
    cases hv : GetVictimInSet fuel s r setIndex with
    | ret y =>
      rw [hv] at hstep
      simp only [Outcome.ret.injEq] at hstep
      subst hstep
      obtain ⟨way, s1⟩ := y
      have hf := GetVictimInSet_fields fuel s r setIndex way s1 hv
      show s1.PS_MAX = 1024 ∧ s1.PS ≤ 1024
      rw [hf]
      exact h
    | assertFailed => rw [hv] at hstep; simp at hstep
    | outOfFuel => rw [hv] at hstep; simp at hstep
    | divideByZero => rw [hv] at hstep; simp at hstep
  | update setIndex way cacheHit r =>
    simp only [stepCall, Outcome.ret.injEq] at hstep
    subst hstep
    exact UpdateReplacementState_PS_le s r setIndex way cacheHit h

theorem runCalls_PS_le (fuel : Nat) (calls : List Call) :
    ∀ (ways : List Int) (s : CACHE_REPLACEMENT_STATE) (x : List Int × CACHE_REPLACEMENT_STATE),
      s.PS_MAX = 1024 ∧ s.PS ≤ 1024 → runCalls fuel ways s calls = .ret x →
      x.2.PS_MAX = 1024 ∧ x.2.PS ≤ 1024 := by
  induction calls with
  | nil =>
    intro ways s x h hrun
    simp only [runCalls, Outcome.ret.injEq] at hrun
    subst hrun
    exact h
  | cons c rest ih =>
    intro ways s x h hrun
    simp only [runCalls] at hrun
    cases hstep : stepCall fuel ways s c with
    | ret y =>
      rw [hstep] at hrun
      exact ih y.1 y.2 x (stepCall_PS_le fuel ways s c y h hstep) hrun
    | assertFailed => rw [hstep] at hrun; simp at hrun
    | outOfFuel => rw [hstep] at hrun; simp at hrun
    | divideByZero => rw [hstep] at hrun; simp at hrun

theorem construct_PS (mem : CACHE_REPLACEMENT_STATE) (sets assoc pol : Nat) :
    (construct mem sets assoc pol).PS = 512 ∧ (construct mem sets assoc pol).PS_MAX = 1024 := by
  unfold construct InitReplacementState
  exact ⟨rfl, rfl⟩

theorem Get_DRRIP_Victim_RRIPstate (s : CACHE_REPLACEMENT_STATE) (setIndex fuel : Nat)
    (h : RRIPstate s) (hset : setIndex < s.numsets) (hfuel : 4 ≤ fuel) :
    ∃ (way : Int) (s1 : CACHE_REPLACEMENT_STATE),
      Get_DRRIP_Victim fuel s setIndex = some (way, s1) ∧ RRIPstate s1 ∧
      s1.numsets = s.numsets ∧ s1.replPolicy = s.replPolicy := by
  obtain ⟨hR, hassoc, hb⟩ := h
  obtain ⟨d, k, row, _, hget, _, _, _, _, hle, hrow⟩ :=
    Get_DRRIP_Victim_total s setIndex hR hassoc (hb setIndex hset) fuel hfuel
  refine ⟨(k : Int), { s with repl := setRow s.repl setIndex row }, hget,
    ⟨hR, hassoc, ?_⟩, rfl, rfl⟩
  intro i hi w hw
  show (setRow s.repl setIndex row i w).RRPV ≤ 3
  by_cases hiset : i = setIndex
  · subst hiset
    rw [setRow_same, hrow w, if_pos hw]
    exact hle w hw
  · rw [setRow_other _ _ _ _ hiset]
    exact hb i hi w hw

theorem UpdateDRRIP_RRIPstate (s : CACHE_REPLACEMENT_STATE) (r setIndex way : Nat)
    (cacheHit : Bool) (h : RRIPstate s) : RRIPstate (UpdateDRRIP s r setIndex way cacheHit) := by
  obtain ⟨hR, hassoc, hb⟩ := h
  obtain ⟨hn, ha, _, _, hR2, _⟩ := UpdateDRRIP_geometry s r setIndex way cacheHit
  refine ⟨by rw [hR2]; exact hR, by rw [ha]; exact hassoc, ?_⟩
  intro i hi w hw
  rw [hn] at hi
  rw [ha] at hw
  exact UpdateDRRIP_RRPV_le s r setIndex way cacheHit hR i w (hb i hi w hw)

theorem stepCall_contestant_total (fuel : Nat) (ways : List Int) (s : CACHE_REPLACEMENT_STATE)
    (c : Call) (hpol : s.replPolicy = CRC_REPL_CONTESTANT) (h : RRIPstate s)
    (hfuel : 4 ≤ fuel) (hc : ∀ i r, c = .victim i r → i < s.numsets) :
    ∃ x, stepCall fuel ways s c = .ret x ∧ x.2.replPolicy = CRC_REPL_CONTESTANT ∧
      RRIPstate x.2 ∧ x.2.numsets = s.numsets := by
  cases c with
  | victim setIndex r =>
    obtain ⟨way, s1, hget, hst, hn, hp⟩ :=
      Get_DRRIP_Victim_RRIPstate s setIndex fuel h (hc setIndex r rfl) hfuel
    refine ⟨(ways ++ [way], s1), ?_, by rw [hp]; exact hpol, hst, hn⟩
    simp only [stepCall]
    unfold GetVictimInSet
    rw [if_neg (by rw [hpol]; decide), if_neg (by rw [hpol]; decide), if_pos hpol, hget]
  | update setIndex way cacheHit r =>
    refine ⟨(ways, UpdateReplacementState s r setIndex way cacheHit), rfl, ?_⟩
    have hu : UpdateReplacementState s r setIndex way cacheHit =
        UpdateDRRIP s r setIndex way cacheHit := by
      unfold UpdateReplacementState
      rw [if_neg (by rw [hpol]; decide), if_neg (by rw [hpol]; decide), if_pos hpol]
    obtain ⟨hn, _, hp, _⟩ := UpdateDRRIP_geometry s r setIndex way cacheHit
    show (UpdateReplacementState s r setIndex way cacheHit).replPolicy = _ ∧
      RRIPstate (UpdateReplacementState s r setIndex way cacheHit) ∧
      (UpdateReplacementState s r setIndex way cacheHit).numsets = _
    rw [hu]
    exact ⟨by rw [hp]; exact hpol, UpdateDRRIP_RRIPstate s r setIndex way cacheHit h, hn⟩

theorem runCalls_contestant_total (fuel : Nat) (hfuel : 4 ≤ fuel) (calls : List Call) :
    ∀ (ways : List Int) (s : CACHE_REPLACEMENT_STATE),
      s.replPolicy = CRC_REPL_CONTESTANT → RRIPstate s →
      (∀ i r, Call.victim i r ∈ calls → i < s.numsets) →
      ∃ x, runCalls fuel ways s calls = .ret x ∧ x.2.replPolicy = CRC_REPL_CONTESTANT ∧
        RRIPstate x.2 ∧ x.2.numsets = s.numsets := by
  induction calls with
  | nil =>
    intro ways s hpol h _
    exact ⟨(ways, s), rfl, hpol, h, rfl⟩
  | cons c rest ih =>
    intro ways s hpol h hc
    obtain ⟨y, hstep, hp1, hs1, hn1⟩ := stepCall_contestant_total fuel ways s c hpol h hfuel
      (fun i r e => hc i r (by rw [e]; exact List.mem_cons_self _ _))
    obtain ⟨x, hrun, hp2, hs2, hn2⟩ := ih y.1 y.2 hp1 hs1
      (fun i r hm => by rw [hn1]; exact hc i r (List.mem_cons_of_mem _ hm))
    refine ⟨x, ?_, hp2, hs2, by rw [hn2, hn1]⟩
    simp only [runCalls, hstep]
    exact hrun

/-! ## Claim C12 -/

/-- C12 (PSEL-bounds invariant).  After the constructor PSEL is 512 and `PS_MAX`
is 1024, whatever the policy.  From a state with `PS_MAX = 1024` and
PSEL ≤ 1024 (PSEL is unsigned, so 0 ≤ PSEL always), `UpdateDRRIP` with any set
index, way, hit flag and value of `rand()` leaves PSEL ≤ 1024 and `PS_MAX` as it
is, and `Get_DRRIP_Victim` leaves PSEL as it is.  Hence after any sequence of
`GetVictimInSet` and `UpdateReplacementState` calls on a constructed cache that
returns, PSEL ≤ 1024; and on a contestant cache with at least one way, victim
calls on sets of the cache and room for 4 scans, every such sequence returns. -/
theorem PSEL_bounds_invariant :
    (∀ (mem : CACHE_REPLACEMENT_STATE) (sets assoc pol : Nat),
      (construct mem sets assoc pol).PS = 512 ∧ (construct mem sets assoc pol).PS_MAX = 1024) ∧
    (∀ (s : CACHE_REPLACEMENT_STATE) (r setIndex way : Nat) (cacheHit : Bool),
      s.PS_MAX = 1024 → s.PS ≤ 1024 →
      0 ≤ (UpdateDRRIP s r setIndex way cacheHit).PS ∧
      (UpdateDRRIP s r setIndex way cacheHit).PS ≤ 1024 ∧
      (UpdateDRRIP s r setIndex way cacheHit).PS_MAX = 1024) ∧
    (∀ (s : CACHE_REPLACEMENT_STATE) (fuel setIndex : Nat) (way : Int)
      (s1 : CACHE_REPLACEMENT_STATE),
      Get_DRRIP_Victim fuel s setIndex = some (way, s1) →
      s1.PS = s.PS ∧ s1.PS_MAX = s.PS_MAX) ∧
    (∀ (mem : CACHE_REPLACEMENT_STATE) (sets assoc pol fuel : Nat) (calls : List Call)
      (ways : List Int) (s1 : CACHE_REPLACEMENT_STATE),
      runCalls fuel [] (construct mem sets assoc pol) calls = .ret (ways, s1) →
      0 ≤ s1.PS ∧ s1.PS ≤ 1024 ∧ s1.PS_MAX = 1024) ∧
    (∀ (mem : CACHE_REPLACEMENT_STATE) (sets assoc fuel : Nat) (calls : List Call),
      1 ≤ assoc → 4 ≤ fuel → (∀ i r, Call.victim i r ∈ calls → i < sets) →
      ∃ (ways : List Int) (s1 : CACHE_REPLACEMENT_STATE),
        runCalls fuel [] (construct mem sets assoc CRC_REPL_CONTESTANT) calls =
          .ret (ways, s1)) := by
  refine ⟨construct_PS, ?_, ?_, ?_, ?_⟩
  · intro s r setIndex way cacheHit hM h
    refine ⟨Nat.zero_le _, UpdateDRRIP_PS_le s r setIndex way cacheHit hM h, ?_⟩
    rw [(UpdateDRRIP_geometry s r setIndex way cacheHit).2.2.2.2.2.2.2]
    exact hM
  · intro s fuel setIndex way s1 hget
    have hf := Get_DRRIP_Victim_fields fuel s setIndex way s1 hget
    rw [hf]
    exact ⟨rfl, rfl⟩
  · intro mem sets assoc pol fuel calls ways s1 hrun
    obtain ⟨h512, hmax⟩ := construct_PS mem sets assoc pol
    have h := runCalls_PS_le fuel calls [] (construct mem sets assoc pol) (ways, s1)
      ⟨hmax, by rw [h512]; decide⟩ hrun
    exact ⟨Nat.zero_le _, h.2, h.1⟩
  · intro mem sets assoc fuel calls hassoc hfuel hc
    obtain ⟨x, hrun, _⟩ := runCalls_contestant_total fuel hfuel calls []
      (construct mem sets assoc CRC_REPL_CONTESTANT) (construct_replPolicy _ _ _ _)
      (construct_RRIPstate mem sets assoc hassoc)
      (fun i r hm => by rw [construct_numsets]; exact hc i r hm)
    exact ⟨x.1, x.2, hrun⟩

/-- Worked example for C12: on the 64-set contestant cache a victim call on
set 0, a miss on the SRRIP leader 0 and a miss on the BRRIP leader 31 return
and leave PSEL within bounds. -/
theorem PSEL_bounds_invariant_witness :
    ∃ (ways : List Int) (s1 : CACHE_REPLACEMENT_STATE),
      runCalls 4 [] (construct zeroObject 64 4 CRC_REPL_CONTESTANT)
        [.victim 0 0, .update 0 0 false 0, .update 31 1 false 7] = .ret (ways, s1) ∧
      0 ≤ s1.PS ∧ s1.PS ≤ 1024 ∧ s1.PS_MAX = 1024 := by
  obtain ⟨ways, s1, hrun⟩ := PSEL_bounds_invariant.2.2.2.2 zeroObject 64 4 4
    [.victim 0 0, .update 0 0 false 0, .update 31 1 false 7] (by decide) (by decide)
    (by
      intro i r hm
      simp only [List.mem_cons, Call.victim.injEq, List.mem_singleton, reduceCtorEq,
        or_false, List.not_mem_nil] at hm
      omega)
  exact ⟨ways, s1, hrun,
    PSEL_bounds_invariant.2.2.2.1 zeroObject 64 4 CRC_REPL_CONTESTANT 4 _ ways s1 hrun⟩

/-! ## Claims C16 to C18 -/

/-- C16 (SRRIP update).  With `v` the RRPV of way `w` before `UpdateSRRIP`: on a
hit the RRPV of `w` becomes 0 when `hitpolicy` is false (zero) and `max(0, v-1)`
when it is true (non-zero); on a miss it becomes `RRIP_MAX - 2`, which is 2 for
`RRIP_MAX = 4`; the stack position of `w`, every other line of the table and
every other member of the object are unchanged. -/
theorem UpdateSRRIP_rule (s : CACHE_REPLACEMENT_STATE) (setIndex w : Nat) (cacheHit : Bool) :
    (cacheHit = true → s.hitpolicy = 0 →
      ((UpdateSRRIP s setIndex w cacheHit).repl setIndex w).RRPV = 0) ∧
    (cacheHit = true → s.hitpolicy ≠ 0 →
      ((UpdateSRRIP s setIndex w cacheHit).repl setIndex w).RRPV =
        (if (s.repl setIndex w).RRPV = 0 then 0 else (s.repl setIndex w).RRPV - 1)) ∧
    (cacheHit = false → s.RRIP_MAX = 4 →
      ((UpdateSRRIP s setIndex w cacheHit).repl setIndex w).RRPV = 2) ∧
    (cacheHit = false →
      ((UpdateSRRIP s setIndex w cacheHit).repl setIndex w).RRPV = UINT32_sub s.RRIP_MAX 2) ∧
    ((UpdateSRRIP s setIndex w cacheHit).repl setIndex w).LRUstackposition =
      (s.repl setIndex w).LRUstackposition ∧
    (∀ i v, ¬ (i = setIndex ∧ v = w) →
      (UpdateSRRIP s setIndex w cacheHit).repl i v = s.repl i v) ∧
    UpdateSRRIP s setIndex w cacheHit =
      { s with repl := (UpdateSRRIP s setIndex w cacheHit).repl } := by
  refine ⟨?_, ?_, ?_, ?_, ?_, ?_, rfl⟩
  · intro hh hp
    rw [UpdateSRRIP_repl, if_pos ⟨rfl, rfl⟩]
    simp [hh, hp]
  · intro hh hp
    rw [UpdateSRRIP_repl, if_pos ⟨rfl, rfl⟩]
    simp only [hh, if_true, hp, ne_eq, not_false_eq_true]
    split <;> omega
  · intro hh hR
    rw [UpdateSRRIP_repl, if_pos ⟨rfl, rfl⟩, hR, UINT32_sub_4_2]
    simp [hh]
  · intro hh
    rw [UpdateSRRIP_repl, if_pos ⟨rfl, rfl⟩]
    simp [hh]
  · rw [UpdateSRRIP_repl, if_pos ⟨rfl, rfl⟩]
  · intro i v hiv
    rw [UpdateSRRIP_repl, if_neg hiv]

/-- Worked example for C16: a miss on way 1 of set 5 of the fresh contestant
cache takes its RRPV from 3 to 2. -/
theorem UpdateSRRIP_rule_witness :
    drripExample.RRIP_MAX = 4 ∧ ((UpdateSRRIP drripExample 5 1 false).repl 5 1).RRPV = 2 :=
  ⟨by decide, (UpdateSRRIP_rule drripExample 5 1 false).2.2.1 rfl (by decide)⟩

/-- C17 (BRRIP insertion).  With `EPSILON = 16` and `RRIP_MAX = 4`, for every
value `r` of `rand()`, `UpdateBRRIP` on a miss sets the RRPV of way `w` to 2 if and
only if `r % 16 = 15`, and to 3 otherwise; the stack position of `w`, every other
line of the table and every other member of the object are unchanged. -/
theorem UpdateBRRIP_insertion (s : CACHE_REPLACEMENT_STATE) (r setIndex w : Nat)
    (hE : s.EPSILON = 16) (hR : s.RRIP_MAX = 4) :
    (((UpdateBRRIP s r setIndex w false).repl setIndex w).RRPV = 2 ↔ r % 16 = 15) ∧
    (r % 16 ≠ 15 → ((UpdateBRRIP s r setIndex w false).repl setIndex w).RRPV = 3) ∧
    ((UpdateBRRIP s r setIndex w false).repl setIndex w).LRUstackposition =
      (s.repl setIndex w).LRUstackposition ∧
    (∀ i v, ¬ (i = setIndex ∧ v = w) →
      (UpdateBRRIP s r setIndex w false).repl i v = s.repl i v) ∧
    UpdateBRRIP s r setIndex w false =
      { s with repl := (UpdateBRRIP s r setIndex w false).repl } := by
  have hv := UpdateBRRIP_miss_RRPV s r setIndex w hE hR
  refine ⟨?_, ?_, ?_, ?_, rfl⟩
  · rw [hv]
    by_cases h15 : r % 16 = 15
    · simp [h15]
    · simp [h15]
  · intro h15
    rw [hv, if_neg h15]
  · rw [UpdateBRRIP_repl, if_pos ⟨rfl, rfl⟩]
  · intro i v hiv
    rw [UpdateBRRIP_repl, if_neg hiv]

/-- Worked example for C17: with `rand()` returning 31 (31 % 16 = 15) the miss
inserts at RRPV 2; with 32 it inserts at 3. -/
theorem UpdateBRRIP_insertion_witness :
    (drripExample.EPSILON = 16 ∧ drripExample.RRIP_MAX = 4) ∧
    ((UpdateBRRIP drripExample 31 5 1 false).repl 5 1).RRPV = 2 ∧
    ((UpdateBRRIP drripExample 32 5 1 false).repl 5 1).RRPV = 3 :=
  ⟨⟨by decide, by decide⟩,
    (UpdateBRRIP_insertion drripExample 31 5 1 (by decide) (by decide)).1.mpr (by decide),
    (UpdateBRRIP_insertion drripExample 32 5 1 (by decide) (by decide)).2.1 (by decide)⟩

/-- C18 (BRRIP hit equals SRRIP hit).  For every state (so every `hitpolicy`),
set, way and value `r` of `rand()`, `UpdateBRRIP` with `cacheHit = true` leaves
exactly the state `UpdateSRRIP` with `cacheHit = true` leaves; in particular the
result does not depend on `r`. -/
theorem UpdateBRRIP_hit_eq_UpdateSRRIP_hit (s : CACHE_REPLACEMENT_STATE)
    (r r2 setIndex way : Nat) :
    UpdateBRRIP s r setIndex way true = UpdateSRRIP s setIndex way true ∧
    UpdateBRRIP s r setIndex way true = UpdateBRRIP s r2 setIndex way true := by
  constructor <;> rfl

/-! ## Leader sets -/

theorem not_both_leaders (setIndex : Nat) :
    ¬ ((setIndex % 33 = 0 ∧ setIndex < (32 * 33) % UINT32_MOD) ∧
      (setIndex % 31 = 0 ∧ setIndex > 0 ∧ setIndex ≤ (31 * 32) % UINT32_MOD)) := by
  obtain ⟨e1, e2⟩ := leader_bounds_32
  rw [e1, e2]
  omega

theorem setRole_srripLeader_iff (L setIndex : Nat) :
    setRole L setIndex = .srripLeader ↔
      (setIndex % 33 = 0 ∧ setIndex < (L * 33) % UINT32_MOD) := by
  unfold setRole
  split
  · simp [*]
  · split <;> simp [*]

theorem setRole_brripLeader_iff (L setIndex : Nat) :
    setRole L setIndex = .brripLeader ↔
      (¬ (setIndex % 33 = 0 ∧ setIndex < (L * 33) % UINT32_MOD) ∧
        (setIndex % 31 = 0 ∧ setIndex > 0 ∧ setIndex ≤ (31 * L) % UINT32_MOD)) := by
  unfold setRole
  split
  · simp [*]
  · split <;> simp [*]

theorem setRole_follower_iff (L setIndex : Nat) :
    setRole L setIndex = .follower ↔
      (¬ (setIndex % 33 = 0 ∧ setIndex < (L * 33) % UINT32_MOD) ∧
        ¬ (setIndex % 31 = 0 ∧ setIndex > 0 ∧ setIndex ≤ (31 * L) % UINT32_MOD)) := by
  unfold setRole
  split
  · simp [*]
  · split <;> simp [*]

theorem setRole_follower_of_ge (setIndex : Nat) (h : 1024 ≤ setIndex) :
    setRole 32 setIndex = .follower := by
  rw [setRole_follower_iff]
  obtain ⟨e1, e2⟩ := leader_bounds_32
  rw [e1, e2]
  omega

theorem setsWithRole_succ (L n : Nat) (role : SetRole) :
    setsWithRole L (n + 1) role =
      setsWithRole L n role ++ (if setRole L n = role then [n] else []) := by
  unfold setsWithRole
  rw [List.range_succ, List.filter_append]
  congr 1
  by_cases h : setRole L n = role <;> simp [List.filter, h]

theorem setsWithRole_leader_stable (n : Nat) (h : 1024 ≤ n) (role : SetRole)
    (hrole : role ≠ .follower) : setsWithRole 32 n role = setsWithRole 32 1024 role := by
  induction n, h using Nat.le_induction with
  | base => rfl
  | succ m hm ih =>
    rw [setsWithRole_succ, ih, setRole_follower_of_ge m hm, if_neg (fun e => hrole e.symm)]
    simp

set_option maxRecDepth 100000 in
theorem setsWithRole_srripLeader_1024 :
    setsWithRole 32 1024 .srripLeader = (List.range 32).map (fun k => 33 * k) := by
  decide

set_option maxRecDepth 100000 in
theorem setsWithRole_brripLeader_1024 :
    setsWithRole 32 1024 .brripLeader = (List.range 32).map (fun k => 31 * (k + 1)) := by
  decide

theorem setsWithRole_length_sum (L n : Nat) :
    (setsWithRole L n .srripLeader).length + (setsWithRole L n .brripLeader).length +
      (setsWithRole L n .follower).length = n := by
  induction n with
  | zero => rfl
  | succ n ih =>
    rw [setsWithRole_succ, setsWithRole_succ, setsWithRole_succ]
    cases hr : setRole L n <;> simp <;> omega

theorem mem_setsWithRole (L n : Nat) (role : SetRole) (i : Nat) :
    i ∈ setsWithRole L n role ↔ i < n ∧ setRole L i = role := by
  unfold setsWithRole
  simp [List.mem_filter]

theorem construct_LeaderSets (mem : CACHE_REPLACEMENT_STATE) (sets assoc pol : Nat) :
    (construct mem sets assoc pol).LeaderSets = 32 := by
  unfold construct InitReplacementState
  rfl

/-! ## Claims C19 and C20 -/

/-- C19 (leader populations are disjoint).  With `LeaderSets = 32` no set index
passes both the SRRIP-leader test and the BRRIP-leader test of `UpdateDRRIP`;
so the order of the two tests decides nothing: `UpdateDRRIP` is the same
function as the one that makes the BRRIP-leader test first. -/
theorem leader_sets_disjoint :
    (∀ setIndex, ¬ (isSRRIPleader 32 setIndex ∧ isBRRIPleader 32 setIndex)) ∧
    (∀ (s : CACHE_REPLACEMENT_STATE) (r setIndex way : Nat) (cacheHit : Bool),
      s.LeaderSets = 32 →
      UpdateDRRIP s r setIndex way cacheHit =
        UpdateDRRIP_BRRIP_first s r setIndex way cacheHit) := by
  constructor
  · intro setIndex h
    exact not_both_leaders setIndex h
  · intro s r setIndex way cacheHit hL
    unfold UpdateDRRIP UpdateDRRIP_BRRIP_first
    by_cases hS : setIndex % 33 = 0 ∧ setIndex < (s.LeaderSets * 33) % UINT32_MOD
    · have hB : ¬ (setIndex % 31 = 0 ∧ setIndex > 0 ∧
          setIndex ≤ (31 * s.LeaderSets) % UINT32_MOD) := by
        intro hB
        rw [hL] at hS hB
        exact not_both_leaders setIndex ⟨hS, hB⟩
      rw [if_pos hS, if_neg hB, if_pos hS]
    · by_cases hB : setIndex % 31 = 0 ∧ setIndex > 0 ∧
          setIndex ≤ (31 * s.LeaderSets) % UINT32_MOD
      · rw [if_neg hS, if_pos hB, if_pos hB]
      · rw [if_neg hS, if_neg hB, if_neg hB, if_neg hS]

/-- Worked example for C19: on the fresh contestant cache a miss on the
BRRIP-leader set 62 is treated alike whichever test comes first. -/
theorem leader_sets_disjoint_witness :
    drripExample.LeaderSets = 32 ∧
    UpdateDRRIP drripExample 4 62 3 false = UpdateDRRIP_BRRIP_first drripExample 4 62 3 false :=
  ⟨by decide, leader_sets_disjoint.2 drripExample 4 62 3 false (by decide)⟩

/-- C20 (leader count).  The constructor sets `LeaderSets = 32`.  For every
`numsets ≥ 1024` the set indices below `numsets` that `UpdateDRRIP` treats as
SRRIP leaders are exactly 0, 33, ..., 1023, 32 of them; those it treats as
BRRIP leaders are exactly 31, 62, ..., 992, 32 of them; the other
`numsets - 64` indices are followers.  On a miss a set treated as SRRIP leader
gets BL++ and the PSEL decrement, one treated as BRRIP leader gets SL++ and
the PSEL increment, and a follower leaves PSEL, BL and SL alone. -/
theorem leader_count (numsets : Nat) (h : 1024 ≤ numsets) :
    (∀ (mem : CACHE_REPLACEMENT_STATE) (sets assoc pol : Nat),
      (construct mem sets assoc pol).LeaderSets = 32) ∧
    setsWithRole 32 numsets .srripLeader = (List.range 32).map (fun k => 33 * k) ∧
    (setsWithRole 32 numsets .srripLeader).length = 32 ∧
    setsWithRole 32 numsets .brripLeader = (List.range 32).map (fun k => 31 * (k + 1)) ∧
    (setsWithRole 32 numsets .brripLeader).length = 32 ∧
    (setsWithRole 32 numsets .srripLeader).length +
      (setsWithRole 32 numsets .brripLeader).length = 64 ∧
    (setsWithRole 32 numsets .follower).length = numsets - 64 ∧
    (∀ i, i < numsets → i ∉ setsWithRole 32 numsets .srripLeader →
      i ∉ setsWithRole 32 numsets .brripLeader → setRole 32 i = .follower) ∧
    (∀ (s : CACHE_REPLACEMENT_STATE) (r i way : Nat), s.LeaderSets = 32 →
      (setRole 32 i = .srripLeader →
        (UpdateDRRIP s r i way false).BL = (s.BL + 1) % 2 ^ 32 ∧
        (UpdateDRRIP s r i way false).SL = s.SL ∧
        (UpdateDRRIP s r i way false).PS = s.PS - 1) ∧
      (setRole 32 i = .brripLeader →
        (UpdateDRRIP s r i way false).SL = (s.SL + 1) % 2 ^ 32 ∧
        (UpdateDRRIP s r i way false).BL = s.BL ∧
        (UpdateDRRIP s r i way false).PS = (if s.PS < s.PS_MAX then s.PS + 1 else s.PS)) ∧
      (setRole 32 i = .follower →
        (UpdateDRRIP s r i way false).BL = s.BL ∧
        (UpdateDRRIP s r i way false).SL = s.SL ∧
        (UpdateDRRIP s r i way false).PS = s.PS)) := by
  have hS := setsWithRole_leader_stable numsets h .srripLeader (by decide)
  have hB := setsWithRole_leader_stable numsets h .brripLeader (by decide)
  rw [setsWithRole_srripLeader_1024] at hS
  rw [setsWithRole_brripLeader_1024] at hB
  have hlenS : (setsWithRole 32 numsets .srripLeader).length = 32 := by rw [hS]; simp
  have hlenB : (setsWithRole 32 numsets .brripLeader).length = 32 := by rw [hB]; simp
  have hsum := setsWithRole_length_sum 32 numsets
  refine ⟨construct_LeaderSets, hS, hlenS, hB, hlenB, by omega, by omega, ?_, ?_⟩
  · intro i hi h1 h2
    rw [mem_setsWithRole] at h1 h2
    cases hr : setRole 32 i
    · exact absurd ⟨hi, hr⟩ h1
    · exact absurd ⟨hi, hr⟩ h2
    · rfl
  · intro s r i way hL
    refine ⟨?_, ?_, ?_⟩
    · intro hr
      rw [setRole_srripLeader_iff, ← hL] at hr
      rw [UpdateDRRIP_SRRIP_leader_branch s r i way false hr]
      exact ⟨rfl, rfl, rfl⟩
    · intro hr
      rw [setRole_brripLeader_iff, ← hL] at hr
      rw [UpdateDRRIP_BRRIP_leader_branch s r i way false hr.1 hr.2]
      exact ⟨rfl, rfl, rfl⟩
    · intro hr
      rw [setRole_follower_iff, ← hL] at hr
      by_cases hp : s.PS ≥ s.PS_MAX / 2
      · rw [UpdateDRRIP_follower_SRRIP_branch s r i way false hr.1 hr.2 hp]
        exact ⟨rfl, rfl, rfl⟩
      · rw [UpdateDRRIP_follower_BRRIP_branch s r i way false hr.1 hr.2 (by omega)]
        exact ⟨rfl, rfl, rfl⟩

/-- Worked example for C20: a cache of 2048 sets has 32 SRRIP leaders, 32 BRRIP
leaders and 1984 followers. -/
theorem leader_count_witness :
    1024 ≤ 2048 ∧
    (setsWithRole 32 2048 .srripLeader).length = 32 ∧
    (setsWithRole 32 2048 .brripLeader).length = 32 ∧
    (setsWithRole 32 2048 .follower).length = 2048 - 64 :=
  have h := leader_count 2048 (by decide)
  ⟨by decide, h.2.2.1, h.2.2.2.2.1, h.2.2.2.2.2.2.1⟩

/-! ## PSEL under runs of leader misses -/

theorem runUpdateDRRIP_cons (s : CACHE_REPLACEMENT_STATE) (c : Access) (rest : List Access) :
    runUpdateDRRIP s (c :: rest) =
      runUpdateDRRIP (UpdateDRRIP s c.r c.setIndex c.way c.cacheHit) rest := rfl

theorem runUpdateDRRIP_SRRIP_leaders_PS (calls : List Access) :
    ∀ (s : CACHE_REPLACEMENT_STATE), s.LeaderSets = 32 →
      (∀ c ∈ calls, c.cacheHit = false ∧ isSRRIPleader 32 c.setIndex) →
      (runUpdateDRRIP s calls).PS = s.PS - calls.length := by
  induction calls with
  | nil => intro s _ _; rfl
  | cons c rest ih =>
    intro s hL hc
    obtain ⟨hmiss, hlead⟩ := hc c (List.mem_cons_self _ _)
    have hS : c.setIndex % 33 = 0 ∧ c.setIndex < (s.LeaderSets * 33) % UINT32_MOD := by
      rw [hL]; exact hlead
    have hstep := UpdateDRRIP_SRRIP_leader_branch s c.r c.setIndex c.way c.cacheHit hS
    rw [hmiss] at hstep
    simp only [Bool.false_eq_true, if_false] at hstep
    have hPS : (UpdateDRRIP s c.r c.setIndex c.way c.cacheHit).PS = s.PS - 1 := by
      rw [hmiss, hstep]
    have hL2 : (UpdateDRRIP s c.r c.setIndex c.way c.cacheHit).LeaderSets = 32 := by
      rw [(UpdateDRRIP_geometry s c.r c.setIndex c.way c.cacheHit).2.2.2.2.2.1]; exact hL
    rw [runUpdateDRRIP_cons, ih _ hL2 (fun d hd => hc d (List.mem_cons_of_mem _ hd)), hPS,
      List.length_cons]
    omega

theorem runUpdateDRRIP_BRRIP_leaders_PS (calls : List Access) :
    ∀ (s : CACHE_REPLACEMENT_STATE), s.LeaderSets = 32 → s.PS_MAX = 1024 → s.PS ≤ 1024 →
      (∀ c ∈ calls, c.cacheHit = false ∧ isBRRIPleader 32 c.setIndex) →
      (runUpdateDRRIP s calls).PS = min 1024 (s.PS + calls.length) := by
  induction calls with
  | nil =>
    intro s _ _ hp _
    show s.PS = min 1024 (s.PS + 0)
    omega
  | cons c rest ih =>
    intro s hL hM hp hc
    obtain ⟨hmiss, hlead⟩ := hc c (List.mem_cons_self _ _)
    have hB : c.setIndex % 31 = 0 ∧ c.setIndex > 0 ∧
        c.setIndex ≤ (31 * s.LeaderSets) % UINT32_MOD := by
      rw [hL]; exact hlead
    have hS : ¬ (c.setIndex % 33 = 0 ∧ c.setIndex < (s.LeaderSets * 33) % UINT32_MOD) := by
      intro hS
      rw [hL] at hS hB
      exact not_both_leaders c.setIndex ⟨hS, hB⟩
    have hstep := UpdateDRRIP_BRRIP_leader_branch s c.r c.setIndex c.way c.cacheHit hS hB
    rw [hmiss] at hstep
    simp only [Bool.false_eq_true, if_false] at hstep
    have hPS : (UpdateDRRIP s c.r c.setIndex c.way c.cacheHit).PS =
        (if s.PS < s.PS_MAX then s.PS + 1 else s.PS) := by
      rw [hmiss, hstep]
    obtain ⟨_, _, _, _, _, hL2, _, hM2⟩ := UpdateDRRIP_geometry s c.r c.setIndex c.way c.cacheHit
    have hPS2 : (UpdateDRRIP s c.r c.setIndex c.way c.cacheHit).PS = min 1024 (s.PS + 1) := by
      rw [hPS, hM]
      split <;> omega
    rw [runUpdateDRRIP_cons, ih _ (by rw [hL2]; exact hL) (by rw [hM2]; exact hM)
      (by rw [hPS2]; omega) (fun d hd => hc d (List.mem_cons_of_mem _ hd)), hPS2,
      List.length_cons]
    omega

/-! ## Claim C21 -/

/-- C21 (PSEL-monotone-by-leader).  With `LeaderSets = 32`, `PS_MAX = 1024` and
PSEL = p ≤ 1024: after a run of `UpdateDRRIP` misses that all fall on
SRRIP-leader sets PSEL is `max(0, p - n)`, `n` being the number of misses, and
no step of the run raises it; after a run of misses that all fall on
BRRIP-leader sets PSEL is `min(1024, p + n)`, and no step of the run lowers
it. -/
theorem PSEL_monotone_by_leader (s : CACHE_REPLACEMENT_STATE) (calls : List Access)
    (hL : s.LeaderSets = 32) (hM : s.PS_MAX = 1024) (hp : s.PS ≤ 1024)
    (hmiss : ∀ c ∈ calls, c.cacheHit = false) :
    ((∀ c ∈ calls, isSRRIPleader 32 c.setIndex) →
      ((runUpdateDRRIP s calls).PS : Int) = max 0 ((s.PS : Int) - (calls.length : Int)) ∧
      ∀ m, (runUpdateDRRIP s (calls.take (m + 1))).PS ≤ (runUpdateDRRIP s (calls.take m)).PS) ∧
    ((∀ c ∈ calls, isBRRIPleader 32 c.setIndex) →
      (runUpdateDRRIP s calls).PS = min 1024 (s.PS + calls.length) ∧
      ∀ m, (runUpdateDRRIP s (calls.take m)).PS ≤ (runUpdateDRRIP s (calls.take (m + 1))).PS) := by
  constructor
  · intro hlead
    have hall : ∀ (l : List Access), (∀ c ∈ l, c ∈ calls) →
        (runUpdateDRRIP s l).PS = s.PS - l.length :=
      fun l hl => runUpdateDRRIP_SRRIP_leaders_PS l s hL
        (fun c hc => ⟨hmiss c (hl c hc), hlead c (hl c hc)⟩)
    constructor
    · rw [hall calls (fun c hc => hc)]
      omega
    · intro m
      rw [hall _ (fun c hc => List.mem_of_mem_take hc),
        hall _ (fun c hc => List.mem_of_mem_take hc), List.length_take, List.length_take]
      omega
  · intro hlead
    have hall : ∀ (l : List Access), (∀ c ∈ l, c ∈ calls) →
        (runUpdateDRRIP s l).PS = min 1024 (s.PS + l.length) :=
      fun l hl => runUpdateDRRIP_BRRIP_leaders_PS l s hL hM hp
        (fun c hc => ⟨hmiss c (hl c hc), hlead c (hl c hc)⟩)
    constructor
    · exact hall calls (fun c hc => hc)
    · intro m
      rw [hall _ (fun c hc => List.mem_of_mem_take hc),
        hall _ (fun c hc => List.mem_of_mem_take hc), List.length_take, List.length_take]
      omega

/-- Worked example for C21: three misses on the SRRIP leaders 0, 33, 0 take
PSEL of the fresh contestant cache from 512 to 509. -/
theorem PSEL_monotone_by_leader_witness :
    (drripExample.LeaderSets = 32 ∧ drripExample.PS_MAX = 1024 ∧ drripExample.PS ≤ 1024 ∧
      (∀ c ∈ [(⟨0, 1, false, 3⟩ : Access), ⟨33, 0, false, 15⟩, ⟨0, 2, false, 9⟩],
        c.cacheHit = false) ∧
      (∀ c ∈ [(⟨0, 1, false, 3⟩ : Access), ⟨33, 0, false, 15⟩, ⟨0, 2, false, 9⟩],
        isSRRIPleader 32 c.setIndex)) ∧
    ((runUpdateDRRIP drripExample
        [⟨0, 1, false, 3⟩, ⟨33, 0, false, 15⟩, ⟨0, 2, false, 9⟩]).PS : Int) =
      max 0 ((drripExample.PS : Int) - (3 : Nat)) :=
  ⟨⟨by decide, by decide, by decide, by decide, by decide⟩,
    ((PSEL_monotone_by_leader drripExample
      [⟨0, 1, false, 3⟩, ⟨33, 0, false, 15⟩, ⟨0, 2, false, 9⟩]
      (by decide) (by decide) (by decide) (by decide)).1 (by decide)).1⟩

/-! ## Claims C22 to C27 -/

theorem construct_counters (mem : CACHE_REPLACEMENT_STATE) (sets assoc pol : Nat) :
    (construct mem sets assoc pol).SL = 0 ∧ (construct mem sets assoc pol).BL = 0 ∧
    (construct mem sets assoc pol).SI = 0 ∧ (construct mem sets assoc pol).BI = 0 := by
  unfold construct InitReplacementState
  exact ⟨rfl, rfl, rfl, rfl⟩

theorem construct_noncontestant (mem : CACHE_REPLACEMENT_STATE) (sets assoc pol : Nat)
    (hpol : pol ≠ CRC_REPL_CONTESTANT) :
    (construct mem sets assoc pol).hitpolicy = mem.hitpolicy ∧
    (construct mem sets assoc pol).RRIP_MAX = mem.RRIP_MAX := by
  unfold construct InitReplacementState
  dsimp only
  rw [if_neg hpol]
  exact ⟨rfl, rfl⟩

theorem construct_contestant_hitpolicy (mem : CACHE_REPLACEMENT_STATE) (sets assoc : Nat) :
    (construct mem sets assoc CRC_REPL_CONTESTANT).hitpolicy = 0 := by
  simp [construct, InitReplacementState]

theorem InitReplacementState_sets_zero_assoc (R : Nat) (repl : Nat → ReplSet) (n : Nat) :
    InitReplacementState_sets 0 R repl n = repl := by
  funext i
  rw [InitReplacementState_sets_apply]
  split <;> rfl

theorem construct_repl_empty (mem : CACHE_REPLACEMENT_STATE) (sets assoc pol : Nat)
    (h : sets = 0 ∨ assoc = 0) : (construct mem sets assoc pol).repl = mem.repl := by
  unfold construct InitReplacementState
  dsimp only
  rcases h with h | h
  · subst h
    split <;> rfl
  · subst h
    split <;> exact InitReplacementState_sets_zero_assoc _ _ _

/-- C22 (initial LRU and global state).  For every number of sets,
associativity and policy id, in the state the constructor builds the stack
position of way `w` of set `i` is `w` for every set and way of the cache, PSEL
is `PS_MAX / 2 = 512`, and SL, BL, SI, BI are 0. -/
theorem construct_initial_state (mem : CACHE_REPLACEMENT_STATE) (sets assoc pol : Nat) :
    (∀ i w, i < sets → w < assoc →
      ((construct mem sets assoc pol).repl i w).LRUstackposition = w) ∧
    (construct mem sets assoc pol).PS = (construct mem sets assoc pol).PS_MAX / 2 ∧
    (construct mem sets assoc pol).PS = 512 ∧
    (construct mem sets assoc pol).SL = 0 ∧ (construct mem sets assoc pol).BL = 0 ∧
    (construct mem sets assoc pol).SI = 0 ∧ (construct mem sets assoc pol).BI = 0 ∧
    (construct mem sets assoc pol).numsets = sets ∧
    (construct mem sets assoc pol).assoc = assoc ∧
    (construct mem sets assoc pol).replPolicy = pol := by
  obtain ⟨hps, hmax⟩ := construct_PS mem sets assoc pol
  obtain ⟨h1, h2, h3, h4⟩ := construct_counters mem sets assoc pol
  refine ⟨?_, by rw [hps, hmax], hps, h1, h2, h3, h4, construct_numsets _ _ _ _,
    construct_assoc _ _ _ _, construct_replPolicy _ _ _ _⟩
  intro i w hi hw
  rw [construct_repl mem sets assoc pol i w hi hw]

/-- Worked example for C22: way 3 of set 1 of the fresh 4-way LRU cache starts
at stack position 3. -/
theorem construct_initial_state_witness :
    1 < 2 ∧ 3 < 4 ∧ ((construct zeroObject 2 4 CRC_REPL_LRU).repl 1 3).LRUstackposition = 3 :=
  ⟨by decide, by decide,
    (construct_initial_state zeroObject 2 4 CRC_REPL_LRU).1 1 3 (by decide) (by decide)⟩

/-- C23, as stated, fails under LRU and under Random.  Built on an object
whose memory holds 1 in `hitpolicy` and 7 in `RRIP_MAX`, the LRU cache and the
Random cache have `hitpolicy = 1` and RRPV 6, not 3, in every line. -/
theorem initial_RRIP_state_counterexample :
    ((construct garbageObject 2 4 CRC_REPL_LRU).hitpolicy = 1 ∧
      ((construct garbageObject 2 4 CRC_REPL_LRU).repl 0 1).RRPV = 6 ∧
      ((construct garbageObject 2 4 CRC_REPL_LRU).repl 0 1).RRPV ≠ 3) ∧
    ((construct garbageObject 2 4 CRC_REPL_RANDOM).hitpolicy = 1 ∧
      ((construct garbageObject 2 4 CRC_REPL_RANDOM).repl 0 1).RRPV = 6 ∧
      ((construct garbageObject 2 4 CRC_REPL_RANDOM).repl 0 1).RRPV ≠ 3) := by
  decide

/-- C23, amended.  Under the contestant policy the state the constructor
builds has `RRIP_MAX = 4`, RRPV `RRIP_MAX - 1 = 3` in every line of the cache and
`hitpolicy` false (zero).  Under any other policy `InitReplacementState` assigns
neither `hitpolicy` nor `RRIP_MAX`: both keep what the object held. -/
theorem initial_RRIP_state (mem : CACHE_REPLACEMENT_STATE) (sets assoc pol : Nat) :
    (pol = CRC_REPL_CONTESTANT →
      (construct mem sets assoc pol).RRIP_MAX = 4 ∧
      (construct mem sets assoc pol).hitpolicy = 0 ∧
      ∀ i w, i < sets → w < assoc → ((construct mem sets assoc pol).repl i w).RRPV = 3) ∧
    (pol ≠ CRC_REPL_CONTESTANT →
      (construct mem sets assoc pol).hitpolicy = mem.hitpolicy ∧
      (construct mem sets assoc pol).RRIP_MAX = mem.RRIP_MAX) := by
  constructor
  · intro hpol
    subst hpol
    refine ⟨construct_contestant_RRIP_MAX mem sets assoc,
      construct_contestant_hitpolicy mem sets assoc, ?_⟩
    intro i w hi hw
    rw [construct_repl mem sets assoc _ i w hi hw, construct_contestant_RRIP_MAX,
      UINT32_sub_4_1]
  · exact construct_noncontestant mem sets assoc pol

/-- Worked example for the amended C23: the contestant cache built on the
same object has `hitpolicy = 0` and RRPV 3. -/
theorem initial_RRIP_state_witness :
    (CRC_REPL_CONTESTANT = CRC_REPL_CONTESTANT ∧ 0 < 2 ∧ 1 < 4) ∧
    (construct garbageObject 2 4 CRC_REPL_CONTESTANT).hitpolicy = 0 ∧
    ((construct garbageObject 2 4 CRC_REPL_CONTESTANT).repl 0 1).RRPV = 3 :=
  have h := (initial_RRIP_state garbageObject 2 4 CRC_REPL_CONTESTANT).1 rfl
  ⟨⟨rfl, by decide, by decide⟩, h.2.1, h.2.2 0 1 (by decide) (by decide)⟩

/-- C24 (Random update is a no-op).  Under the Random policy
`UpdateReplacementState` returns the state it was given, for every set, way,
hit flag and value of `rand()`. -/
theorem UpdateReplacementState_random_noop (s : CACHE_REPLACEMENT_STATE)
    (r setIndex way : Nat) (cacheHit : Bool) (hpol : s.replPolicy = CRC_REPL_RANDOM) :
    UpdateReplacementState s r setIndex way cacheHit = s := by
  unfold UpdateReplacementState
  rw [if_neg (by rw [hpol]; decide), if_pos hpol]

/-- Worked example for C24: a miss on way 3 of set 1 of the Random cache. -/
theorem UpdateReplacementState_random_noop_witness :
    randomExample.replPolicy = CRC_REPL_RANDOM ∧
    UpdateReplacementState randomExample 11 1 3 false = randomExample :=
  ⟨by decide, UpdateReplacementState_random_noop randomExample 11 1 3 false (by decide)⟩

/-- C25 (unrecognised policy at victim selection).  For a policy id other than
0, 1, 2 `GetVictimInSet` fails the assertion: no way and no state come back.
For the ids 0, 1, 2 it does not fail the assertion: under LRU it returns;
under Random it returns when there is a way, and with `assoc = 0` what stops
it is the division `rand() % assoc`, not the assertion. -/
theorem GetVictimInSet_unknown_policy (s : CACHE_REPLACEMENT_STATE) (r setIndex fuel : Nat) :
    ((s.replPolicy ≠ CRC_REPL_LRU ∧ s.replPolicy ≠ CRC_REPL_RANDOM ∧
        s.replPolicy ≠ CRC_REPL_CONTESTANT) →
      GetVictimInSet fuel s r setIndex = .assertFailed) ∧
    ((s.replPolicy = CRC_REPL_LRU ∨ s.replPolicy = CRC_REPL_RANDOM ∨
        s.replPolicy = CRC_REPL_CONTESTANT) →
      GetVictimInSet fuel s r setIndex ≠ .assertFailed) ∧
    (s.replPolicy = CRC_REPL_LRU →
      ∃ way, GetVictimInSet fuel s r setIndex = .ret (way, s)) ∧
    (s.replPolicy = CRC_REPL_RANDOM →
      (1 ≤ s.assoc → ∃ way, GetVictimInSet fuel s r setIndex = .ret (way, s)) ∧
      (s.assoc = 0 → GetVictimInSet fuel s r setIndex = .divideByZero)) ∧
    (CRC_REPL_LRU = 0 ∧ CRC_REPL_RANDOM = 1 ∧ CRC_REPL_CONTESTANT = 2) := by
  refine ⟨?_, ?_, ?_, ?_, ⟨rfl, rfl, rfl⟩⟩
  · rintro ⟨h0, h1, h2⟩
    unfold GetVictimInSet
    rw [if_neg h0, if_neg h1, if_neg h2]
  · intro h
    unfold GetVictimInSet
    rcases h with h | h | h
    · rw [if_pos h]; simp
    · rw [if_neg (by rw [h]; decide), if_pos h]
      cases Get_Random_Victim s r setIndex <;> simp
    · rw [if_neg (by rw [h]; decide), if_neg (by rw [h]; decide), if_pos h]
      cases Get_DRRIP_Victim fuel s setIndex <;> simp
  · intro h
    unfold GetVictimInSet
    rw [if_pos h]
    exact ⟨_, rfl⟩
  · intro h
    rw [GetVictimInSet_random fuel s r setIndex h]
    exact ⟨fun ha => ⟨_, by rw [if_neg (by omega)]⟩, fun ha => by rw [if_pos ha]⟩

/-- Worked example for C25: with policy id 3 victim selection fails the
assertion; on the Random cache without ways it is the division that stops
it, not the assertion. -/
theorem GetVictimInSet_unknown_policy_witness :
    ((unknownPolicyExample.replPolicy ≠ CRC_REPL_LRU ∧
        unknownPolicyExample.replPolicy ≠ CRC_REPL_RANDOM ∧
        unknownPolicyExample.replPolicy ≠ CRC_REPL_CONTESTANT) ∧
      GetVictimInSet 4 unknownPolicyExample 0 0 = .assertFailed) ∧
    ((zeroWayExample.replPolicy = CRC_REPL_RANDOM ∧ zeroWayExample.assoc = 0) ∧
      GetVictimInSet 4 zeroWayExample 0 0 = .divideByZero ∧
      GetVictimInSet 4 zeroWayExample 0 0 ≠ .assertFailed) :=
  ⟨⟨by decide, (GetVictimInSet_unknown_policy unknownPolicyExample 0 0 4).1 (by decide)⟩,
    ⟨by decide, by decide⟩,
    ((GetVictimInSet_unknown_policy zeroWayExample 0 0 4).2.2.2.1 (by decide)).2 (by decide),
    (GetVictimInSet_unknown_policy zeroWayExample 0 0 4).2.1 (Or.inr (Or.inl (by decide)))⟩

/-- C26: the code at the failing input.  With policy id 3
`UpdateReplacementState` returns normally and leaves the state as it was,
while `GetVictimInSet` on the same state fails its assertion. -/
theorem UpdateReplacementState_unknown_policy :
    unknownPolicyExample.replPolicy = 3 ∧
    UpdateReplacementState unknownPolicyExample 0 0 0 true = unknownPolicyExample ∧
    UpdateReplacementState unknownPolicyExample 0 0 0 false = unknownPolicyExample ∧
    GetVictimInSet 4 unknownPolicyExample 0 0 = .assertFailed := by
  refine ⟨by decide, rfl, rfl, ?_⟩
  unfold GetVictimInSet
  rw [if_neg (by decide), if_neg (by decide), if_neg (by decide)]

/-- C27, as stated, fails.  With the table allocated, the constructor returns
a state for 0 sets of 4 ways and for 2 sets of 0 ways alike. -/
theorem construct_zero_geometry_counterexample :
    (constructOutcome true zeroObject 0 4 CRC_REPL_LRU =
        .ret (construct zeroObject 0 4 CRC_REPL_LRU) ∧
      (construct zeroObject 0 4 CRC_REPL_LRU).numsets = 0) ∧
    (constructOutcome true zeroObject 2 0 CRC_REPL_LRU =
        .ret (construct zeroObject 2 0 CRC_REPL_LRU) ∧
      (construct zeroObject 2 0 CRC_REPL_LRU).assoc = 0) := by
  exact ⟨⟨rfl, by decide⟩, ⟨rfl, by decide⟩⟩

/-- C27, amended.  The constructor does not look at the geometry: whenever
the table is allocated it returns a state with the number of sets and ways it
was given, zero included, and with zero sets or zero ways no line of the
table is written; the failed `assert(repl)` is its only failure. -/
theorem construct_zero_geometry (mem : CACHE_REPLACEMENT_STATE) (sets assoc pol : Nat) :
    constructOutcome true mem sets assoc pol = .ret (construct mem sets assoc pol) ∧
    (construct mem sets assoc pol).numsets = sets ∧
    (construct mem sets assoc pol).assoc = assoc ∧
    ((sets = 0 ∨ assoc = 0) → (construct mem sets assoc pol).repl = mem.repl) ∧
    constructOutcome false mem sets assoc pol = .assertFailed := by
  exact ⟨rfl, construct_numsets _ _ _ _, construct_assoc _ _ _ _,
    construct_repl_empty mem sets assoc pol, rfl⟩

/-- Worked example for the amended C27: a cache of 3 sets and 0 ways. -/
theorem construct_zero_geometry_witness :
    (3 = 0 ∨ 0 = 0) ∧ (construct garbageObject 3 0 CRC_REPL_CONTESTANT).repl = garbageObject.repl :=
  ⟨Or.inr rfl, (construct_zero_geometry garbageObject 3 0 CRC_REPL_CONTESTANT).2.2.2.1
    (Or.inr rfl)⟩

/-! ## LRU scenarios -/

theorem runUpdateLRU_row_range_succ (assoc : Nat) (replSet : ReplSet) (k : Nat) :
    runUpdateLRU_row assoc replSet (List.range (k + 1)) =
      UpdateLRU_row assoc (runUpdateLRU_row assoc replSet (List.range k)) k := by
  simp [runUpdateLRU_row, List.range_succ, List.foldl_append]

theorem runUpdateLRU_row_range_pos (assoc : Nat) (replSet : ReplSet)
    (h0 : ∀ w, w < assoc → (replSet w).LRUstackposition = w) (k : Nat) (hk : k ≤ assoc)
    (w : Nat) :
    (runUpdateLRU_row assoc replSet (List.range k) w).LRUstackposition =
      if w < k then k - 1 - w else (replSet w).LRUstackposition := by
  induction k generalizing w with
  | zero => simp [runUpdateLRU_row]
  | succ k ih =>
    have hka : k < assoc := by omega
    have hRk : (runUpdateLRU_row assoc replSet (List.range k) k).LRUstackposition = k := by
      rw [ih (by omega) k, if_neg (Nat.lt_irrefl k), h0 k hka]
    have hRw := ih (by omega) w
    rw [runUpdateLRU_row_range_succ, UpdateLRU_row_pos, hRk, hRw]
    by_cases hwa : w < assoc
    · have hw0 := h0 w hwa
      split_ifs <;> omega
    · split_ifs <;> omega

theorem construct_filled_pos (mem : CACHE_REPLACEMENT_STATE) (sets assoc pol setIndex : Nat)
    (hset : setIndex < sets) (w : Nat) (hw : w < assoc) :
    ((runUpdateLRU (construct mem sets assoc pol) setIndex (List.range assoc)).repl
      setIndex w).LRUstackposition = assoc - 1 - w := by
  rw [runUpdateLRU_repl, construct_assoc,
    runUpdateLRU_row_range_pos assoc _
      (fun v hv => by rw [construct_repl mem sets assoc pol setIndex v hset hv])
      assoc (le_refl _) w, if_pos hw]

/-! ## Claims C28 and C29 -/

/-- C28 (scenario A, LRU round-robin).  For every `assoc ≥ 2`, in a set of a
freshly constructed LRU cache, after `UpdateLRU` on the ways 0, 1, ...,
`assoc-1` in that order `Get_LRU_Victim` returns way 0; after `UpdateLRU` on way 0
then, way 0 is at stack position 0 and every way `w ≥ 1` at `assoc - w`. -/
theorem LRU_round_robin (mem : CACHE_REPLACEMENT_STATE) (sets assoc setIndex : Nat)
    (hassoc : 2 ≤ assoc) (hset : setIndex < sets) :
    Get_LRU_Victim
      (runUpdateLRU (construct mem sets assoc CRC_REPL_LRU) setIndex (List.range assoc))
      setIndex = 0 ∧
    ((UpdateLRU
      (runUpdateLRU (construct mem sets assoc CRC_REPL_LRU) setIndex (List.range assoc))
      setIndex 0).repl setIndex 0).LRUstackposition = 0 ∧
    ∀ w, 1 ≤ w → w < assoc →
      ((UpdateLRU
        (runUpdateLRU (construct mem sets assoc CRC_REPL_LRU) setIndex (List.range assoc))
        setIndex 0).repl setIndex w).LRUstackposition = assoc - w := by
  have hpos := construct_filled_pos mem sets assoc CRC_REPL_LRU setIndex hset
  have hA : (runUpdateLRU (construct mem sets assoc CRC_REPL_LRU) setIndex
      (List.range assoc)).assoc = assoc := by
    rw [runUpdateLRU_assoc, construct_assoc]
  refine ⟨?_, ?_, ?_⟩
  · unfold Get_LRU_Victim
    rw [hA]
    have h := Get_LRU_Victim_scan_first
      ((runUpdateLRU (construct mem sets assoc CRC_REPL_LRU) setIndex
        (List.range assoc)).repl setIndex) assoc assoc 0 0 (le_refl _) (by omega)
      (by rw [hpos 0 (by omega)]; omega) (fun j h1 h2 => by omega)
    rw [h]
    rfl
  · rw [UpdateLRU_repl_same, UpdateLRU_row_pos, if_pos rfl]
  · intro w hw1 hw2
    rw [UpdateLRU_repl_same, UpdateLRU_row_pos, if_neg (by omega), hA, hpos w hw2,
      hpos 0 (by omega), if_pos ⟨hw2, by omega⟩]
    omega

/-- Worked example for C28, `assoc = 4`: the victim is way 0 and the stack
order after its fill is way 0, way 3, way 2, way 1 from newest to oldest. -/
theorem LRU_round_robin_witness :
    (2 ≤ 4 ∧ 0 < 2) ∧
    Get_LRU_Victim (runUpdateLRU (construct zeroObject 2 4 CRC_REPL_LRU) 0 (List.range 4)) 0
      = 0 ∧
    ((UpdateLRU (runUpdateLRU (construct zeroObject 2 4 CRC_REPL_LRU) 0 (List.range 4))
      0 0).repl 0 0).LRUstackposition = 0 ∧
    ((UpdateLRU (runUpdateLRU (construct zeroObject 2 4 CRC_REPL_LRU) 0 (List.range 4))
      0 0).repl 0 3).LRUstackposition = 1 ∧
    ((UpdateLRU (runUpdateLRU (construct zeroObject 2 4 CRC_REPL_LRU) 0 (List.range 4))
      0 0).repl 0 2).LRUstackposition = 2 ∧
    ((UpdateLRU (runUpdateLRU (construct zeroObject 2 4 CRC_REPL_LRU) 0 (List.range 4))
      0 0).repl 0 1).LRUstackposition = 3 :=
  have h := LRU_round_robin zeroObject 2 4 0 (by decide) (by decide)
  ⟨⟨by decide, by decide⟩, h.1, h.2.1, h.2.2 3 (by decide) (by decide),
    h.2.2 2 (by decide) (by decide), h.2.2 1 (by decide) (by decide)⟩

/-- C29, as stated, fails.  In the 4-way LRU cache, after `UpdateLRU` on ways
0, 1, 2, 3 of set 0 the stack positions of ways 0, 1, 2, 3 are 3, 2, 1, 0, and
the hit update on way 1 leaves way 1 at 0, way 3 at 1, way 2 at 2 and way 0 at
3: not way 0 at 1 and way 3 at 3. -/
theorem LRU_hit_promotion_counterexample :
    (List.range 4).map (fun w => (filledExample.repl 0 w).LRUstackposition) = [3, 2, 1, 0] ∧
    (List.range 4).map (fun w =>
      ((UpdateReplacementState filledExample 0 0 1 true).repl 0 w).LRUstackposition) =
        [3, 0, 2, 1] ∧
    ¬ (((UpdateReplacementState filledExample 0 0 1 true).repl 0 1).LRUstackposition = 0 ∧
      ((UpdateReplacementState filledExample 0 0 1 true).repl 0 0).LRUstackposition = 1 ∧
      ((UpdateReplacementState filledExample 0 0 1 true).repl 0 2).LRUstackposition = 2 ∧
      ((UpdateReplacementState filledExample 0 0 1 true).repl 0 3).LRUstackposition = 3) := by
  decide

/-- C29, amended.  With `assoc = 4` under LRU, from the freshly constructed
state and after `UpdateLRU` on ways 0, 1, 2, 3 of set 0, a hit update on way 1
of set 0 leaves the stack positions way 1 = 0, way 3 = 1, way 2 = 2,
way 0 = 3. -/
theorem LRU_hit_promotion (mem : CACHE_REPLACEMENT_STATE) (sets r : Nat) (hsets : 0 < sets) :
    ((UpdateReplacementState
      (runUpdateLRU (construct mem sets 4 CRC_REPL_LRU) 0 [0, 1, 2, 3]) r 0 1 true).repl
        0 1).LRUstackposition = 0 ∧
    ((UpdateReplacementState
      (runUpdateLRU (construct mem sets 4 CRC_REPL_LRU) 0 [0, 1, 2, 3]) r 0 1 true).repl
        0 3).LRUstackposition = 1 ∧
    ((UpdateReplacementState
      (runUpdateLRU (construct mem sets 4 CRC_REPL_LRU) 0 [0, 1, 2, 3]) r 0 1 true).repl
        0 2).LRUstackposition = 2 ∧
    ((UpdateReplacementState
      (runUpdateLRU (construct mem sets 4 CRC_REPL_LRU) 0 [0, 1, 2, 3]) r 0 1 true).repl
        0 0).LRUstackposition = 3 := by
  have hrange : ([0, 1, 2, 3] : List Nat) = List.range 4 := by decide
  rw [hrange]
  have hpos := construct_filled_pos mem sets 4 CRC_REPL_LRU 0 hsets
  have hA : (runUpdateLRU (construct mem sets 4 CRC_REPL_LRU) 0 (List.range 4)).assoc = 4 := by
    rw [runUpdateLRU_assoc, construct_assoc]
  have hP : (runUpdateLRU (construct mem sets 4 CRC_REPL_LRU) 0 (List.range 4)).replPolicy =
      CRC_REPL_LRU := by
    have hgen : ∀ (ways : List Nat) (s : CACHE_REPLACEMENT_STATE),
        (runUpdateLRU s 0 ways).replPolicy = s.replPolicy := by
      intro ways
      induction ways with
      | nil => intro s; rfl
      | cons w rest ih =>
        intro s
        simp only [runUpdateLRU, List.foldl_cons]
        exact ih (UpdateLRU s 0 w)
    rw [hgen, construct_replPolicy]
  have hU : UpdateReplacementState
      (runUpdateLRU (construct mem sets 4 CRC_REPL_LRU) 0 (List.range 4)) r 0 1 true =
      UpdateLRU (runUpdateLRU (construct mem sets 4 CRC_REPL_LRU) 0 (List.range 4)) 0 1 := by
    unfold UpdateReplacementState
    rw [if_pos hP]
  rw [hU, UpdateLRU_repl_same, hA]
  have h0 := hpos 0 (by decide)
  have h1 := hpos 1 (by decide)
  have h2 := hpos 2 (by decide)
  have h3 := hpos 3 (by decide)
  refine ⟨?_, ?_, ?_, ?_⟩
  · rw [UpdateLRU_row_pos, if_pos rfl]
  · rw [UpdateLRU_row_pos, if_neg (by decide), h3, h1, if_pos (by decide)]
  · rw [UpdateLRU_row_pos, if_neg (by decide), h2, h1, if_pos (by decide)]
  · rw [UpdateLRU_row_pos, if_neg (by decide), h0, h1, if_neg (by decide)]

/-- Worked example for the amended C29 on the 2-set cache. -/
theorem LRU_hit_promotion_witness :
    0 < 2 ∧
    ((UpdateReplacementState
      (runUpdateLRU (construct zeroObject 2 4 CRC_REPL_LRU) 0 [0, 1, 2, 3]) 0 0 1 true).repl
        0 3).LRUstackposition = 1 ∧
    ((UpdateReplacementState
      (runUpdateLRU (construct zeroObject 2 4 CRC_REPL_LRU) 0 [0, 1, 2, 3]) 0 0 1 true).repl
        0 0).LRUstackposition = 3 :=
  have h := LRU_hit_promotion zeroObject 2 0 (by decide)
  ⟨by decide, h.2.1, h.2.2.2⟩

/-! ## Miss cycles on set 0 -/

theorem Get_DRRIP_Victim_no_aging (s : CACHE_REPLACEMENT_STATE) (setIndex j fuel : Nat)
    (hR : s.RRIP_MAX = 4) (hfuel : 1 ≤ fuel) (hj : j < s.assoc)
    (hj3 : (s.repl setIndex j).RRPV = 3)
    (hfirst : ∀ w, w < j → (s.repl setIndex w).RRPV ≠ 3) :
    Get_DRRIP_Victim fuel s setIndex = some ((j : Int), s) ∧
    Get_DRRIP_Victim_passes fuel s setIndex = some 0 := by
  obtain ⟨f, rfl⟩ : ∃ f, fuel = f + 1 := ⟨fuel - 1, by omega⟩
  have hscan : Get_DRRIP_Victim_scan (s.repl setIndex) s.RRIP_MAX 0 s.assoc = (j : Int) := by
    rw [hR]
    apply Get_DRRIP_Victim_scan_first _ _ _ _ _ (Nat.zero_le _) (by omega)
    · rw [UINT32_sub_4_1]; exact hj3
    · intro w _ hw
      rw [UINT32_sub_4_1]
      exact hfirst w hw
  unfold Get_DRRIP_Victim Get_DRRIP_Victim_passes
  simp only [Get_DRRIP_Victim_loop, hscan]
  rw [if_pos (Int.natCast_nonneg j)]
  constructor
  · show some ((j : Int), { s with repl := setRow s.repl setIndex (s.repl setIndex) }) = _
    rw [setRow_self]
  · rfl

theorem missCycle_filledUpTo (assoc j fuel r : Nat) (s : CACHE_REPLACEMENT_STATE)
    (h : filledUpTo assoc j s) (hj : j < assoc) (hfuel : 1 ≤ fuel) :
    missCycle fuel s r 0 = some ((j : Int), 0, UpdateDRRIP s r 0 j false) ∧
    filledUpTo assoc (j + 1) (UpdateDRRIP s r 0 j false) := by
  obtain ⟨hR, hL, hA, hrow⟩ := h
  have hvict := Get_DRRIP_Victim_no_aging s 0 j fuel hR hfuel (by rw [hA]; exact hj)
    (by rw [hrow j hj, if_neg (Nat.lt_irrefl j)])
    (fun w hw => by rw [hrow w (by omega), if_pos hw]; decide)
  constructor
  · unfold missCycle
    rw [hvict.1, hvict.2]
    simp
  · obtain ⟨_, ha, _, _, hR2, hL2, _⟩ := UpdateDRRIP_geometry s r 0 j false
    refine ⟨by rw [hR2]; exact hR, by rw [hL2]; exact hL, by rw [ha]; exact hA, ?_⟩
    intro w hw
    have hS : 0 % 33 = 0 ∧ 0 < (s.LeaderSets * 33) % UINT32_MOD := by
      rw [hL]; decide
    have hbranch := UpdateDRRIP_SRRIP_leader_branch s r 0 j false hS
    simp only [Bool.false_eq_true, if_false] at hbranch
    have hrepl : (UpdateDRRIP s r 0 j false).repl = (UpdateSRRIP s 0 j false).repl := by
      rw [hbranch]
    rw [hrepl, UpdateSRRIP_repl]
    simp only [Bool.false_eq_true, if_false]
    by_cases hwj : w = j
    · subst hwj
      simp [hR, UINT32_sub_4_2]
    · rw [if_neg (fun e => hwj e.2), hrow w hw]
      by_cases hlt : w < j
      · rw [if_pos hlt, if_pos (by omega)]
      · rw [if_neg hlt, if_neg (by omega)]

theorem missCycles_filledUpTo (assoc fuel : Nat) (hfuel : 1 ≤ fuel) (draws : List Nat) :
    ∀ (j : Nat) (s : CACHE_REPLACEMENT_STATE), filledUpTo assoc j s →
      j + draws.length ≤ assoc →
      ∃ sk, missCycles fuel 0 draws s =
          some ((List.range draws.length).map (fun i => (((j + i : Nat) : Int), 0)), sk) ∧
        filledUpTo assoc (j + draws.length) sk := by
  induction draws with
  | nil =>
    intro j s h _
    exact ⟨s, rfl, h⟩
  | cons r rest ih =>
    intro j s h hlen
    rw [List.length_cons] at hlen
    obtain ⟨hcyc, hnext⟩ := missCycle_filledUpTo assoc j fuel r s h (by omega) hfuel
    obtain ⟨sk, hrun, hsk⟩ := ih (j + 1) (UpdateDRRIP s r 0 j false) hnext (by omega)
    refine ⟨sk, ?_, ?_⟩
    · simp only [missCycles, hcyc, hrun, List.length_cons]
      rw [List.range_succ_eq_map, List.map_cons, List.map_map]
      simp only [Nat.add_zero, Option.some.injEq, Prod.mk.injEq, List.cons.injEq, true_and,
        and_true]
      apply List.map_congr_left
      intro i _
      simp only [Function.comp, Nat.succ_eq_add_one]
      have : j + 1 + i = j + (i + 1) := by omega
      rw [this]
    · rw [List.length_cons]
      have : j + (rest.length + 1) = j + 1 + rest.length := by omega
      rw [this]
      exact hsk

theorem construct_filledUpTo (mem : CACHE_REPLACEMENT_STATE) (sets assoc : Nat)
    (hsets : 1 ≤ sets) : filledUpTo assoc 0 (construct mem sets assoc CRC_REPL_CONTESTANT) := by
  refine ⟨construct_contestant_RRIP_MAX mem sets assoc, construct_LeaderSets _ _ _ _,
    construct_assoc _ _ _ _, ?_⟩
  intro w hw
  rw [construct_repl mem sets assoc _ 0 w (by omega) hw, construct_contestant_RRIP_MAX,
    UINT32_sub_4_1]
  rfl

/-! ## Claim C30 -/

/-- C30 (scenario C, SRRIP victim and aging).  In a freshly constructed
contestant cache with at least one set and `assoc ≥ 2` (its `hitpolicy` is
false), set 0 is an SRRIP leader, and for every `k ≤ assoc`, `k` consecutive miss
cycles on set 0 (`Get_DRRIP_Victim`, then `UpdateDRRIP` with a miss on the way
returned), whatever `rand()` returns, give the ways 0, 1, ..., `k-1` in order,
each found with no aging pass, and leave the ways below `k` at RRPV 2 and the
other ways at RRPV 3. -/
theorem SRRIP_miss_cycles (mem : CACHE_REPLACEMENT_STATE) (sets assoc fuel : Nat)
    (draws : List Nat) (hsets : 1 ≤ sets) (_hassoc : 2 ≤ assoc)
    (hk : draws.length ≤ assoc) (hfuel : 1 ≤ fuel) :
    (construct mem sets assoc CRC_REPL_CONTESTANT).hitpolicy = 0 ∧
    isSRRIPleader (construct mem sets assoc CRC_REPL_CONTESTANT).LeaderSets 0 ∧
    ∃ sk, missCycles fuel 0 draws (construct mem sets assoc CRC_REPL_CONTESTANT) =
        some ((List.range draws.length).map (fun (i : Nat) => ((i : Int), 0)), sk) ∧
      ∀ w, w < assoc → (sk.repl 0 w).RRPV = if w < draws.length then 2 else 3 := by
  refine ⟨construct_contestant_hitpolicy mem sets assoc, ?_, ?_⟩
  · rw [construct_LeaderSets]
    decide
  · obtain ⟨sk, hrun, hsk⟩ := missCycles_filledUpTo assoc fuel hfuel draws 0
      (construct mem sets assoc CRC_REPL_CONTESTANT) (construct_filledUpTo mem sets assoc hsets)
      (by omega)
    refine ⟨sk, ?_, ?_⟩
    · simp only [Nat.zero_add] at hrun
      exact hrun
    · intro w hw
      have := hsk.2.2.2 w hw
      rw [Nat.zero_add] at this
      exact this

/-- Worked example for C30, `assoc = 4`: the first victim is way 0; after the
miss update way 0 is at RRPV 2 and the others remain at 3; the next victim is
way 1. -/
theorem SRRIP_miss_cycles_witness :
    (1 ≤ 64 ∧ 2 ≤ 4 ∧ [5].length ≤ 4 ∧ [5, 9].length ≤ 4 ∧ 1 ≤ 1) ∧
    (∃ s1, missCycles 1 0 [5] (construct zeroObject 64 4 CRC_REPL_CONTESTANT) =
        some ((List.range [5].length).map (fun (i : Nat) => ((i : Int), 0)), s1) ∧
      ∀ w, w < 4 → (s1.repl 0 w).RRPV = if w < [5].length then 2 else 3) ∧
    (∃ s2, missCycles 1 0 [5, 9] (construct zeroObject 64 4 CRC_REPL_CONTESTANT) =
        some ((List.range [5, 9].length).map (fun (i : Nat) => ((i : Int), 0)), s2) ∧
      ∀ w, w < 4 → (s2.repl 0 w).RRPV = if w < [5, 9].length then 2 else 3) :=
  ⟨⟨by decide, by decide, by decide, by decide, by decide⟩,
    (SRRIP_miss_cycles zeroObject 64 4 1 [5] (by decide) (by decide) (by decide)
      (by decide)).2.2,
    (SRRIP_miss_cycles zeroObject 64 4 1 [5, 9] (by decide) (by decide) (by decide)
      (by decide)).2.2⟩

/-! ## Scenarios D and F -/

theorem construct_EPSILON (mem : CACHE_REPLACEMENT_STATE) (sets assoc pol : Nat) :
    (construct mem sets assoc pol).EPSILON = 16 := by
  unfold construct InitReplacementState
  rfl

theorem runUpdateDRRIP_append (s : CACHE_REPLACEMENT_STATE) (a b : List Access) :
    runUpdateDRRIP s (a ++ b) = runUpdateDRRIP (runUpdateDRRIP s a) b := by
  simp [runUpdateDRRIP, List.foldl_append]

theorem runUpdateDRRIP_geometry (calls : List Access) :
    ∀ (s : CACHE_REPLACEMENT_STATE),
      (runUpdateDRRIP s calls).numsets = s.numsets ∧
      (runUpdateDRRIP s calls).assoc = s.assoc ∧
      (runUpdateDRRIP s calls).replPolicy = s.replPolicy ∧
      (runUpdateDRRIP s calls).hitpolicy = s.hitpolicy ∧
      (runUpdateDRRIP s calls).RRIP_MAX = s.RRIP_MAX ∧
      (runUpdateDRRIP s calls).LeaderSets = s.LeaderSets ∧
      (runUpdateDRRIP s calls).EPSILON = s.EPSILON ∧
      (runUpdateDRRIP s calls).PS_MAX = s.PS_MAX := by
  induction calls with
  | nil => intro s; exact ⟨rfl, rfl, rfl, rfl, rfl, rfl, rfl, rfl⟩
  | cons c rest ih =>
    intro s
    rw [runUpdateDRRIP_cons]
    obtain ⟨h1, h2, h3, h4, h5, h6, h7, h8⟩ := ih (UpdateDRRIP s c.r c.setIndex c.way c.cacheHit)
    obtain ⟨g1, g2, g3, g4, g5, g6, g7, g8⟩ :=
      UpdateDRRIP_geometry s c.r c.setIndex c.way c.cacheHit
    exact ⟨h1.trans g1, h2.trans g2, h3.trans g3, h4.trans g4, h5.trans g5, h6.trans g6,
      h7.trans g7, h8.trans g8⟩

theorem UpdateDRRIP_PS_hit_or_follower (s : CACHE_REPLACEMENT_STATE) (r setIndex way : Nat)
    (cacheHit : Bool) (hL : s.LeaderSets = 32)
    (h : cacheHit = true ∨ (¬ isSRRIPleader 32 setIndex ∧ ¬ isBRRIPleader 32 setIndex)) :
    (UpdateDRRIP s r setIndex way cacheHit).PS = s.PS := by
  by_cases hS : setIndex % 33 = 0 ∧ setIndex < (s.LeaderSets * 33) % UINT32_MOD
  · have hh : cacheHit = true := by
      rcases h with h | h
      · exact h
      · exact absurd (by rw [hL] at hS; exact hS) h.1
    rw [UpdateDRRIP_SRRIP_leader_branch s r setIndex way cacheHit hS, hh]
    rfl
  · by_cases hB : setIndex % 31 = 0 ∧ setIndex > 0 ∧
        setIndex ≤ (31 * s.LeaderSets) % UINT32_MOD
    · have hh : cacheHit = true := by
        rcases h with h | h
        · exact h
        · exact absurd (by rw [hL] at hB; exact hB) h.2
      rw [UpdateDRRIP_BRRIP_leader_branch s r setIndex way cacheHit hS hB, hh]
      rfl
    · by_cases hp : s.PS ≥ s.PS_MAX / 2
      · rw [UpdateDRRIP_follower_SRRIP_branch s r setIndex way cacheHit hS hB hp]
        cases cacheHit <;> rfl
      · rw [UpdateDRRIP_follower_BRRIP_branch s r setIndex way cacheHit hS hB (by omega)]
        cases cacheHit <;> rfl

theorem runUpdateDRRIP_PS_hits_or_followers (calls : List Access) :
    ∀ (s : CACHE_REPLACEMENT_STATE), s.LeaderSets = 32 →
      (∀ c ∈ calls, c.cacheHit = true ∨
        (¬ isSRRIPleader 32 c.setIndex ∧ ¬ isBRRIPleader 32 c.setIndex)) →
      (runUpdateDRRIP s calls).PS = s.PS := by
  induction calls with
  | nil => intro s _ _; rfl
  | cons c rest ih =>
    intro s hL hc
    rw [runUpdateDRRIP_cons, ih _
      (by rw [(UpdateDRRIP_geometry s c.r c.setIndex c.way c.cacheHit).2.2.2.2.2.1]; exact hL)
      (fun d hd => hc d (List.mem_cons_of_mem _ hd))]
    exact UpdateDRRIP_PS_hit_or_follower s c.r c.setIndex c.way c.cacheHit hL
      (hc c (List.mem_cons_self _ _))

theorem UpdateDRRIP_SRRIP_leader_miss_PS (s : CACHE_REPLACEMENT_STATE) (r setIndex way : Nat)
    (hL : s.LeaderSets = 32) (hS : isSRRIPleader 32 setIndex) :
    (UpdateDRRIP s r setIndex way false).PS = s.PS - 1 := by
  have hS2 : setIndex % 33 = 0 ∧ setIndex < (s.LeaderSets * 33) % UINT32_MOD := by
    rw [hL]; exact hS
  rw [UpdateDRRIP_SRRIP_leader_branch s r setIndex way false hS2]
  rfl

theorem UpdateDRRIP_BRRIP_leader_miss_PS (s : CACHE_REPLACEMENT_STATE) (r setIndex way : Nat)
    (hL : s.LeaderSets = 32) (hB : isBRRIPleader 32 setIndex) :
    (UpdateDRRIP s r setIndex way false).PS = (if s.PS < s.PS_MAX then s.PS + 1 else s.PS) := by
  have hB2 : setIndex % 31 = 0 ∧ setIndex > 0 ∧
      setIndex ≤ (31 * s.LeaderSets) % UINT32_MOD := by
    rw [hL]; exact hB
  have hS2 : ¬ (setIndex % 33 = 0 ∧ setIndex < (s.LeaderSets * 33) % UINT32_MOD) := by
    intro hS
    rw [hL] at hS hB2
    exact not_both_leaders setIndex ⟨hS, hB2⟩
  rw [UpdateDRRIP_BRRIP_leader_branch s r setIndex way false hS2 hB2]
  rfl

/-- C31 (scenario D).  In a freshly constructed contestant cache of 2048 sets
and 16 ways PSEL is 512; a miss update on set 0 makes it 511; a following
miss update on set 31 makes it 512; and 1024 further miss updates, all on
SRRIP-leader sets, leave it at 0. -/
theorem leader_misses_move_PSEL (mem : CACHE_REPLACEMENT_STATE) (w0 r0 w1 r1 : Nat)
    (calls : List Access) (hlen : calls.length = 1024)
    (hcalls : ∀ c ∈ calls, c.cacheHit = false ∧ isSRRIPleader 32 c.setIndex) :
    (construct mem 2048 16 CRC_REPL_CONTESTANT).PS = 512 ∧
    (UpdateDRRIP (construct mem 2048 16 CRC_REPL_CONTESTANT) r0 0 w0 false).PS = 511 ∧
    (UpdateDRRIP (UpdateDRRIP (construct mem 2048 16 CRC_REPL_CONTESTANT) r0 0 w0 false)
      r1 31 w1 false).PS = 512 ∧
    (runUpdateDRRIP
      (UpdateDRRIP (UpdateDRRIP (construct mem 2048 16 CRC_REPL_CONTESTANT) r0 0 w0 false)
        r1 31 w1 false) calls).PS = 0 := by
  generalize hs0 : construct mem 2048 16 CRC_REPL_CONTESTANT = s0
  have hps : s0.PS = 512 := by rw [← hs0]; exact (construct_PS _ _ _ _).1
  have hmax : s0.PS_MAX = 1024 := by rw [← hs0]; exact (construct_PS _ _ _ _).2
  have hL : s0.LeaderSets = 32 := by rw [← hs0]; exact construct_LeaderSets _ _ _ _
  have h1 : (UpdateDRRIP s0 r0 0 w0 false).PS = 511 := by
    rw [UpdateDRRIP_SRRIP_leader_miss_PS s0 r0 0 w0 hL (by decide), hps]
  obtain ⟨_, _, _, _, _, hL1, _, hM1⟩ := UpdateDRRIP_geometry s0 r0 0 w0 false
  have hL1' : (UpdateDRRIP s0 r0 0 w0 false).LeaderSets = 32 := by rw [hL1]; exact hL
  have h2 : (UpdateDRRIP (UpdateDRRIP s0 r0 0 w0 false) r1 31 w1 false).PS = 512 := by
    rw [UpdateDRRIP_BRRIP_leader_miss_PS _ r1 31 w1 hL1' (by decide), h1, hM1, hmax]
    rfl
  have hL2 : (UpdateDRRIP (UpdateDRRIP s0 r0 0 w0 false) r1 31 w1 false).LeaderSets = 32 := by
    rw [(UpdateDRRIP_geometry _ r1 31 w1 false).2.2.2.2.2.1]; exact hL1'
  refine ⟨hps, h1, h2, ?_⟩
  rw [runUpdateDRRIP_SRRIP_leaders_PS calls _ hL2 hcalls, h2, hlen]

/-- Worked example for C31: the 1024 further misses all fall on set 33. -/
theorem leader_misses_move_PSEL_witness :
    ((List.replicate 1024 (⟨33, 5, false, 1⟩ : Access)).length = 1024 ∧
      ∀ c ∈ List.replicate 1024 (⟨33, 5, false, 1⟩ : Access),
        c.cacheHit = false ∧ isSRRIPleader 32 c.setIndex) ∧
    (runUpdateDRRIP
      (UpdateDRRIP (UpdateDRRIP (construct zeroObject 2048 16 CRC_REPL_CONTESTANT) 3 0 2 false)
        4 31 7 false) (List.replicate 1024 ⟨33, 5, false, 1⟩)).PS = 0 :=
  have hc : ∀ c ∈ List.replicate 1024 (⟨33, 5, false, 1⟩ : Access),
      c.cacheHit = false ∧ isSRRIPleader 32 c.setIndex := by
    intro c hc
    rw [List.eq_of_mem_replicate hc]
    exact ⟨rfl, by decide⟩
  ⟨⟨List.length_replicate _ _, hc⟩,
    (leader_misses_move_PSEL zeroObject 2 3 7 4 (List.replicate 1024 ⟨33, 5, false, 1⟩)
      (List.length_replicate _ _) hc).2.2.2⟩

/-- C32 (scenario F).  From a freshly constructed contestant cache, after at
least 512 consecutive miss updates on SRRIP-leader sets PSEL is 0.  It is
still 0 after any further updates that are hits or fall on follower sets, and
a miss update on a follower set then is the BRRIP update followed by BI++:
the RRPV of the way becomes 2 if `rand() % 16 = 15` and 3 otherwise, BI is
incremented by one (as the 32-bit counter it is) and PSEL stays 0. -/
theorem follower_after_leader_misses (mem : CACHE_REPLACEMENT_STATE) (sets assoc : Nat)
    (leaders more : List Access) (r setIndex way : Nat)
    (hlen : 512 ≤ leaders.length)
    (hlead : ∀ c ∈ leaders, c.cacheHit = false ∧ isSRRIPleader 32 c.setIndex)
    (hmore : ∀ c ∈ more, c.cacheHit = true ∨
      (¬ isSRRIPleader 32 c.setIndex ∧ ¬ isBRRIPleader 32 c.setIndex))
    (hS : ¬ isSRRIPleader 32 setIndex) (hB : ¬ isBRRIPleader 32 setIndex) :
    (runUpdateDRRIP (construct mem sets assoc CRC_REPL_CONTESTANT) leaders).PS = 0 ∧
    ∀ s2, s2 = runUpdateDRRIP
        (runUpdateDRRIP (construct mem sets assoc CRC_REPL_CONTESTANT) leaders) more →
      s2.PS = 0 ∧
      UpdateDRRIP s2 r setIndex way false =
        { UpdateBRRIP s2 r setIndex way false with BI := (s2.BI + 1) % 2 ^ 32 } ∧
      ((UpdateDRRIP s2 r setIndex way false).repl setIndex way).RRPV =
        (if r % 16 = 15 then 2 else 3) ∧
      (UpdateDRRIP s2 r setIndex way false).BI = (s2.BI + 1) % 2 ^ 32 ∧
      (UpdateDRRIP s2 r setIndex way false).PS = 0 := by
  generalize hs0 : construct mem sets assoc CRC_REPL_CONTESTANT = s0
  have hps : s0.PS = 512 := by rw [← hs0]; exact (construct_PS _ _ _ _).1
  have hmax : s0.PS_MAX = 1024 := by rw [← hs0]; exact (construct_PS _ _ _ _).2
  have hL : s0.LeaderSets = 32 := by rw [← hs0]; exact construct_LeaderSets _ _ _ _
  have hE : s0.EPSILON = 16 := by rw [← hs0]; exact construct_EPSILON _ _ _ _
  have hR : s0.RRIP_MAX = 4 := by rw [← hs0]; exact construct_contestant_RRIP_MAX _ _ _
  have h1 : (runUpdateDRRIP s0 leaders).PS = 0 := by
    rw [runUpdateDRRIP_SRRIP_leaders_PS leaders s0 hL hlead, hps]
    omega
  refine ⟨h1, ?_⟩
  intro s2 hs2
  obtain ⟨_, _, _, _, a5, a6, a7, a8⟩ := runUpdateDRRIP_geometry leaders s0
  obtain ⟨_, _, _, _, b5, b6, b7, b8⟩ := runUpdateDRRIP_geometry more (runUpdateDRRIP s0 leaders)
  have hL2 : s2.LeaderSets = 32 := by rw [hs2, b6, a6]; exact hL
  have hM2 : s2.PS_MAX = 1024 := by rw [hs2, b8, a8]; exact hmax
  have hE2 : s2.EPSILON = 16 := by rw [hs2, b7, a7]; exact hE
  have hR2 : s2.RRIP_MAX = 4 := by rw [hs2, b5, a5]; exact hR
  have hP2 : s2.PS = 0 := by
    rw [hs2, runUpdateDRRIP_PS_hits_or_followers more _ (by rw [a6]; exact hL) hmore]
    exact h1
  have hS2 : ¬ (setIndex % 33 = 0 ∧ setIndex < (s2.LeaderSets * 33) % UINT32_MOD) := by
    rw [hL2]; exact hS
  have hB2 : ¬ (setIndex % 31 = 0 ∧ setIndex > 0 ∧
      setIndex ≤ (31 * s2.LeaderSets) % UINT32_MOD) := by
    rw [hL2]; exact hB
  have hbranch := UpdateDRRIP_follower_BRRIP_branch s2 r setIndex way false hS2 hB2
    (by rw [hP2, hM2]; decide)
  simp only [Bool.false_eq_true, if_false] at hbranch
  refine ⟨hP2, hbranch, ?_, ?_, ?_⟩
  · rw [hbranch]
    exact UpdateBRRIP_miss_RRPV s2 r setIndex way hE2 hR2
  · rw [hbranch]
    rfl
  · rw [hbranch]
    exact hP2

/-- Worked example for C32: 512 misses on set 0, then a follower miss and a
leader hit; the miss on follower set 2 with `rand()` returning 15 inserts at
RRPV 2. -/
theorem follower_after_leader_misses_witness :
    (512 ≤ (List.replicate 512 (⟨0, 1, false, 0⟩ : Access)).length ∧
      (∀ c ∈ List.replicate 512 (⟨0, 1, false, 0⟩ : Access),
        c.cacheHit = false ∧ isSRRIPleader 32 c.setIndex) ∧
      (∀ c ∈ [(⟨1, 0, false, 3⟩ : Access), ⟨31, 0, true, 0⟩], c.cacheHit = true ∨
        (¬ isSRRIPleader 32 c.setIndex ∧ ¬ isBRRIPleader 32 c.setIndex)) ∧
      ¬ isSRRIPleader 32 2 ∧ ¬ isBRRIPleader 32 2) ∧
    ((UpdateDRRIP
      (runUpdateDRRIP
        (runUpdateDRRIP (construct zeroObject 64 4 CRC_REPL_CONTESTANT)
          (List.replicate 512 ⟨0, 1, false, 0⟩))
        [⟨1, 0, false, 3⟩, ⟨31, 0, true, 0⟩]) 15 2 3 false).repl 2 3).RRPV =
      (if 15 % 16 = 15 then 2 else 3) :=
  have hlen : 512 ≤ (List.replicate 512 (⟨0, 1, false, 0⟩ : Access)).length := by
    rw [List.length_replicate]
  have hc : ∀ c ∈ List.replicate 512 (⟨0, 1, false, 0⟩ : Access),
      c.cacheHit = false ∧ isSRRIPleader 32 c.setIndex := by
    intro c hc
    rw [List.eq_of_mem_replicate hc]
    exact ⟨rfl, by decide⟩
  ⟨⟨hlen, hc, by decide, by decide, by decide⟩,
    ((follower_after_leader_misses zeroObject 64 4 (List.replicate 512 ⟨0, 1, false, 0⟩)
      [⟨1, 0, false, 3⟩, ⟨31, 0, true, 0⟩] 15 2 3 hlen hc (by decide) (by decide)
      (by decide)).2 _ rfl).2.2.1⟩

/-! ## Claim C34 -/

theorem le_maxRRPV (replSet : ReplSet) (n w : Nat) (hw : w < n) :
    (replSet w).RRPV ≤ maxRRPV replSet n := by
  induction n with
  | zero => omega
  | succ n ih =>
    simp only [maxRRPV]
    by_cases h : w = n
    · subst h; exact le_max_right _ _
    · exact le_trans (ih (by omega)) (le_max_left _ _)

theorem maxRRPV_eq (replSet : ReplSet) (n M : Nat)
    (hle : ∀ w, w < n → (replSet w).RRPV ≤ M) (hex : ∃ k, k < n ∧ (replSet k).RRPV = M) :
    maxRRPV replSet n = M := by
  apply le_antisymm
  · clear hex
    induction n with
    | zero => simp [maxRRPV]
    | succ n ih =>
      simp only [maxRRPV]
      exact max_le (ih (fun w hw => hle w (by omega))) (hle n (by omega))
  · obtain ⟨k, hk, hkM⟩ := hex
    rw [← hkM]
    exact le_maxRRPV replSet n k hk

/-- C34 (closed form of RRIP victim selection).  With `RRIP_MAX = 4`, at least
one way and all RRPVs of the set in `[0, 3]`, let `m` be the largest RRPV of the
set before the call.  `Get_DRRIP_Victim` makes exactly `3 - m` aging passes,
returns the lowest-indexed way whose RRPV was `m`, and leaves every way of the
set at its previous RRPV plus `3 - m`, so that the difference of the RRPVs of
any two ways is as before. -/
theorem Get_DRRIP_Victim_closed_form (s : CACHE_REPLACEMENT_STATE) (setIndex : Nat)
    (hR : s.RRIP_MAX = 4) (hassoc : 1 ≤ s.assoc)
    (hb : RRPVrow_bounds (s.repl setIndex) s.assoc) (fuel : Nat) (hfuel : 4 ≤ fuel) :
    ∃ (way : Nat) (s1 : CACHE_REPLACEMENT_STATE),
      Get_DRRIP_Victim fuel s setIndex = some ((way : Int), s1) ∧
      Get_DRRIP_Victim_passes fuel s setIndex =
        some (3 - maxRRPV (s.repl setIndex) s.assoc) ∧
      way < s.assoc ∧
      (s.repl setIndex way).RRPV = maxRRPV (s.repl setIndex) s.assoc ∧
      (∀ j, j < way → (s.repl setIndex j).RRPV ≠ maxRRPV (s.repl setIndex) s.assoc) ∧
      (∀ w, w < s.assoc →
        (s1.repl setIndex w).RRPV =
          (s.repl setIndex w).RRPV + (3 - maxRRPV (s.repl setIndex) s.assoc)) ∧
      (∀ w v, w < s.assoc → v < s.assoc →
        ((s1.repl setIndex w).RRPV : Int) - ((s1.repl setIndex v).RRPV : Int) =
          ((s.repl setIndex w).RRPV : Int) - ((s.repl setIndex v).RRPV : Int)) := by
  obtain ⟨d, k, row, hd, hget, hpass, hk, hk3, hfirst, hle, hrow⟩ :=
    Get_DRRIP_Victim_total s setIndex hR hassoc hb fuel hfuel
  have hm : maxRRPV (s.repl setIndex) s.assoc = 3 - d :=
    maxRRPV_eq _ _ _ (fun w hw => by have := hle w hw; omega) ⟨k, hk, by omega⟩
  have hd3 : 3 - maxRRPV (s.repl setIndex) s.assoc = d := by rw [hm]; omega
  have hnew : ∀ w, w < s.assoc →
      (({ s with repl := setRow s.repl setIndex row } : CACHE_REPLACEMENT_STATE).repl
        setIndex w).RRPV = (s.repl setIndex w).RRPV + d := by
    intro w hw
    show (setRow s.repl setIndex row setIndex w).RRPV = _
    rw [setRow_same, hrow w, if_pos hw]
  refine ⟨k, _, hget, by rw [hd3]; exact hpass, hk, by rw [hm]; omega, ?_, ?_, ?_⟩
  · intro j hj
    have := hfirst j hj
    rw [hm]
    omega
  · intro w hw
    rw [hd3]
    exact hnew w hw
  · intro w v hw hv
    rw [hnew w hw, hnew v hv]
    push_cast
    omega

/-- Worked example for C34: the set whose RRPVs are all 0 gets three aging
passes and way 0 is returned. -/
theorem Get_DRRIP_Victim_closed_form_witness :
    (hitExample.RRIP_MAX = 4 ∧ 1 ≤ hitExample.assoc ∧
      RRPVrow_bounds (hitExample.repl 5) hitExample.assoc ∧ 4 ≤ 4) ∧
    ∃ (way : Nat) (s1 : CACHE_REPLACEMENT_STATE),
      Get_DRRIP_Victim 4 hitExample 5 = some ((way : Int), s1) ∧
      Get_DRRIP_Victim_passes 4 hitExample 5 =
        some (3 - maxRRPV (hitExample.repl 5) hitExample.assoc) ∧
      way < hitExample.assoc ∧
      (hitExample.repl 5 way).RRPV = maxRRPV (hitExample.repl 5) hitExample.assoc :=
  have h := Get_DRRIP_Victim_closed_form hitExample 5 (by decide) (by decide) (by decide) 4
    (by decide)
  ⟨⟨by decide, by decide, by decide, by decide⟩,
    h.elim fun way h1 => h1.elim fun s1 h2 => ⟨way, s1, h2.1, h2.2.1, h2.2.2.1, h2.2.2.2.1⟩⟩

/-! ## Claim C35 -/

theorem UpdateDRRIP_hit_counters (s : CACHE_REPLACEMENT_STATE) (r setIndex way : Nat) :
    (UpdateDRRIP s r setIndex way true).SL = s.SL ∧
    (UpdateDRRIP s r setIndex way true).BL = s.BL ∧
    (UpdateDRRIP s r setIndex way true).SI = s.SI ∧
    (UpdateDRRIP s r setIndex way true).BI = s.BI := by
  by_cases hS : setIndex % 33 = 0 ∧ setIndex < (s.LeaderSets * 33) % UINT32_MOD
  · rw [UpdateDRRIP_SRRIP_leader_branch s r setIndex way true hS]
    exact ⟨rfl, rfl, rfl, rfl⟩
  · by_cases hB : setIndex % 31 = 0 ∧ setIndex > 0 ∧
        setIndex ≤ (31 * s.LeaderSets) % UINT32_MOD
    · rw [UpdateDRRIP_BRRIP_leader_branch s r setIndex way true hS hB]
      exact ⟨rfl, rfl, rfl, rfl⟩
    · by_cases hp : s.PS ≥ s.PS_MAX / 2
      · rw [UpdateDRRIP_follower_SRRIP_branch s r setIndex way true hS hB hp]
        exact ⟨rfl, rfl, rfl, rfl⟩
      · rw [UpdateDRRIP_follower_BRRIP_branch s r setIndex way true hS hB (by omega)]
        exact ⟨rfl, rfl, rfl, rfl⟩

theorem UpdateDRRIP_miss_counters (s : CACHE_REPLACEMENT_STATE) (r setIndex way : Nat) :
    ((UpdateDRRIP s r setIndex way false).BL = (s.BL + 1) % 2 ^ 32 ∧
      (UpdateDRRIP s r setIndex way false).SL = s.SL ∧
      (UpdateDRRIP s r setIndex way false).SI = s.SI ∧
      (UpdateDRRIP s r setIndex way false).BI = s.BI) ∨
    ((UpdateDRRIP s r setIndex way false).SL = (s.SL + 1) % 2 ^ 32 ∧
      (UpdateDRRIP s r setIndex way false).BL = s.BL ∧
      (UpdateDRRIP s r setIndex way false).SI = s.SI ∧
      (UpdateDRRIP s r setIndex way false).BI = s.BI) ∨
    ((UpdateDRRIP s r setIndex way false).SI = (s.SI + 1) % 2 ^ 32 ∧
      (UpdateDRRIP s r setIndex way false).SL = s.SL ∧
      (UpdateDRRIP s r setIndex way false).BL = s.BL ∧
      (UpdateDRRIP s r setIndex way false).BI = s.BI) ∨
    ((UpdateDRRIP s r setIndex way false).BI = (s.BI + 1) % 2 ^ 32 ∧
      (UpdateDRRIP s r setIndex way false).SL = s.SL ∧
      (UpdateDRRIP s r setIndex way false).BL = s.BL ∧
      (UpdateDRRIP s r setIndex way false).SI = s.SI) := by
  by_cases hS : setIndex % 33 = 0 ∧ setIndex < (s.LeaderSets * 33) % UINT32_MOD
  · rw [UpdateDRRIP_SRRIP_leader_branch s r setIndex way false hS]
    exact Or.inl ⟨rfl, rfl, rfl, rfl⟩
  · by_cases hB : setIndex % 31 = 0 ∧ setIndex > 0 ∧
        setIndex ≤ (31 * s.LeaderSets) % UINT32_MOD
    · rw [UpdateDRRIP_BRRIP_leader_branch s r setIndex way false hS hB]
      exact Or.inr (Or.inl ⟨rfl, rfl, rfl, rfl⟩)
    · by_cases hp : s.PS ≥ s.PS_MAX / 2
      · rw [UpdateDRRIP_follower_SRRIP_branch s r setIndex way false hS hB hp]
        exact Or.inr (Or.inr (Or.inl ⟨rfl, rfl, rfl, rfl⟩))
      · rw [UpdateDRRIP_follower_BRRIP_branch s r setIndex way false hS hB (by omega)]
        exact Or.inr (Or.inr (Or.inr ⟨rfl, rfl, rfl, rfl⟩))

theorem missCount_cons (c : Access) (rest : List Access) :
    missCount (c :: rest) = (if c.cacheHit then 0 else 1) + missCount rest := by
  unfold missCount
  cases h : c.cacheHit
  · simp [List.filter, h]
    omega
  · simp [List.filter, h]

theorem UpdateDRRIP_counterSum (s : CACHE_REPLACEMENT_STATE) (r setIndex way : Nat)
    (cacheHit : Bool) (h : counterSum s + 1 < 2 ^ 32) :
    counterSum (UpdateDRRIP s r setIndex way cacheHit) =
      counterSum s + (if cacheHit then 0 else 1) := by
  unfold counterSum at h ⊢
  cases cacheHit
  · rcases UpdateDRRIP_miss_counters s r setIndex way with
      ⟨h1, h2, h3, h4⟩ | ⟨h1, h2, h3, h4⟩ | ⟨h1, h2, h3, h4⟩ | ⟨h1, h2, h3, h4⟩ <;>
    · rw [h1, h2, h3, h4, Nat.mod_eq_of_lt (by omega)]
      simp only [Bool.false_eq_true, if_false]
      omega
  · obtain ⟨h1, h2, h3, h4⟩ := UpdateDRRIP_hit_counters s r setIndex way
    rw [h1, h2, h3, h4]
    simp

theorem runUpdateDRRIP_counterSum (calls : List Access) :
    ∀ (s : CACHE_REPLACEMENT_STATE), counterSum s + missCount calls < 2 ^ 32 →
      counterSum (runUpdateDRRIP s calls) = counterSum s + missCount calls := by
  induction calls with
  | nil => intro s _; rfl
  | cons c rest ih =>
    intro s h
    rw [missCount_cons] at h ⊢
    rw [runUpdateDRRIP_cons]
    by_cases hh : c.cacheHit = true
    · have hstep : counterSum (UpdateDRRIP s c.r c.setIndex c.way c.cacheHit) = counterSum s := by
        obtain ⟨h1, h2, h3, h4⟩ := UpdateDRRIP_hit_counters s c.r c.setIndex c.way
        unfold counterSum
        rw [hh, h1, h2, h3, h4]
      rw [hh] at h ⊢
      simp only [if_true, Nat.zero_add] at h ⊢
      rw [← hh, ih _ (by rw [hstep]; exact h), hstep]
    · have hf : c.cacheHit = false := by simpa using hh
      rw [hf] at h ⊢
      simp only [Bool.false_eq_true, if_false] at h ⊢
      have hstep := UpdateDRRIP_counterSum s c.r c.setIndex c.way false (by omega)
      simp only [Bool.false_eq_true, if_false] at hstep
      rw [← hf] at hstep
      rw [← hf, ih _ (by rw [hstep]; omega), hstep]
      omega

/-- C35 (miss accounting).  Every `UpdateDRRIP` call with `cacheHit = false`
increments exactly one of BL, SL, SI, BI by one (as 32-bit counters) and
leaves the other three as they were, whatever the set index and PSEL; every
call with `cacheHit = true` leaves all four as they were.  Hence after any
sequence of `UpdateDRRIP` calls on a freshly constructed cache with fewer than
`2 ^ 32` misses, SL + BL + SI + BI is the number of miss calls. -/
theorem miss_accounting :
    (∀ (s : CACHE_REPLACEMENT_STATE) (r setIndex way : Nat),
      ((UpdateDRRIP s r setIndex way false).BL = (s.BL + 1) % 2 ^ 32 ∧
        (UpdateDRRIP s r setIndex way false).SL = s.SL ∧
        (UpdateDRRIP s r setIndex way false).SI = s.SI ∧
        (UpdateDRRIP s r setIndex way false).BI = s.BI) ∨
      ((UpdateDRRIP s r setIndex way false).SL = (s.SL + 1) % 2 ^ 32 ∧
        (UpdateDRRIP s r setIndex way false).BL = s.BL ∧
        (UpdateDRRIP s r setIndex way false).SI = s.SI ∧
        (UpdateDRRIP s r setIndex way false).BI = s.BI) ∨
      ((UpdateDRRIP s r setIndex way false).SI = (s.SI + 1) % 2 ^ 32 ∧
        (UpdateDRRIP s r setIndex way false).SL = s.SL ∧
        (UpdateDRRIP s r setIndex way false).BL = s.BL ∧
        (UpdateDRRIP s r setIndex way false).BI = s.BI) ∨
      ((UpdateDRRIP s r setIndex way false).BI = (s.BI + 1) % 2 ^ 32 ∧
        (UpdateDRRIP s r setIndex way false).SL = s.SL ∧
        (UpdateDRRIP s r setIndex way false).BL = s.BL ∧
        (UpdateDRRIP s r setIndex way false).SI = s.SI)) ∧
    (∀ (s : CACHE_REPLACEMENT_STATE) (r setIndex way : Nat),
      (UpdateDRRIP s r setIndex way true).SL = s.SL ∧
      (UpdateDRRIP s r setIndex way true).BL = s.BL ∧
      (UpdateDRRIP s r setIndex way true).SI = s.SI ∧
      (UpdateDRRIP s r setIndex way true).BI = s.BI) ∧
    (∀ (mem : CACHE_REPLACEMENT_STATE) (sets assoc pol : Nat) (calls : List Access),
      missCount calls < 2 ^ 32 →
      counterSum (runUpdateDRRIP (construct mem sets assoc pol) calls) = missCount calls) := by
  refine ⟨UpdateDRRIP_miss_counters, UpdateDRRIP_hit_counters, ?_⟩
  intro mem sets assoc pol calls h
  obtain ⟨h1, h2, h3, h4⟩ := construct_counters mem sets assoc pol
  have h0 : counterSum (construct mem sets assoc pol) = 0 := by
    unfold counterSum
    rw [h1, h2, h3, h4]
  rw [runUpdateDRRIP_counterSum calls _ (by rw [h0]; omega), h0, Nat.zero_add]

/-- Worked example for C35: two misses and one hit on the fresh contestant
cache give a counter sum of 2. -/
theorem miss_accounting_witness :
    missCount [(⟨0, 1, false, 3⟩ : Access), ⟨5, 0, true, 0⟩, ⟨31, 2, false, 15⟩] < 2 ^ 32 ∧
    counterSum (runUpdateDRRIP (construct zeroObject 64 4 CRC_REPL_CONTESTANT)
      [⟨0, 1, false, 3⟩, ⟨5, 0, true, 0⟩, ⟨31, 2, false, 15⟩]) =
      missCount [(⟨0, 1, false, 3⟩ : Access), ⟨5, 0, true, 0⟩, ⟨31, 2, false, 15⟩] :=
  ⟨by decide, miss_accounting.2.2 zeroObject 64 4 CRC_REPL_CONTESTANT
    [⟨0, 1, false, 3⟩, ⟨5, 0, true, 0⟩, ⟨31, 2, false, 15⟩] (by decide)⟩

/-! ## Claim C36 -/

theorem UpdateDRRIP_repl_other_set (s : CACHE_REPLACEMENT_STATE) (r setIndex way : Nat)
    (cacheHit : Bool) (i v : Nat) (hi : i ≠ setIndex) :
    (UpdateDRRIP s r setIndex way cacheHit).repl i v = s.repl i v := by
  rcases UpdateDRRIP_repl_cases s r setIndex way cacheHit with h | h
  · rw [h, UpdateSRRIP_repl, if_neg (fun e => hi e.1)]
  · rw [h, UpdateBRRIP_repl, if_neg (fun e => hi e.1)]

theorem Get_DRRIP_Victim_repl_other_set (fuel : Nat) (s : CACHE_REPLACEMENT_STATE)
    (setIndex : Nat) (way : Int) (s1 : CACHE_REPLACEMENT_STATE)
    (h : Get_DRRIP_Victim fuel s setIndex = some (way, s1)) (i : Nat) (hi : i ≠ setIndex) :
    s1.repl i = s.repl i := by
  unfold Get_DRRIP_Victim at h
  cases hloop : Get_DRRIP_Victim_loop s.assoc s.RRIP_MAX fuel (s.repl setIndex) 0 with
  | none => rw [hloop] at h; simp at h
  | some x =>
    obtain ⟨res, row, n⟩ := x
    rw [hloop] at h
    simp only [Option.some.injEq, Prod.mk.injEq] at h
    obtain ⟨_, hs1⟩ := h
    subst hs1
    show setRow s.repl setIndex row i = _
    rw [setRow_other _ _ _ _ hi]

/-- C36 (set isolation).  For every policy id, an in-range set `setIndex` and
way `way`, and every other set `i`: `UpdateReplacementState` on `setIndex` leaves
every line of set `i` (stack position and RRPV) as it was, and so does
`GetVictimInSet` on `setIndex` whenever it returns; it does return under LRU
and Random, and under the contestant policy with `RRIP_MAX = 4`, the RRPVs of
the set in `[0, 3]` and four rounds of fuel. -/
theorem set_isolation (s : CACHE_REPLACEMENT_STATE) (r setIndex way fuel : Nat)
    (cacheHit : Bool) (i : Nat) (_hset : setIndex < s.numsets) (_hway : way < s.assoc)
    (hi : i ≠ setIndex) :
    (∀ v, ((UpdateReplacementState s r setIndex way cacheHit).repl i v).LRUstackposition =
        (s.repl i v).LRUstackposition ∧
      ((UpdateReplacementState s r setIndex way cacheHit).repl i v).RRPV =
        (s.repl i v).RRPV) ∧
    (∀ (victim : Int) (s1 : CACHE_REPLACEMENT_STATE),
      GetVictimInSet fuel s r setIndex = .ret (victim, s1) →
      ∀ v, (s1.repl i v).LRUstackposition = (s.repl i v).LRUstackposition ∧
        (s1.repl i v).RRPV = (s.repl i v).RRPV) ∧
    ((s.replPolicy = CRC_REPL_LRU ∨ s.replPolicy = CRC_REPL_RANDOM ∨
        (s.replPolicy = CRC_REPL_CONTESTANT ∧ s.RRIP_MAX = 4 ∧
          RRPVrow_bounds (s.repl setIndex) s.assoc ∧ 4 ≤ fuel)) →
      ∃ (victim : Int) (s1 : CACHE_REPLACEMENT_STATE),
        GetVictimInSet fuel s r setIndex = .ret (victim, s1)) := by
  refine ⟨?_, ?_, ?_⟩
  · intro v
    have h : (UpdateReplacementState s r setIndex way cacheHit).repl i v = s.repl i v := by
      unfold UpdateReplacementState
      split
      · rw [UpdateLRU_repl_other _ _ _ _ hi]
      · split
        · rfl
        · split
          · exact UpdateDRRIP_repl_other_set s r setIndex way cacheHit i v hi
          · rfl
    rw [h]
    exact ⟨rfl, rfl⟩
  · intro victim s1 hret v
    have h : s1.repl i = s.repl i := by
      by_cases h0 : s.replPolicy = CRC_REPL_LRU
      · unfold GetVictimInSet at hret
        rw [if_pos h0] at hret
        simp only [Outcome.ret.injEq, Prod.mk.injEq] at hret
        rw [← hret.2]
      · by_cases h1 : s.replPolicy = CRC_REPL_RANDOM
        · rw [GetVictimInSet_random fuel s r setIndex h1, if_neg (by omega)] at hret
          simp only [Outcome.ret.injEq, Prod.mk.injEq] at hret
          rw [← hret.2]
        · unfold GetVictimInSet at hret
          rw [if_neg h0, if_neg h1] at hret
          split at hret
          · cases hget : Get_DRRIP_Victim fuel s setIndex with
            | none => rw [hget] at hret; simp at hret
            | some x =>
              rw [hget] at hret
              simp only [Outcome.ret.injEq] at hret
              subst hret
              exact Get_DRRIP_Victim_repl_other_set fuel s setIndex victim s1 hget i hi
          · simp at hret
    rw [h]
    exact ⟨rfl, rfl⟩
  · intro hpol
    rcases hpol with h0 | h1 | ⟨h2, hR, hb, hfuel⟩
    · unfold GetVictimInSet
      rw [if_pos h0]
      exact ⟨_, _, rfl⟩
    · rw [GetVictimInSet_random fuel s r setIndex h1, if_neg (by omega)]
      exact ⟨_, _, rfl⟩
    · unfold GetVictimInSet
      have hn0 : s.replPolicy ≠ CRC_REPL_LRU := by rw [h2]; decide
      have hn1 : s.replPolicy ≠ CRC_REPL_RANDOM := by rw [h2]; decide
      obtain ⟨d, k, row, _, hget, _⟩ :=
        Get_DRRIP_Victim_total s setIndex hR (by omega) hb fuel hfuel
      rw [if_neg hn0, if_neg hn1, if_pos h2, hget]
      exact ⟨_, _, rfl⟩

/-- Worked example for C36: a miss on way 1 of set 3 of the contestant cache
leaves way 1 of set 5 as it was. -/
theorem set_isolation_witness :
    (3 < hitExample.numsets ∧ 1 < hitExample.assoc ∧ 5 ≠ 3) ∧
    ((UpdateReplacementState hitExample 15 3 1 false).repl 5 1).RRPV =
      (hitExample.repl 5 1).RRPV ∧
    ∃ (victim : Int) (s1 : CACHE_REPLACEMENT_STATE),
      GetVictimInSet 4 hitExample 15 3 = .ret (victim, s1) :=
  ⟨⟨by decide, by decide, by decide⟩,
    ((set_isolation hitExample 15 3 1 4 false 5 (by decide) (by decide) (by decide)).1 1).2,
    (set_isolation hitExample 15 3 1 4 false 5 (by decide) (by decide) (by decide)).2.2
      (Or.inr (Or.inr ⟨by decide, by decide, by decide, by decide⟩))⟩

/-! ## Claim C38 -/

theorem UpdateDRRIP_hit_repl (s : CACHE_REPLACEMENT_STATE) (r setIndex way : Nat) (i v : Nat) :
    (UpdateDRRIP s r setIndex way true).repl i v =
      if i = setIndex ∧ v = way then
        { s.repl setIndex way with
          RRPV := if s.hitpolicy ≠ 0 then (s.repl setIndex way).RRPV - 1 else 0 }
      else s.repl i v := by
  rcases UpdateDRRIP_repl_cases s r setIndex way true with h | h
  · rw [h, UpdateSRRIP_repl]
    simp only [if_true]
  · rw [h, UpdateBRRIP_repl]
    simp only [if_true]

/-- C38 (a just-hit line is protected).  In a contestant cache with
`RRIP_MAX = 4` and `hitpolicy` false, for a set with all RRPVs in `[0, 3]` and a
way `w` of it: `Get_DRRIP_Victim`, called right after `UpdateDRRIP` with a hit on
`w`, returns `w` if and only if `w = 0` and every other way of the set has RRPV 0;
in particular, if some other way has an RRPV above 0 it returns another
way. -/
theorem just_hit_protected (s : CACHE_REPLACEMENT_STATE) (r setIndex w fuel : Nat)
    (hR : s.RRIP_MAX = 4) (hH : s.hitpolicy = 0) (hw : w < s.assoc)
    (hb : RRPVrow_bounds (s.repl setIndex) s.assoc) (hfuel : 4 ≤ fuel) :
    ∃ (way : Nat) (s1 : CACHE_REPLACEMENT_STATE),
      Get_DRRIP_Victim fuel (UpdateDRRIP s r setIndex w true) setIndex =
        some ((way : Int), s1) ∧
      way < s.assoc ∧
      (way = w ↔ (w = 0 ∧ ∀ v, v < s.assoc → v ≠ w → (s.repl setIndex v).RRPV = 0)) ∧
      ((∃ v, v < s.assoc ∧ v ≠ w ∧ (s.repl setIndex v).RRPV > 0) → way ≠ w) := by
  obtain ⟨_, ha, _, _, hR2, _⟩ := UpdateDRRIP_geometry s r setIndex w true
  have hrow : ∀ v, ((UpdateDRRIP s r setIndex w true).repl setIndex v).RRPV =
      if v = w then 0 else (s.repl setIndex v).RRPV := by
    intro v
    rw [UpdateDRRIP_hit_repl]
    by_cases hv : v = w
    · subst hv
      rw [if_pos ⟨rfl, rfl⟩, if_pos rfl]
      simp [hH]
    · rw [if_neg (fun e => hv e.2), if_neg hv]
  have hb2 : RRPVrow_bounds ((UpdateDRRIP s r setIndex w true).repl setIndex)
      (UpdateDRRIP s r setIndex w true).assoc := by
    intro v hv
    rw [ha] at hv
    rw [hrow v]
    split
    · omega
    · exact hb v hv
  obtain ⟨d, k, row, hd, hget, _, hk, hk3, hfirst, hle, _⟩ :=
    Get_DRRIP_Victim_total (UpdateDRRIP s r setIndex w true) setIndex (by rw [hR2]; exact hR)
      (by rw [ha]; omega) hb2 fuel hfuel
  rw [ha] at hk hle
  have hiff : k = w ↔ (w = 0 ∧ ∀ v, v < s.assoc → v ≠ w → (s.repl setIndex v).RRPV = 0) := by
    constructor
    · intro hkw
      subst hkw
      rw [hrow k, if_pos rfl] at hk3
      have hd3 : d = 3 := by omega
      subst hd3
      refine ⟨?_, ?_⟩
      · by_contra hne
        have h0 := hfirst 0 (by omega)
        have hl0 := hle 0 (by omega)
        rw [hrow 0, if_neg (fun e => hne e.symm)] at h0 hl0
        omega
      · intro v hv hvk
        have hlv := hle v hv
        rw [hrow v, if_neg hvk] at hlv
        omega
    · rintro ⟨hw0, hall⟩
      subst hw0
      have hzero : ∀ v, v < s.assoc →
          ((UpdateDRRIP s r setIndex 0 true).repl setIndex v).RRPV = 0 := by
        intro v hv
        rw [hrow v]
        split
        · rfl
        · rename_i hne
          exact hall v hv hne
      by_contra hne
      have h0 := hfirst 0 (by omega)
      rw [hzero 0 hw] at h0
      rw [hzero k hk] at hk3
      omega
  refine ⟨k, _, hget, hk, hiff, ?_⟩
  rintro ⟨v, hv, hvw, hpos⟩ hkw
  have := (hiff.mp hkw).2 v hv hvw
  omega

/-- Worked example for C38: after a hit on way 2 of a fresh set (the other
ways at RRPV 3) the victim is not way 2. -/
theorem just_hit_protected_witness :
    (drripExample.RRIP_MAX = 4 ∧ drripExample.hitpolicy = 0 ∧ 2 < drripExample.assoc ∧
      RRPVrow_bounds (drripExample.repl 5) drripExample.assoc ∧ 4 ≤ 4 ∧
      ∃ v, v < drripExample.assoc ∧ v ≠ 2 ∧ (drripExample.repl 5 v).RRPV > 0) ∧
    ∃ (way : Nat) (s1 : CACHE_REPLACEMENT_STATE),
      Get_DRRIP_Victim 4 (UpdateDRRIP drripExample 0 5 2 true) 5 = some ((way : Int), s1) ∧
      way ≠ 2 :=
  have hex : ∃ v, v < drripExample.assoc ∧ v ≠ 2 ∧ (drripExample.repl 5 v).RRPV > 0 :=
    ⟨0, by decide, by decide, by decide⟩
  have h := just_hit_protected drripExample 0 5 2 4 (by decide) (by decide) (by decide)
    (by decide) (by decide)
  ⟨⟨by decide, by decide, by decide, by decide, by decide, hex⟩,
    h.elim fun way h1 => h1.elim fun s1 h2 => ⟨way, s1, h2.1, h2.2.2.2 hex⟩⟩

/-! ## Claim C37 -/

theorem add_mod_eq_pred_iff (a p t : Nat) (hp : p < a) (ht : t < a) :
    (p + t) % a = a - 1 ↔ p + t = a - 1 := by
  by_cases h : p + t < a
  · rw [Nat.mod_eq_of_lt h]
  · have h2 : (p + t) % a = p + t - a := by
      rw [Nat.mod_eq_sub_mod (by omega), Nat.mod_eq_of_lt (by omega)]
    rw [h2]
    omega

theorem UpdateLRU_row_victim_rotate (assoc : Nat) (replSet : ReplSet) (v : Nat)
    (hperm : LRUperm replSet assoc) (hv : v < assoc)
    (hvpos : (replSet v).LRUstackposition = assoc - 1) (w : Nat) (hw : w < assoc) :
    (UpdateLRU_row assoc replSet v w).LRUstackposition =
      ((replSet w).LRUstackposition + 1) % assoc := by
  obtain ⟨hbound, hinj⟩ := (LRUperm_iff _ _).mp hperm
  rw [UpdateLRU_row_pos]
  by_cases hwv : w = v
  · subst hwv
    rw [if_pos rfl, hvpos]
    have : assoc - 1 + 1 = assoc := by omega
    rw [this, Nat.mod_self]
  · have h1 := hbound w hw
    have h2 : (replSet w).LRUstackposition ≠ (replSet v).LRUstackposition :=
      fun e => hwv (hinj w v hw hv e)
    rw [if_neg hwv, if_pos ⟨hw, by omega⟩, Nat.mod_eq_of_lt (by omega)]

theorem lruMissCycle_spec (s : CACHE_REPLACEMENT_STATE) (setIndex : Nat) (hassoc : 1 ≤ s.assoc)
    (hperm : LRUperm (s.repl setIndex) s.assoc) :
    ∃ v, v < s.assoc ∧ (lruMissCycle s setIndex).1 = (v : Int) ∧
      (s.repl setIndex v).LRUstackposition = s.assoc - 1 ∧
      (∀ w, w < s.assoc →
        ((lruMissCycle s setIndex).2.repl setIndex w).LRUstackposition =
          ((s.repl setIndex w).LRUstackposition + 1) % s.assoc) ∧
      LRUperm ((lruMissCycle s setIndex).2.repl setIndex) s.assoc ∧
      (lruMissCycle s setIndex).2.assoc = s.assoc := by
  obtain ⟨v, hv, hvict, hvpos, _⟩ := Get_LRU_Victim_is_bottom_aux s setIndex hassoc hperm
  have hcyc : lruMissCycle s setIndex = ((v : Int), UpdateLRU s setIndex v) := by
    unfold lruMissCycle
    rw [hvict]
    simp
  refine ⟨v, hv, by rw [hcyc], hvpos, ?_, ?_, by rw [hcyc]; rfl⟩
  · intro w hw
    rw [hcyc]
    show ((UpdateLRU s setIndex v).repl setIndex w).LRUstackposition = _
    rw [UpdateLRU_repl_same]
    exact UpdateLRU_row_victim_rotate _ _ v hperm hv hvpos w hw
  · rw [hcyc]
    exact UpdateLRU_perm_all s setIndex v setIndex hv hperm

theorem lruMissCycles_spec (setIndex n : Nat) :
    ∀ (s : CACHE_REPLACEMENT_STATE), 1 ≤ s.assoc → LRUperm (s.repl setIndex) s.assoc →
      (lruMissCycles setIndex n s).2.assoc = s.assoc ∧
      (∀ w, w < s.assoc →
        ((lruMissCycles setIndex n s).2.repl setIndex w).LRUstackposition =
          ((s.repl setIndex w).LRUstackposition + n) % s.assoc) ∧
      (lruMissCycles setIndex n s).1.length = n ∧
      (∀ t, t < n → ∃ v, v < s.assoc ∧
        (lruMissCycles setIndex n s).1[t]? = some (v : Int) ∧
        ((s.repl setIndex v).LRUstackposition + t) % s.assoc = s.assoc - 1) := by
  induction n with
  | zero =>
    intro s hassoc hperm
    obtain ⟨hbound, _⟩ := (LRUperm_iff _ _).mp hperm
    refine ⟨rfl, ?_, rfl, ?_⟩
    · intro w hw
      show (s.repl setIndex w).LRUstackposition = _
      rw [Nat.add_zero, Nat.mod_eq_of_lt (hbound w hw)]
    · intro t ht
      omega
  | succ n ih =>
    intro s hassoc hperm
    obtain ⟨v, hv, hvict, hvpos, hrot, hperm1, hassoc1⟩ :=
      lruMissCycle_spec s setIndex hassoc hperm
    obtain ⟨ha, hposn, hlen, hvs⟩ := ih (lruMissCycle s setIndex).2
      (by rw [hassoc1]; exact hassoc) (by rw [hassoc1]; exact hperm1)
    rw [hassoc1] at ha hposn hvs
    have hunf : lruMissCycles setIndex (n + 1) s =
        ((lruMissCycle s setIndex).1 :: (lruMissCycles setIndex n (lruMissCycle s setIndex).2).1,
          (lruMissCycles setIndex n (lruMissCycle s setIndex).2).2) := rfl
    rw [hunf]
    refine ⟨ha, ?_, by simp [hlen], ?_⟩
    · intro w hw
      show ((lruMissCycles setIndex n (lruMissCycle s setIndex).2).2.repl setIndex
        w).LRUstackposition = _
      rw [hposn w hw, hrot w hw, Nat.mod_add_mod]
      have : (s.repl setIndex w).LRUstackposition + 1 + n =
          (s.repl setIndex w).LRUstackposition + (n + 1) := by omega
      rw [this]
    · intro t ht
      cases t with
      | zero =>
        refine ⟨v, hv, ?_, ?_⟩
        · simp [hvict]
        · rw [Nat.add_zero, hvpos, Nat.mod_eq_of_lt (by omega)]
      | succ t =>
        obtain ⟨u, hu, hget, hmod⟩ := hvs t (by omega)
        refine ⟨u, hu, ?_, ?_⟩
        · simp only [List.getElem?_cons_succ]
          exact hget
        · rw [hrot u hu, Nat.mod_add_mod] at hmod
          have : (s.repl setIndex u).LRUstackposition + (t + 1) =
              (s.repl setIndex u).LRUstackposition + 1 + t := by omega
          rw [this]
          exact hmod

/-- C37 (LRU miss cycles rotate the stack).  For `assoc ≥ 1` and a set whose
stack positions are a permutation: one miss cycle (`Get_LRU_Victim`, then
`UpdateLRU` on the way returned) takes the position `p` of every way to
`(p + 1) mod assoc`, and `n` cycles take it to `(p + n) mod assoc`.  So `assoc`
consecutive miss cycles restore the original positions; the cycle number `t`
(from 0) evicts the way whose initial position was `assoc - 1 - t`; and every
way is evicted in exactly one of them. -/
theorem LRU_miss_cycles_rotate (s : CACHE_REPLACEMENT_STATE) (setIndex : Nat)
    (hassoc : 1 ≤ s.assoc) (hperm : LRUperm (s.repl setIndex) s.assoc) :
    (∀ w, w < s.assoc →
      ((lruMissCycle s setIndex).2.repl setIndex w).LRUstackposition =
        ((s.repl setIndex w).LRUstackposition + 1) % s.assoc) ∧
    (∀ n w, w < s.assoc →
      ((lruMissCycles setIndex n s).2.repl setIndex w).LRUstackposition =
        ((s.repl setIndex w).LRUstackposition + n) % s.assoc) ∧
    (∀ w, w < s.assoc →
      ((lruMissCycles setIndex s.assoc s).2.repl setIndex w).LRUstackposition =
        (s.repl setIndex w).LRUstackposition) ∧
    (lruMissCycles setIndex s.assoc s).1.length = s.assoc ∧
    (∀ t, t < s.assoc → ∃ v, v < s.assoc ∧
      (lruMissCycles setIndex s.assoc s).1[t]? = some (v : Int) ∧
      (s.repl setIndex v).LRUstackposition = s.assoc - 1 - t) ∧
    (∀ v, v < s.assoc → ∃ t, t < s.assoc ∧
      (lruMissCycles setIndex s.assoc s).1[t]? = some (v : Int) ∧
      ∀ u, u < s.assoc → (lruMissCycles setIndex s.assoc s).1[u]? = some (v : Int) → u = t) := by
  obtain ⟨hbound, hinj⟩ := (LRUperm_iff _ _).mp hperm
  obtain ⟨_, _, _, _, hrot, _, _⟩ := lruMissCycle_spec s setIndex hassoc hperm
  obtain ⟨_, hpos, hlen, hvs⟩ := lruMissCycles_spec setIndex s.assoc s hassoc hperm
  have hvict : ∀ t, t < s.assoc → ∃ v, v < s.assoc ∧
      (lruMissCycles setIndex s.assoc s).1[t]? = some (v : Int) ∧
      (s.repl setIndex v).LRUstackposition = s.assoc - 1 - t := by
    intro t ht
    obtain ⟨v, hv, hget, hmod⟩ := hvs t ht
    refine ⟨v, hv, hget, ?_⟩
    have := (add_mod_eq_pred_iff s.assoc _ t (hbound v hv) ht).mp hmod
    omega
  refine ⟨hrot, fun n w hw => (lruMissCycles_spec setIndex n s hassoc hperm).2.1 w hw,
    ?_, hlen, hvict, ?_⟩
  · intro w hw
    rw [hpos w hw, Nat.add_mod_right, Nat.mod_eq_of_lt (hbound w hw)]
  · intro v hv
    have hb := hbound v hv
    obtain ⟨v1, hv1, hget1, hpos1⟩ :=
      hvict (s.assoc - 1 - (s.repl setIndex v).LRUstackposition) (by omega)
    have he : v1 = v := hinj v1 v hv1 hv (by omega)
    subst he
    refine ⟨_, by omega, hget1, ?_⟩
    intro u hu hgetu
    obtain ⟨v2, hv2, hget2, hpos2⟩ := hvict u hu
    rw [hgetu] at hget2
    have he2 : v2 = v1 := by
      simp only [Option.some.injEq, Nat.cast_inj] at hget2
      exact hget2.symm
    subst he2
    omega

/-- Worked example for C37: a 4-way set with ways 0, 1, 2, 3 at positions
3, 0, 2, 1; four miss cycles evict ways 0, 2, 3, 1 and restore the
positions. -/
theorem LRU_miss_cycles_rotate_witness :
    (1 ≤ shuffledExample.assoc ∧ LRUperm (shuffledExample.repl 0) shuffledExample.assoc) ∧
    (lruMissCycles 0 4 shuffledExample).1 = [0, 2, 3, 1] ∧
    (∀ w, w < shuffledExample.assoc →
      ((lruMissCycles 0 shuffledExample.assoc shuffledExample).2.repl 0 w).LRUstackposition =
        (shuffledExample.repl 0 w).LRUstackposition) :=
  ⟨⟨by decide, by decide⟩, by decide,
    (LRU_miss_cycles_rotate shuffledExample 0 (by decide) (by decide)).2.2.1⟩

/-! ## Claim C33 -/

theorem foreignCalls_eq (g : RandState) (n : Nat) :
    foreignCalls g n = { g with pos := g.pos + n } := by
  induction n with
  | zero => rfl
  | succ n ih =>
    simp only [foreignCalls, rand, ih]
    rfl

theorem UpdateBRRIP_rand_eq (s : CACHE_REPLACEMENT_STATE) (g : RandState)
    (setIndex way : Nat) (cacheHit : Bool) :
    UpdateBRRIP_rand s g setIndex way cacheHit =
      (UpdateBRRIP s (g.draws g.pos) setIndex way cacheHit,
        if cacheHit then g else (rand g).2) := by
  cases cacheHit
  · simp only [UpdateBRRIP_rand, UpdateBRRIP, rand, Bool.false_eq_true, if_false]
  · simp only [UpdateBRRIP_rand, UpdateBRRIP, if_true]

theorem UpdateBRRIP_hit_indep (s : CACHE_REPLACEMENT_STATE) (r r2 setIndex way : Nat) :
    UpdateBRRIP s r setIndex way true = UpdateBRRIP s r2 setIndex way true := by
  simp only [UpdateBRRIP, if_true]

theorem UpdateDRRIP_rand_eq (s : CACHE_REPLACEMENT_STATE) (g : RandState)
    (setIndex way : Nat) (cacheHit : Bool) :
    UpdateDRRIP_rand s g setIndex way cacheHit =
      (UpdateDRRIP s (g.draws g.pos) setIndex way cacheHit,
        if cacheHit = false ∧ ¬ isSRRIPleader s.LeaderSets setIndex ∧
            (isBRRIPleader s.LeaderSets setIndex ∨ s.PS < s.PS_MAX / 2) then (rand g).2
        else g) := by
  unfold UpdateDRRIP_rand UpdateDRRIP isSRRIPleader isBRRIPleader
  by_cases hS : setIndex % 33 = 0 ∧ setIndex < (s.LeaderSets * 33) % UINT32_MOD
  · rw [if_pos hS, if_pos hS]
    cases cacheHit
    · simp only [Bool.not_false, if_true, true_and, not_true_eq_false, hS, false_and, if_false]
    · simp only [Bool.not_true, Bool.false_eq_true, Bool.true_eq_false, if_false, false_and]
  · rw [if_neg hS, if_neg hS]
    by_cases hB : setIndex % 31 = 0 ∧ setIndex > 0 ∧
        setIndex ≤ (31 * s.LeaderSets) % UINT32_MOD
    · rw [if_pos hB, if_pos hB, UpdateBRRIP_rand_eq]
      cases cacheHit
      · simp only [Bool.not_false, if_true, true_and, hS, hB, not_false_eq_true, true_or,
          Bool.false_eq_true, if_false]
      · simp only [Bool.not_true, Bool.false_eq_true, Bool.true_eq_false, if_false, false_and,
          if_true]
    · rw [if_neg hB, if_neg hB]
      by_cases hp : s.PS ≥ s.PS_MAX / 2
      · have hp2 : ¬ s.PS < s.PS_MAX / 2 := by omega
        rw [if_pos hp, if_pos hp]
        cases cacheHit
        · simp only [Bool.not_false, if_true, true_and, hS, hB, hp2, not_false_eq_true,
            or_self, and_false, if_false]
        · simp only [Bool.not_true, Bool.false_eq_true, Bool.true_eq_false, if_false, false_and]
      · have hp2 : s.PS < s.PS_MAX / 2 := by omega
        rw [if_neg hp, if_neg hp, if_pos hp2, if_pos hp2, UpdateBRRIP_rand_eq]
        cases cacheHit
        · simp only [Bool.not_false, if_true, true_and, hS, hB, hp2, not_false_eq_true,
            or_true, Bool.false_eq_true, if_false]
        · simp only [Bool.not_true, Bool.false_eq_true, Bool.true_eq_false, if_false, false_and,
          if_true]

theorem UpdateReplacementState_rand_eq (s : CACHE_REPLACEMENT_STATE) (g : RandState)
    (setIndex way : Nat) (cacheHit : Bool) :
    UpdateReplacementState_rand s g setIndex way cacheHit =
      (UpdateReplacementState s (g.draws g.pos) setIndex way cacheHit,
        if insertsByBRRIP s setIndex cacheHit then (rand g).2 else g) := by
  unfold UpdateReplacementState_rand UpdateReplacementState insertsByBRRIP
  by_cases h0 : s.replPolicy = CRC_REPL_LRU
  · rw [if_pos h0, if_pos h0, if_neg (fun h => absurd (h0.symm.trans h.1) (by decide))]
  · rw [if_neg h0, if_neg h0]
    by_cases h1 : s.replPolicy = CRC_REPL_RANDOM
    · rw [if_pos h1, if_pos h1, if_neg (fun h => absurd (h1.symm.trans h.1) (by decide))]
    · rw [if_neg h1, if_neg h1]
      by_cases h2 : s.replPolicy = CRC_REPL_CONTESTANT
      · rw [if_pos h2, if_pos h2, UpdateDRRIP_rand_eq]
        simp only [h2, true_and]
      · rw [if_neg h2, if_neg h2, if_neg (fun h => h2 h.1)]

theorem GetVictimInSet_rand_eq (fuel : Nat) (s : CACHE_REPLACEMENT_STATE) (g : RandState)
    (setIndex : Nat) :
    GetVictimInSet_rand fuel s g setIndex =
      match GetVictimInSet fuel s (g.draws g.pos) setIndex with
      | .ret y => .ret (y.1, y.2, if s.replPolicy = CRC_REPL_RANDOM then (rand g).2 else g)
      | .assertFailed => .assertFailed
      | .outOfFuel => .outOfFuel
      | .divideByZero => .divideByZero := by
  unfold GetVictimInSet_rand GetVictimInSet Get_Random_Victim_rand
  by_cases h0 : s.replPolicy = CRC_REPL_LRU
  · rw [if_pos h0, if_pos h0, if_neg (fun h => absurd (h0.symm.trans h) (by decide))]
  · rw [if_neg h0, if_neg h0]
    by_cases h1 : s.replPolicy = CRC_REPL_RANDOM
    · rw [if_pos h1, if_pos h1, if_pos h1]
      simp only [rand]
      cases Get_Random_Victim s (g.draws g.pos) setIndex <;> rfl
    · rw [if_neg h1, if_neg h1, if_neg h1]
      by_cases h2 : s.replPolicy = CRC_REPL_CONTESTANT
      · rw [if_pos h2, if_pos h2]
        cases Get_DRRIP_Victim fuel s setIndex <;> rfl
      · rw [if_neg h2, if_neg h2]

theorem UpdateDRRIP_indep (s : CACHE_REPLACEMENT_STATE) (r r2 setIndex way : Nat)
    (cacheHit : Bool)
    (h : ¬ (cacheHit = false ∧ ¬ isSRRIPleader s.LeaderSets setIndex ∧
      (isBRRIPleader s.LeaderSets setIndex ∨ s.PS < s.PS_MAX / 2))) :
    UpdateDRRIP s r setIndex way cacheHit = UpdateDRRIP s r2 setIndex way cacheHit := by
  unfold isSRRIPleader isBRRIPleader at h
  unfold UpdateDRRIP
  by_cases hS : setIndex % 33 = 0 ∧ setIndex < (s.LeaderSets * 33) % UINT32_MOD
  · rw [if_pos hS, if_pos hS]
  · rw [if_neg hS, if_neg hS]
    by_cases hB : setIndex % 31 = 0 ∧ setIndex > 0 ∧
        setIndex ≤ (31 * s.LeaderSets) % UINT32_MOD
    · rw [if_pos hB, if_pos hB]
      cases cacheHit
      · exact absurd ⟨rfl, hS, Or.inl hB⟩ h
      · simp only [Bool.not_true, Bool.false_eq_true, if_false]
        exact UpdateBRRIP_hit_indep s r r2 setIndex way
    · rw [if_neg hB, if_neg hB]
      by_cases hp : s.PS ≥ s.PS_MAX / 2
      · rw [if_pos hp, if_pos hp]
      · have hp2 : s.PS < s.PS_MAX / 2 := by omega
        rw [if_neg hp, if_neg hp, if_pos hp2, if_pos hp2]
        cases cacheHit
        · exact absurd ⟨rfl, hS, Or.inr hp2⟩ h
        · simp only [Bool.not_true, Bool.false_eq_true, if_false]
          exact UpdateBRRIP_hit_indep s r r2 setIndex way

theorem UpdateReplacementState_indep (s : CACHE_REPLACEMENT_STATE) (r r2 setIndex way : Nat)
    (cacheHit : Bool) (h : ¬ insertsByBRRIP s setIndex cacheHit) :
    UpdateReplacementState s r setIndex way cacheHit =
      UpdateReplacementState s r2 setIndex way cacheHit := by
  unfold insertsByBRRIP at h
  unfold UpdateReplacementState
  by_cases h0 : s.replPolicy = CRC_REPL_LRU
  · rw [if_pos h0, if_pos h0]
  · rw [if_neg h0, if_neg h0]
    by_cases h1 : s.replPolicy = CRC_REPL_RANDOM
    · rw [if_pos h1, if_pos h1]
    · rw [if_neg h1, if_neg h1]
      by_cases h2 : s.replPolicy = CRC_REPL_CONTESTANT
      · rw [if_pos h2, if_pos h2]
        exact UpdateDRRIP_indep s r r2 setIndex way cacheHit (fun hh => h ⟨h2, hh⟩)
      · rw [if_neg h2, if_neg h2]

theorem GetVictimInSet_indep (fuel : Nat) (s : CACHE_REPLACEMENT_STATE) (r r2 setIndex : Nat)
    (h : s.replPolicy ≠ CRC_REPL_RANDOM) :
    GetVictimInSet fuel s r setIndex = GetVictimInSet fuel s r2 setIndex := by
  unfold GetVictimInSet
  rw [if_neg h, if_neg h]

theorem serve_indep (fuel : Nat) (ways : List Int) (inserted : List Nat)
    (s : CACHE_REPLACEMENT_STATE) (r r2 : Nat) (q : Request) (h : ¬ callsRand s q) :
    serve fuel ways inserted s r q = serve fuel ways inserted s r2 q := by
  cases q with
  | victim setIndex =>
    simp only [serve]
    rw [GetVictimInSet_indep fuel s r r2 setIndex h]
  | update setIndex way cacheHit =>
    simp only [serve]
    rw [UpdateReplacementState_indep s r r2 setIndex way cacheHit h]

theorem drawsBetween_self (g : RandState) : drawsBetween g g = [] := by
  simp [drawsBetween]

theorem drawsBetween_rand (g : RandState) : drawsBetween g (rand g).2 = [g.draws g.pos] := by
  simp [drawsBetween, rand, List.range_succ]

theorem stepProcess_eq (fuel : Nat) (x : RunState) (e : Event) :
    stepProcess fuel x e =
      match serve fuel x.ways x.inserted x.state (x.gen.draws (x.gen.pos + e.foreign))
          e.request with
      | .ret y => .ret ⟨y.1, y.2.1,
          x.received ++
            (if callsRand x.state e.request then [x.gen.draws (x.gen.pos + e.foreign)] else []),
          y.2.2,
          ⟨x.gen.draws,
            x.gen.pos + e.foreign + (if callsRand x.state e.request then 1 else 0)⟩⟩
      | .assertFailed => .assertFailed
      | .outOfFuel => .outOfFuel
      | .divideByZero => .divideByZero := by
  obtain ⟨foreign, request⟩ := e
  unfold stepProcess
  rw [foreignCalls_eq]
  cases request with
  | victim setIndex =>
    simp only [serve, callsRand, GetVictimInSet_rand_eq]
    cases GetVictimInSet fuel x.state (x.gen.draws (x.gen.pos + foreign)) setIndex with
    | ret y =>
      simp only
      by_cases h : x.state.replPolicy = CRC_REPL_RANDOM
      · simp only [if_pos h, drawsBetween_rand]
        rfl
      · simp only [if_neg h, drawsBetween_self]
        rfl
    | assertFailed => rfl
    | outOfFuel => rfl
    | divideByZero => rfl
  | update setIndex way cacheHit =>
    simp only [serve, callsRand, UpdateReplacementState_rand_eq]
    by_cases h : insertsByBRRIP x.state setIndex cacheHit
    · simp only [if_pos h, drawsBetween_rand]
      rfl
    · simp only [if_neg h, drawsBetween_self]
      rfl

theorem stepProcess_ret (fuel : Nat) (x y : RunState) (e : Event)
    (h : stepProcess fuel x e = .ret y) :
    ∃ w ins st,
      serve fuel x.ways x.inserted x.state (x.gen.draws (x.gen.pos + e.foreign)) e.request =
        .ret (w, ins, st) ∧
      y = ⟨w, ins,
        x.received ++
          (if callsRand x.state e.request then [x.gen.draws (x.gen.pos + e.foreign)] else []),
        st,
        ⟨x.gen.draws, x.gen.pos + e.foreign + (if callsRand x.state e.request then 1 else 0)⟩⟩ := by
  rw [stepProcess_eq] at h
  cases hs : serve fuel x.ways x.inserted x.state (x.gen.draws (x.gen.pos + e.foreign))
      e.request with
  | ret v =>
    rw [hs] at h
    simp only [Outcome.ret.injEq] at h
    exact ⟨v.1, v.2.1, v.2.2, rfl, h.symm⟩
  | assertFailed => rw [hs] at h; simp at h
  | outOfFuel => rw [hs] at h; simp at h
  | divideByZero => rw [hs] at h; simp at h

theorem stepProcess_of_serve (fuel : Nat) (x : RunState) (e : Event) (w : List Int)
    (ins : List Nat) (st : CACHE_REPLACEMENT_STATE)
    (h : serve fuel x.ways x.inserted x.state (x.gen.draws (x.gen.pos + e.foreign)) e.request =
      .ret (w, ins, st)) :
    stepProcess fuel x e = .ret ⟨w, ins,
      x.received ++
        (if callsRand x.state e.request then [x.gen.draws (x.gen.pos + e.foreign)] else []),
      st,
      ⟨x.gen.draws, x.gen.pos + e.foreign + (if callsRand x.state e.request then 1 else 0)⟩⟩ := by
  rw [stepProcess_eq, h]

theorem stepProcess_gen (fuel : Nat) (x y : RunState) (e : Event)
    (h : stepProcess fuel x e = .ret y) :
    y.gen.draws = x.gen.draws ∧
    ∃ t, y.received = x.received ++ t ∧ y.gen.pos = x.gen.pos + e.foreign + t.length ∧
      t = (if callsRand x.state e.request then [x.gen.draws (x.gen.pos + e.foreign)] else []) := by
  obtain ⟨w, ins, st, _, hy⟩ := stepProcess_ret fuel x y e h
  subst hy
  refine ⟨rfl, _, rfl, ?_, rfl⟩
  by_cases hc : callsRand x.state e.request
  · simp only [if_pos hc, List.length_singleton]
  · simp only [if_neg hc, List.length_nil]

theorem runProcess_gen (fuel : Nat) (ev : List Event) :
    ∀ (x z : RunState), runProcess fuel x ev = .ret z →
      z.gen.draws = x.gen.draws ∧
      ∃ t, z.received = x.received ++ t ∧
        z.gen.pos = x.gen.pos + (ev.map Event.foreign).sum + t.length := by
  induction ev with
  | nil =>
    intro x z h
    simp only [runProcess, Outcome.ret.injEq] at h
    subst h
    exact ⟨rfl, [], by simp, by simp⟩
  | cons e rest ih =>
    intro x z h
    simp only [runProcess] at h
    cases hstep : stepProcess fuel x e with
    | ret y =>
      rw [hstep] at h
      obtain ⟨hd, t, ht, hp, _⟩ := stepProcess_gen fuel x y e hstep
      obtain ⟨hd2, t2, ht2, hp2⟩ := ih y z h
      refine ⟨by rw [hd2, hd], t ++ t2, by rw [ht2, ht, List.append_assoc], ?_⟩
      rw [hp2, hp, List.map_cons, List.sum_cons, List.length_append]
      omega
    | assertFailed => rw [hstep] at h; simp at h
    | outOfFuel => rw [hstep] at h; simp at h
    | divideByZero => rw [hstep] at h; simp at h

theorem stepProcess_sameEngine (fuel : Nat) (x1 x2 y1 y2 : RunState) (e1 e2 : Event)
    (hx : sameEngine x1 x2) (he : e1.request = e2.request)
    (h1 : stepProcess fuel x1 e1 = .ret y1) (h2 : stepProcess fuel x2 e2 = .ret y2) :
    ∃ a1 a2, y1.received = x1.received ++ a1 ∧ y2.received = x2.received ++ a2 ∧
      a1.length = a2.length ∧ (a1 = a2 → sameEngine y1 y2) := by
  obtain ⟨hw, hi, hr, hs⟩ := hx
  obtain ⟨w1, ins1, st1, hs1, hy1⟩ := stepProcess_ret fuel x1 y1 e1 h1
  obtain ⟨w2, ins2, st2, hs2, hy2⟩ := stepProcess_ret fuel x2 y2 e2 h2
  rw [← hw, ← hi, ← hs, ← he] at hs2
  rw [← hs, ← he] at hy2
  subst hy1 hy2
  by_cases hc : callsRand x1.state e1.request
  · refine ⟨[x1.gen.draws (x1.gen.pos + e1.foreign)], [x2.gen.draws (x2.gen.pos + e2.foreign)],
      by simp only [if_pos hc], by simp only [if_pos hc], rfl, ?_⟩
    intro ha
    simp only [List.cons.injEq, and_true] at ha
    rw [← ha, hs1] at hs2
    simp only [Outcome.ret.injEq, Prod.mk.injEq] at hs2
    obtain ⟨e1w, e1i, e1s⟩ := hs2
    refine ⟨e1w, e1i, ?_, e1s⟩
    simp only [if_pos hc, ha, hr]
  · refine ⟨[], [], by simp only [if_neg hc], by simp only [if_neg hc], rfl, ?_⟩
    intro _
    rw [serve_indep fuel x1.ways x1.inserted x1.state _
      (x1.gen.draws (x1.gen.pos + e1.foreign)) e1.request hc, hs1] at hs2
    simp only [Outcome.ret.injEq, Prod.mk.injEq] at hs2
    obtain ⟨e1w, e1i, e1s⟩ := hs2
    refine ⟨e1w, e1i, ?_, e1s⟩
    simp only [if_neg hc, hr]

theorem runProcess_sameEngine (fuel : Nat) (ev1 : List Event) :
    ∀ (ev2 : List Event) (x1 x2 z1 z2 : RunState), sameEngine x1 x2 →
      ev1.map Event.request = ev2.map Event.request →
      runProcess fuel x1 ev1 = .ret z1 → runProcess fuel x2 ev2 = .ret z2 →
      z1.received = z2.received → sameEngine z1 z2 := by
  induction ev1 with
  | nil =>
    intro ev2 x1 x2 z1 z2 hx hev h1 h2 _
    cases ev2 with
    | nil =>
      simp only [runProcess, Outcome.ret.injEq] at h1 h2
      subst h1 h2
      exact hx
    | cons e2 rest2 => simp at hev
  | cons e1 rest1 ih =>
    intro ev2 x1 x2 z1 z2 hx hev h1 h2 hz
    cases ev2 with
    | nil => simp at hev
    | cons e2 rest2 =>
      simp only [List.map_cons, List.cons.injEq] at hev
      simp only [runProcess] at h1 h2
      cases hs1 : stepProcess fuel x1 e1 with
      | ret y1 =>
        cases hs2 : stepProcess fuel x2 e2 with
        | ret y2 =>
          rw [hs1] at h1
          rw [hs2] at h2
          obtain ⟨a1, a2, hr1, hr2, hlen, hsame⟩ :=
            stepProcess_sameEngine fuel x1 x2 y1 y2 e1 e2 hx hev.1 hs1 hs2
          obtain ⟨_, t1, ht1, _⟩ := runProcess_gen fuel rest1 y1 z1 h1
          obtain ⟨_, t2, ht2, _⟩ := runProcess_gen fuel rest2 y2 z2 h2
          have happ : a1 ++ t1 = a2 ++ t2 := by
            have h := hz
            rw [ht1, ht2, hr1, hr2, hx.2.2.1, List.append_assoc, List.append_assoc] at h
            exact List.append_cancel_left h
          have ha : a1 = a2 := List.append_inj_left happ hlen
          exact ih rest2 y1 y2 z1 z2 (hsame ha) hev.2 h1 h2 hz
        | assertFailed => rw [hs2] at h2; simp at h2
        | outOfFuel => rw [hs2] at h2; simp at h2
        | divideByZero => rw [hs2] at h2; simp at h2
      | assertFailed => rw [hs1] at h1; simp at h1
      | outOfFuel => rw [hs1] at h1; simp at h1
      | divideByZero => rw [hs1] at h1; simp at h1

theorem stepProcess_window (fuel : Nat) (x1 x2 y1 : RunState) (e : Event)
    (hx : sameEngine x1 x2) (h1 : stepProcess fuel x1 e = .ret y1)
    (hwin : ∀ k, k < y1.gen.pos - x1.gen.pos →
      x2.gen.draws (x2.gen.pos + k) = x1.gen.draws (x1.gen.pos + k)) :
    ∃ y2, stepProcess fuel x2 e = .ret y2 ∧ sameEngine y1 y2 ∧
      y2.gen.pos = x2.gen.pos + (y1.gen.pos - x1.gen.pos) := by
  obtain ⟨hw, hi, hr, hs⟩ := hx
  obtain ⟨w1, ins1, st1, hs1, hy1⟩ := stepProcess_ret fuel x1 y1 e h1
  subst hy1
  have hserve : serve fuel x2.ways x2.inserted x2.state (x2.gen.draws (x2.gen.pos + e.foreign))
      e.request = .ret (w1, ins1, st1) := by
    rw [← hw, ← hi, ← hs, ← hs1]
    by_cases hc : callsRand x1.state e.request
    · rw [hwin e.foreign (by simp only [if_pos hc]; omega)]
    · exact serve_indep fuel x1.ways x1.inserted x1.state _ _ e.request hc
  refine ⟨_, stepProcess_of_serve fuel x2 e w1 ins1 st1 hserve, ⟨rfl, rfl, ?_, rfl⟩, ?_⟩
  · show x1.received ++ _ = x2.received ++ _
    rw [← hs, ← hr]
    by_cases hc : callsRand x1.state e.request
    · simp only [if_pos hc]
      rw [hwin e.foreign (by simp only [if_pos hc]; omega)]
    · simp only [if_neg hc]
  · show x2.gen.pos + e.foreign + _ = x2.gen.pos + (x1.gen.pos + e.foreign + _ - x1.gen.pos)
    rw [← hs]
    omega

theorem runProcess_window (fuel : Nat) (ev : List Event) :
    ∀ (x1 x2 z1 : RunState), sameEngine x1 x2 → runProcess fuel x1 ev = .ret z1 →
      (∀ k, k < z1.gen.pos - x1.gen.pos →
        x2.gen.draws (x2.gen.pos + k) = x1.gen.draws (x1.gen.pos + k)) →
      ∃ z2, runProcess fuel x2 ev = .ret z2 ∧ sameEngine z1 z2 ∧
        z2.gen.pos = x2.gen.pos + (z1.gen.pos - x1.gen.pos) := by
  induction ev with
  | nil =>
    intro x1 x2 z1 hx h1 _
    simp only [runProcess, Outcome.ret.injEq] at h1
    subst h1
    exact ⟨x2, rfl, hx, by omega⟩
  | cons e rest ih =>
    intro x1 x2 z1 hx h1 hwin
    simp only [runProcess] at h1 ⊢
    cases hs1 : stepProcess fuel x1 e with
    | ret y1 =>
      rw [hs1] at h1
      obtain ⟨hd1, t1, _, hp1, _⟩ := stepProcess_gen fuel x1 y1 e hs1
      obtain ⟨_, t, _, hp⟩ := runProcess_gen fuel rest y1 z1 h1
      obtain ⟨y2, hs2, hy, hpos2⟩ := stepProcess_window fuel x1 x2 y1 e hx hs1
        (fun k hk => hwin k (by omega))
      obtain ⟨hd2, _⟩ := stepProcess_gen fuel x2 y2 e hs2
      obtain ⟨z2, hr2, hz, hzpos⟩ := ih y1 y2 z1 hy h1 (by
        intro k hk
        rw [hd1, hd2, hpos2, hp1]
        have := hwin (e.foreign + t1.length + k) (by omega)
        rw [show x2.gen.pos + (x1.gen.pos + e.foreign + t1.length - x1.gen.pos) + k =
          x2.gen.pos + (e.foreign + t1.length + k) by omega,
          show x1.gen.pos + e.foreign + t1.length + k =
            x1.gen.pos + (e.foreign + t1.length + k) by omega]
        exact this)
      rw [hs2]
      exact ⟨z2, hr2, hz, by omega⟩
    | assertFailed => rw [hs1] at h1; simp at h1
    | outOfFuel => rw [hs1] at h1; simp at h1
    | divideByZero => rw [hs1] at h1; simp at h1

theorem serve_total (fuel : Nat) (hfuel : 4 ≤ fuel) (ways : List Int) (inserted : List Nat)
    (s : CACHE_REPLACEMENT_STATE) (r : Nat) (q : Request) (h : servable s)
    (hq : ∀ i, q = .victim i → i < s.numsets) :
    ∃ y, serve fuel ways inserted s r q = .ret y ∧ servable y.2.2 ∧
      y.2.2.numsets = s.numsets := by
  cases q with
  | victim setIndex =>
    simp only [serve]
    rcases h with h0 | ⟨h1, ha⟩ | ⟨h2, hr⟩
    · have hv : GetVictimInSet fuel s r setIndex = .ret (Get_LRU_Victim s setIndex, s) := by
        unfold GetVictimInSet
        rw [if_pos h0]
      rw [hv]
      exact ⟨_, rfl, Or.inl h0, rfl⟩
    · rw [GetVictimInSet_random fuel s r setIndex h1, if_neg (by omega)]
      exact ⟨_, rfl, Or.inr (Or.inl ⟨h1, ha⟩), rfl⟩
    · obtain ⟨way, s1, hget, hst, hn, hp⟩ :=
        Get_DRRIP_Victim_RRIPstate s setIndex fuel hr (hq setIndex rfl) hfuel
      have hv : GetVictimInSet fuel s r setIndex = .ret (way, s1) := by
        unfold GetVictimInSet
        rw [if_neg (by rw [h2]; decide), if_neg (by rw [h2]; decide), if_pos h2, hget]
      rw [hv]
      exact ⟨_, rfl, Or.inr (Or.inr ⟨by rw [hp]; exact h2, hst⟩), hn⟩
  | update setIndex way cacheHit =>
    simp only [serve]
    refine ⟨_, rfl, ?_⟩
    show servable (UpdateReplacementState s r setIndex way cacheHit) ∧
      (UpdateReplacementState s r setIndex way cacheHit).numsets = s.numsets
    rcases h with h0 | ⟨h1, ha⟩ | ⟨h2, hr⟩
    · have hu : UpdateReplacementState s r setIndex way cacheHit = UpdateLRU s setIndex way := by
        unfold UpdateReplacementState
        rw [if_pos h0]
      rw [hu]
      exact ⟨Or.inl h0, rfl⟩
    · have hu : UpdateReplacementState s r setIndex way cacheHit = s := by
        unfold UpdateReplacementState
        rw [if_neg (by rw [h1]; decide), if_pos h1]
      rw [hu]
      exact ⟨Or.inr (Or.inl ⟨h1, ha⟩), rfl⟩
    · have hu : UpdateReplacementState s r setIndex way cacheHit =
          UpdateDRRIP s r setIndex way cacheHit := by
        unfold UpdateReplacementState
        rw [if_neg (by rw [h2]; decide), if_neg (by rw [h2]; decide), if_pos h2]
      obtain ⟨hn, _, hp, _⟩ := UpdateDRRIP_geometry s r setIndex way cacheHit
      rw [hu]
      exact ⟨Or.inr (Or.inr ⟨by rw [hp]; exact h2,
        UpdateDRRIP_RRIPstate s r setIndex way cacheHit hr⟩), hn⟩

theorem runProcess_total (fuel : Nat) (hfuel : 4 ≤ fuel) (ev : List Event) :
    ∀ (x : RunState), servable x.state →
      (∀ e ∈ ev, ∀ i, e.request = .victim i → i < x.state.numsets) →
      ∃ z, runProcess fuel x ev = .ret z := by
  induction ev with
  | nil =>
    intro x _ _
    exact ⟨x, rfl⟩
  | cons e rest ih =>
    intro x hx hev
    obtain ⟨y, hy, hsv, hn⟩ := serve_total fuel hfuel x.ways x.inserted x.state
      (x.gen.draws (x.gen.pos + e.foreign)) e.request hx
      (hev e (List.mem_cons_self _ _))
    have hstep := stepProcess_of_serve fuel x e y.1 y.2.1 y.2.2 hy
    obtain ⟨z, hz⟩ := ih
      ⟨y.1, y.2.1,
        x.received ++
          (if callsRand x.state e.request then [x.gen.draws (x.gen.pos + e.foreign)] else []),
        y.2.2,
        ⟨x.gen.draws, x.gen.pos + e.foreign + (if callsRand x.state e.request then 1 else 0)⟩⟩
      hsv
      (fun e2 he2 i hi => by
        show i < y.2.2.numsets
        rw [hn]
        exact hev e2 (List.mem_cons_of_mem _ he2) i hi)
    refine ⟨z, ?_⟩
    simp only [runProcess, hstep]
    exact hz

/-- C33 (reproducibility).  `rand()` is taken as a generator of the process
that hands out an explicit stream of draws, and a run as a sequence of
`GetVictimInSet` and `UpdateReplacementState` calls between which other code
may call `rand()` too.  The engine calls `rand()` once in a victim selection
under Random and once in an update that inserts by BRRIP, and nowhere else;
it leaves the stream as it is and advances the generator by exactly the
draws it received and the calls of the other code.  From the same engine
state and with the same calls, a second run whose generator hands out, from
where it stands, the draws the first run consumed returns too, with the same
victims, the same inserted RRPVs and the same final state; and two runs that
differ in their generators and in the calls other code makes in between, but
in which the engine received the same draws, have the same victims, the same
inserted RRPVs and the same final state.  Runs do return: with room for 4
scans, from an LRU cache, a Random cache with a way or a contestant cache in
`RRIPstate`, and victim calls on sets of the cache. -/
theorem reproducibility (fuel : Nat) :
    (∀ (s : CACHE_REPLACEMENT_STATE) (g : RandState) (setIndex : Nat),
      GetVictimInSet_rand fuel s g setIndex =
        match GetVictimInSet fuel s (g.draws g.pos) setIndex with
        | .ret y => .ret (y.1, y.2, if s.replPolicy = CRC_REPL_RANDOM then (rand g).2 else g)
        | .assertFailed => .assertFailed
        | .outOfFuel => .outOfFuel
        | .divideByZero => .divideByZero) ∧
    (∀ (s : CACHE_REPLACEMENT_STATE) (g : RandState) (setIndex way : Nat) (cacheHit : Bool),
      UpdateReplacementState_rand s g setIndex way cacheHit =
        (UpdateReplacementState s (g.draws g.pos) setIndex way cacheHit,
          if insertsByBRRIP s setIndex cacheHit then (rand g).2 else g)) ∧
    (∀ (x z : RunState) (ev : List Event), runProcess fuel x ev = .ret z →
      z.gen.draws = x.gen.draws ∧
      ∃ t, z.received = x.received ++ t ∧
        z.gen.pos = x.gen.pos + (ev.map Event.foreign).sum + t.length) ∧
    (∀ (x1 x2 z1 : RunState) (ev : List Event), sameEngine x1 x2 →
      runProcess fuel x1 ev = .ret z1 →
      (∀ k, k < z1.gen.pos - x1.gen.pos →
        x2.gen.draws (x2.gen.pos + k) = x1.gen.draws (x1.gen.pos + k)) →
      ∃ z2, runProcess fuel x2 ev = .ret z2 ∧ sameEngine z1 z2 ∧
        z2.gen.pos = x2.gen.pos + (z1.gen.pos - x1.gen.pos)) ∧
    (∀ (x1 x2 z1 z2 : RunState) (ev1 ev2 : List Event), sameEngine x1 x2 →
      ev1.map Event.request = ev2.map Event.request →
      runProcess fuel x1 ev1 = .ret z1 → runProcess fuel x2 ev2 = .ret z2 →
      z1.received = z2.received →
      z1.ways = z2.ways ∧ z1.inserted = z2.inserted ∧ z1.state = z2.state) ∧
    (4 ≤ fuel → ∀ (x : RunState) (ev : List Event), servable x.state →
      (∀ e ∈ ev, ∀ i, e.request = .victim i → i < x.state.numsets) →
      ∃ z, runProcess fuel x ev = .ret z) := by
  refine ⟨GetVictimInSet_rand_eq fuel, UpdateReplacementState_rand_eq, ?_, ?_, ?_,
    fun hfuel x ev hx hev => runProcess_total fuel hfuel ev x hx hev⟩
  · intro x z ev h
    exact runProcess_gen fuel ev x z h
  · intro x1 x2 z1 ev hx h1 hwin
    exact runProcess_window fuel ev x1 x2 z1 hx h1 hwin
  · intro x1 x2 z1 z2 ev1 ev2 hx hev h1 h2 hz
    obtain ⟨hw, hi, _, hs⟩ := runProcess_sameEngine fuel ev1 ev2 x1 x2 z1 z2 hx hev h1 h2 hz
    exact ⟨hw, hi, hs⟩

/-- Worked example for C33: two runs on the Random cache with the calls victim
on set 0, miss update, victim on set 1.  In the first the generator returns
7, 8, ... from its first call; in the second it has made 5 calls, other code
calls `rand()` once before the first and twice before the second call of the
cache, and the engine again receives 7 and 8.  Both return the victims 3 and
0 and the same state. -/
theorem reproducibility_witness :
    ∃ z1 z2 : RunState,
      runProcess 4 ⟨[], [], [], randomExample, genFrom7⟩
        [⟨0, .victim 0⟩, ⟨0, .update 0 3 false⟩, ⟨0, .victim 1⟩] = .ret z1 ∧
      runProcess 4 ⟨[], [], [], randomExample, genSparse⟩
        [⟨1, .victim 0⟩, ⟨2, .update 0 3 false⟩, ⟨0, .victim 1⟩] = .ret z2 ∧
      z1.received = [7, 8] ∧ z2.received = [7, 8] ∧ z1.gen.pos = 2 ∧ z2.gen.pos = 10 ∧
      z1.ways = [3, 0] ∧
      (z1.ways = z2.ways ∧ z1.inserted = z2.inserted ∧ z1.state = z2.state) :=
  ⟨⟨[3, 0], [(randomExample.repl 0 3).RRPV], [7, 8], randomExample, ⟨genFrom7.draws, 2⟩⟩,
    ⟨[3, 0], [(randomExample.repl 0 3).RRPV], [7, 8], randomExample, ⟨genSparse.draws, 10⟩⟩,
    rfl, rfl, rfl, rfl, rfl, rfl, rfl,
    (reproducibility 4).2.2.2.2.1
      ⟨[], [], [], randomExample, genFrom7⟩ ⟨[], [], [], randomExample, genSparse⟩
      ⟨[3, 0], [(randomExample.repl 0 3).RRPV], [7, 8], randomExample, ⟨genFrom7.draws, 2⟩⟩
      ⟨[3, 0], [(randomExample.repl 0 3).RRPV], [7, 8], randomExample, ⟨genSparse.draws, 10⟩⟩
      [⟨0, .victim 0⟩, ⟨0, .update 0 3 false⟩, ⟨0, .victim 1⟩]
      [⟨1, .victim 0⟩, ⟨2, .update 0 3 false⟩, ⟨0, .victim 1⟩]
      ⟨rfl, rfl, rfl, rfl⟩ rfl rfl rfl rfl⟩

end LLCsim
